import Mathlib

/-!
# langchaingo-mcp-adapters: a shallow embedding

The Go packages `tool`, `client` and `prompt` are transcribed as Lean definitions.

* Go `string` is Lean `String` (valid UTF-8 text); Go `error` is carried by its
  message, `nil` being `none`.
* A Go `map[string]T` is an association list `GoMap T`; `GoMap.set` is the
  assignment `m[k] = v`, `GoMap.get` the lookup `m[k]`, `GoMap.delete` the
  builtin `delete`.  Ranging over a map visits the list in order; since Go leaves
  that order open, statements about a range are made up to permutation.
* Functions of the Go standard library whose result the code only passes on
  (`json.Unmarshal`, `strconv.ParseFloat`) are fields of `Stdlib`; the
  collaborator `client.MCPClient` is the record `MCPClient` of its answers.
* Calls made to collaborators and to the optional callback handler are logged
  in an event list, the way the mocks of the test-suite record them.
* The goroutines that `Start` launches are small-step machines (`TaskPc`,
  `Task.step`); a schedule, a list of goroutine numbers, says which one moves
  next, and statements about `Start` hold for every schedule.  A critical
  section of a goroutine is one step, enabled only while nobody holds the mutex.
* The context that `Start` derives with `context.WithCancel` and
  `errgroup.WithContext` and that its goroutines pass to every call is a flag
  of the group (`Errgroup.ctxDone`): it is done once a goroutine has returned
  an error or `c.cancel()` has been called.  The context that the caller gives
  to `Start` is taken to stay live, as `context.Background()` does.  A call
  made with a done context fails, or answers as it does with a live context
  (`connectToServer`, `MCPClient.InitializeCtx`, `LoadMCPToolsCtx`).
  `setupServer`, `succeeded` and `failed` follow one server on its own with a
  live context; `succeededIn` and `failedIn` read from the group which
  goroutines returned nil in a run.  A client that a connect function creates
  and closes again before it returns an error (client.go 259, 291) is part of
  the answer of that function and is not a connection of the goroutine.
* What each method does to the mutex is a list of statements (`Op`): the lock
  and unlock calls, the reads and writes of fields, and the calls that can
  block; `critical` picks the statements executed while the mutex is held.
-/

namespace MCPAdapters

/-! ## Values -/

/-- A Go `float64`, carried by its IEEE-754 bit pattern. -/
structure Float64 where
  bits : Nat
  deriving DecidableEq, Repr

/-- A Go `interface{}` holding a decoded JSON document. -/
inductive JVal where
  | null
  | bool (b : Bool)
  | num (x : Float64)
  | str (s : String)
  | arr (xs : List JVal)
  | obj (kvs : List (String × JVal))

/-- A Go `map[string]T`. -/
abbrev GoMap (β : Type) := List (String × β)

/-- The lookup `m[k]` with its `ok` flag. -/
def GoMap.get {β : Type} : GoMap β → String → Option β
  | [], _ => none
  | (k', v) :: rest, k => if k' = k then some v else GoMap.get rest k

/-- The assignment `m[k] = v`. -/
def GoMap.set {β : Type} : GoMap β → String → β → GoMap β
  | [], k, v => [(k, v)]
  | (k', v') :: rest, k, v =>
    if k' = k then (k, v) :: rest else (k', v') :: GoMap.set rest k v

/-- The builtin `delete(m, k)`. -/
def GoMap.delete {β : Type} : GoMap β → String → GoMap β
  | [], _ => []
  | (k', v') :: rest, k =>
    if k' = k then GoMap.delete rest k else (k', v') :: GoMap.delete rest k

/-- The keys of a map, in range order. -/
def GoMap.keys {β : Type} (m : GoMap β) : List String := m.map Prod.fst

/-! ## Pieces of the Go standard library that are computed here -/

/-- The predicate `unicode.IsSpace`. -/
def isSpace (c : Char) : Bool :=
  c = '\t' || c = '\n' || c = Char.ofNat 0x0B || c = Char.ofNat 0x0C || c = '\r' || c = ' ' ||
  c = Char.ofNat 0x85 || c = Char.ofNat 0xA0 || c = Char.ofNat 0x1680 ||
  (0x2000 ≤ c.toNat && c.toNat ≤ 0x200A) ||
  c = Char.ofNat 0x2028 || c = Char.ofNat 0x2029 || c = Char.ofNat 0x202F ||
  c = Char.ofNat 0x205F || c = Char.ofNat 0x3000

/-- The function `strings.TrimSpace`. -/
def TrimSpace (s : String) : String :=
  String.mk ((s.toList.dropWhile isSpace).reverse.dropWhile isSpace).reverse

/-- Worker of `Split`: `cur` holds the current piece, reversed. -/
def splitAux (sep : Char) : List Char → List Char → List (List Char)
  | [], cur => [cur.reverse]
  | c :: cs, cur =>
    if c = sep then cur.reverse :: splitAux sep cs [] else splitAux sep cs (c :: cur)

/-- The function `strings.Split` for a one-character separator. -/
def Split (s : String) (sep : Char) : List String :=
  (splitAux sep s.toList []).map String.mk

/-- The function `sort.Strings`: ascending order of the strings. -/
def sortStrings (xs : List String) : List String :=
  xs.insertionSort (fun a b => a.toList ≤ b.toList)

/-- The standard-library functions whose results the adapter only passes on. -/
structure Stdlib where
  /-- The call `json.Unmarshal([]byte(input), &arguments)` on a nil
  `map[string]interface{}`: the error, or the value left in `arguments`
  (`none` is the nil map, which the JSON literal `null` leaves in place). -/
  Unmarshal : String → Except String (Option (GoMap JVal))
  /-- The call `strconv.ParseFloat(s, 64)`. -/
  ParseFloat : String → Except String Float64

/-! ## Package mcp: the data exchanged with a server -/

/-- The type `mcp.ToolInputSchema`. -/
structure ToolInputSchema where
  Type_ : String
  Properties : GoMap JVal
  Required : List String

/-- The type `mcp.Tool`. -/
structure Tool where
  Name : String
  Description : String
  InputSchema : ToolInputSchema

/-- The interface `mcp.Content` with its implementations. -/
inductive Content where
  | TextContent (Text : String)
  | ImageContent (Data : String) (MIMEType : String)
  | EmbeddedResource (URI : String)
  | Other (typeName : String)
  deriving DecidableEq, Repr

/-- The type `mcp.CallToolResult`. -/
structure CallToolResult where
  Content : List Content
  IsError : Bool
  deriving DecidableEq, Repr

/-- The type `mcp.CallToolRequest` (its `Params`). -/
structure CallToolRequest where
  Name : String
  Arguments : Option (GoMap JVal)

/-! ## Package tool -/

/-- The function `processCallToolResult`: the text of the result and the error. -/
def processCallToolResult (result : CallToolResult) : String × Option String :=
  let outputText := result.Content.foldl (fun outputBuilder content =>
    match content with
    | Content.TextContent text =>
      (if outputBuilder.length > 0 then outputBuilder ++ "\n" else outputBuilder) ++ text
    | _ => outputBuilder) ""
  if result.IsError then (outputText, some outputText) else (outputText, none)

/-- What the mocks record: notifications to the callback handler and requests
sent through the client. -/
inductive Event where
  | HandleToolStart (input : String)
  | HandleToolError (err : String)
  | HandleToolEnd (output : String)
  | CallTool (request : CallToolRequest)

/-- The type `mcp.Implementation`. -/
structure Implementation where
  Name : String
  Version : String
  deriving DecidableEq, Repr

/-- The type `mcp.ClientCapabilities`. -/
structure ClientCapabilities where
  Experimental : Option (GoMap JVal)
  Roots : Option Bool
  Sampling : Bool

/-- The type `mcp.InitializeRequest` (its `Params`). -/
structure InitializeRequest where
  ProtocolVersion : String
  ClientInfo : Implementation
  Capabilities : ClientCapabilities

/-- The type `mcp.PromptMessage`. -/
structure PromptMessage where
  Role : String
  Content : Content
  deriving DecidableEq, Repr

/-- The type `mcp.GetPromptRequest` (its `Params`). -/
structure GetPromptRequest where
  Name : String
  Arguments : Option (GoMap String)
  deriving DecidableEq, Repr

/-- The interface `client.MCPClient`, as the answers of one connection: each
method is the answer it gives (a function of the request where the code sends
one), either an error or a result that is not nil, when the context it is called
with is live.  `Initialize` also receives the timeout of the context it is
called with, in nanoseconds.  `InitializeDone` and `ListToolsDone` say what a
context that is done changes: `some err` when the call then fails with `err`,
`none` when the connection answers as with a live context.  A connection is told
apart from another by `id`. -/
structure MCPClient where
  id : Nat
  Initialize : Int → InitializeRequest → Except String Implementation
  ListTools : Except String (List Tool)
  CallTool : CallToolRequest → Except String CallToolResult
  GetPrompt : GetPromptRequest → Except String (List PromptMessage)
  Close : Option String
  InitializeDone : Option String
  ListToolsDone : Option String

/-- The call `mcpClient.Initialize(initCtx, initRequest)`; `done` tells whether
the context is done when the call is made. -/
def MCPClient.InitializeCtx (mcpClient : MCPClient) (done : Bool) (timeout : Int)
    (request : InitializeRequest) : Except String Implementation :=
  match (if done then mcpClient.InitializeDone else none) with
  | some err => Except.error err
  | none => mcpClient.Initialize timeout request

/-- The type `LangchainMCPTool`; `callbacks` tells whether a handler is
attached (`t.callbacks != nil`). -/
structure LangchainMCPTool where
  mcpTool : Tool
  mcpClient : MCPClient
  callbacks : Bool

/-- The constructor `NewLangchainMCPTool`. -/
def NewLangchainMCPTool (mcpTool : Tool) (mcpClient : MCPClient) (handler : Bool) :
    LangchainMCPTool :=
  { mcpTool := mcpTool, mcpClient := mcpClient, callbacks := handler }

/-- The method `LangchainMCPTool.Name`. -/
def LangchainMCPTool.Name (t : LangchainMCPTool) : String := t.mcpTool.Name

/-- The method `LangchainMCPTool.Description`. -/
def LangchainMCPTool.Description (t : LangchainMCPTool) : String := t.mcpTool.Description

/-- The test `propSchema, ok := schema.(map[string]interface{});
ok && propSchema["type"] == kind` of `Call`. -/
def hasType (schema : JVal) (kind : String) : Bool :=
  match schema with
  | JVal.obj propSchema =>
    match GoMap.get propSchema "type" with
    | some (JVal.str s) => s = kind
    | _ => false
  | _ => false

/-- The loop of `Call` over the comma-separated parts (tool.go, 90-109):
`none` is `parseSuccess = false`, otherwise the filled `parsedArgs`. -/
def parseParts (lib : Stdlib) (sortedRequiredArgs : List String) :
    List String → Nat → GoMap JVal → Option (GoMap JVal)
  | [], _, parsedArgs => some parsedArgs
  | part :: rest, i, parsedArgs =>
    let trimmedPart := TrimSpace part
    match lib.ParseFloat trimmedPart with
    | Except.error _ => none
    | Except.ok num =>
      match sortedRequiredArgs[i]? with
      | some targetArgName =>
        parseParts lib sortedRequiredArgs rest (i + 1)
          (GoMap.set parsedArgs targetArgName (JVal.num num))
      | none => none

/-- The first fallback of `Call`, comma-separated numbers (tool.go, 60-117):
the arguments when `parseSuccess` holds, `none` when the attempt is skipped or
gives up. -/
def parseCommaSeparated (lib : Stdlib) (mcpTool : Tool) (input : String) :
    Option (GoMap JVal) :=
  let parts := Split input ','
  let requiredArgs := mcpTool.InputSchema.Required
  let isMultiNumberTool := mcpTool.InputSchema.Properties.all (fun p => hasType p.2 "number")
  if parts.length > 1 && isMultiNumberTool && parts.length = requiredArgs.length then
    let sortedRequiredArgs := sortStrings requiredArgs
    parseParts lib sortedRequiredArgs parts 0 []
  else none

/-- The second fallback of `Call`, the input as the single string argument
(tool.go, 119-128); `argNames` are the sorted property names. -/
def parseSingleString (mcpTool : Tool) (input : String) : Option (GoMap JVal) :=
  let argNames := sortStrings (GoMap.keys mcpTool.InputSchema.Properties)
  if mcpTool.InputSchema.Properties.length = 1 then
    match argNames with
    | singleArgName :: _ =>
      match GoMap.get mcpTool.InputSchema.Properties singleArgName with
      | some schema =>
        if hasType schema "string" then some [(singleArgName, JVal.str input)] else none
      | none => none
    | [] => none
  else none

/-- The fallbacks of `Call` once `json.Unmarshal` has failed with `jsonErr`
(tool.go, 57-139): the arguments found, or `jsonErr` kept. -/
def parseFallback (lib : Stdlib) (mcpTool : Tool) (input : String) (jsonErr : String) :
    Except String (GoMap JVal) :=
  match parseCommaSeparated lib mcpTool input with
  | some parsedArgs => Except.ok parsedArgs
  | none =>
    match parseSingleString mcpTool input with
    | some arguments => Except.ok arguments
    | none => Except.error jsonErr

/-- The argument parsing of `Call` (tool.go, 54-139): the arguments of the
request, or the error of `json.Unmarshal` when every attempt failed. -/
def parseInput (lib : Stdlib) (mcpTool : Tool) (input : String) :
    Except String (Option (GoMap JVal)) :=
  match lib.Unmarshal input with
  | Except.ok arguments => Except.ok arguments
  | Except.error jsonErr =>
    match parseFallback lib mcpTool input jsonErr with
    | Except.ok arguments => Except.ok (some arguments)
    | Except.error e => Except.error e

/-- What `Call` returns, with the events it caused. -/
structure CallReturn where
  output : String
  err : Option String
  events : List Event

/-- The notification `f` when a handler is attached. -/
def notify (t : LangchainMCPTool) (e : Event) : List Event :=
  if t.callbacks then [e] else []

/-- The method `LangchainMCPTool.Call`. -/
def Call (lib : Stdlib) (t : LangchainMCPTool) (input : String) : CallReturn :=
  let started := notify t (Event.HandleToolStart input)
  match parseInput lib t.mcpTool input with
  | Except.error jsonErr =>
    let err := "failed to parse tool input '" ++ input ++
      "': not valid JSON and other parsing attempts failed: " ++ jsonErr
    { output := "Error: " ++ err, err := none,
      events := started ++ notify t (Event.HandleToolError err) }
  | Except.ok arguments =>
    let request : CallToolRequest := { Name := t.mcpTool.Name, Arguments := arguments }
    let called := started ++ [Event.CallTool request]
    match t.mcpClient.CallTool request with
    | Except.error cause =>
      let err := "failed to call MCP tool " ++ t.mcpTool.Name ++ ": " ++ cause
      { output := "Error calling tool " ++ t.mcpTool.Name ++ ": " ++ err, err := none,
        events := called ++ notify t (Event.HandleToolError err) }
    | Except.ok result =>
      match processCallToolResult result with
      | (output, some toolErr) =>
        { output := output, err := none,
          events := called ++ notify t
            (Event.HandleToolError ("tool " ++ t.Name ++ " execution failed: " ++ toolErr)) }
      | (output, none) =>
        { output := output, err := none,
          events := called ++ notify t (Event.HandleToolEnd output) }

/-- The requests sent through the client among the events. -/
def requests : List Event → List CallToolRequest
  | [] => []
  | Event.CallTool r :: es => r :: requests es
  | _ :: es => requests es

/-- The notifications to the handler among the events. -/
def notifications : List Event → List Event
  | [] => []
  | Event.CallTool _ :: es => notifications es
  | e :: es => e :: notifications es

/-- The function `LoadMCPTools`. -/
def LoadMCPTools (mcpClient : MCPClient) : Except String (List LangchainMCPTool) :=
  match mcpClient.ListTools with
  | Except.error err => Except.error ("failed to list MCP tools: " ++ err)
  | Except.ok tools =>
    Except.ok (tools.map (fun mcpTool => NewLangchainMCPTool mcpTool mcpClient false))

/-- The function `LoadMCPTools` called with a context; `done` tells whether the
context is done when the listing request is made. -/
def LoadMCPToolsCtx (done : Bool) (mcpClient : MCPClient) :
    Except String (List LangchainMCPTool) :=
  match (if done then mcpClient.ListToolsDone else none) with
  | some err => Except.error ("failed to list MCP tools: " ++ err)
  | none => LoadMCPTools mcpClient

/-! ## Package client -/

/-- The constant `DefaultStdioConnectionTimeout`, a `time.Duration` in nanoseconds. -/
def DefaultStdioConnectionTimeout : Int := 30 * 1000000000

/-- The type `StdioConnection`. -/
structure StdioConnection where
  Transport : String
  Command : String
  Args : List String
  Env : Option (GoMap String)
  Cwd : String
  Encoding : String
  EncodingErrorHandler : String
  ConnectionTimeout : Int
  InitializationTimeout : Int
  NotificationBufferSize : Int
  deriving DecidableEq, Repr

/-- The type `SSEConnection`. -/
structure SSEConnection where
  Transport : String
  URL : String
  Headers : Option (GoMap String)
  Timeout : Int
  SSEReadTimeout : Int
  InitializationTimeout : Int
  deriving DecidableEq, Repr

/-- The type `ConnectionConfig`, an empty interface: one of the two connection
types, or a value of another type. -/
inductive ConnectionConfig where
  | Stdio (cfg : StdioConnection)
  | SSE (cfg : SSEConnection)
  | Other
  deriving DecidableEq, Repr

/-- What lies outside the package: the transports that `connectToServerViaStdio`
and `connectToServerViaSSE` start, and the constant
`mcp.LATEST_PROTOCOL_VERSION`.  The first two fields are the result of the whole
function for a server name and its configuration when the context passed is
live, errors wrapped as the function wraps them.  The `Done` fields are for a
context that is done: `connectToServerViaStdio` then returns an error in every
case (the client is not created, or the check of `connectCtx.Err()`, client.go
257-261, fails), and `connectToServerViaSSE` fails with `some err` when
`mcpClient.Start(startCtx)` does (client.go 288-293) and answers as with a live
context when `none`. -/
structure World where
  connectToServerViaStdio : String → StdioConnection → Except String MCPClient
  connectToServerViaSSE : String → SSEConnection → Except String MCPClient
  LATEST_PROTOCOL_VERSION : String
  connectToServerViaStdioDone : String → StdioConnection → String
  connectToServerViaSSEDone : String → SSEConnection → Option String

/-- The method `connectToServer`; `done` tells whether the context passed is
done when the transport looks at it. -/
def connectToServer (w : World) (done : Bool) (serverName : String)
    (config : ConnectionConfig) : Except String MCPClient :=
  match config with
  | ConnectionConfig.Stdio cfg =>
    if done then Except.error (w.connectToServerViaStdioDone serverName cfg)
    else w.connectToServerViaStdio serverName cfg
  | ConnectionConfig.SSE cfg =>
    match (if done then w.connectToServerViaSSEDone serverName cfg else none) with
    | some err => Except.error err
    | none => w.connectToServerViaSSE serverName cfg
  | ConnectionConfig.Other =>
    Except.error ("unknown connection type for server " ++ serverName)

/-- A call made to a collaborator, as a mock would record it. -/
inductive Remote where
  | connect (serverName : String)
  | Initialize (serverName : String) (client : Nat)
  | ListTools (serverName : String) (client : Nat)
  | Close (serverName : String) (client : Nat)
  | cancel
  deriving DecidableEq, Repr

/-- Where a goroutine launched by `Start` stands (client.go, 125-154, with
`initializeSessionAndLoadTools` inlined); each constructor is the next thing it
does, with the local variables it holds. -/
inductive TaskPc where
  /-- Line 127: call `connectToServer`. -/
  | connect
  /-- Lines 134-137: under the lock, `c.sessions[name] = mcpClient`. -/
  | storeSession (mcpClient : MCPClient)
  /-- Lines 303-306: under the read lock, read `c.connections[serverName]`. -/
  | readConfig (mcpClient : MCPClient)
  /-- Line 336: call `mcpClient.Initialize`. -/
  | handshake (mcpClient : MCPClient) (timeout : Int)
  /-- Line 346: call `LoadMCPTools`. -/
  | loadTools (mcpClient : MCPClient)
  /-- Lines 354-357: under the lock, `c.serverNameToTools[serverName] = loadedTools`. -/
  | storeTools (mcpClient : MCPClient) (loadedTools : List LangchainMCPTool)
  /-- Line 144: `initializeSessionAndLoadTools` returned `err`; call `mcpClient.Close`. -/
  | closeFailed (mcpClient : MCPClient) (err : String)
  /-- Lines 146-148: under the lock, `delete(c.sessions, name)`. -/
  | deleteSession (err : String)
  /-- The goroutine has returned `ret`. -/
  | done (ret : Option String)

/-- Whether the goroutine has returned. -/
def TaskPc.isDone : TaskPc → Bool
  | TaskPc.done _ => true
  | _ => false

/-- A goroutine launched by `Start` for one entry of `c.connections`. -/
structure Task where
  name : String
  cfg : ConnectionConfig
  pc : TaskPc

/-- The type `errgroup.Group` made by `errgroup.WithContext` (client.go, 116-117):
the goroutines started with `Go`, the first non-nil error one of them returned,
and whether `c.cancel()` has been called on the context that the context of the
group derives from. -/
structure Errgroup where
  tasks : List Task
  err : Option String
  cancelled : Bool

/-- Whether the context of the group, which every goroutine passes to its calls,
is done: the group cancels it when the first goroutine returns an error, and so
does `c.cancel()`. -/
def Errgroup.ctxDone (g : Errgroup) : Bool := g.err.isSome || g.cancelled

/-- The type `MultiServerMCPClient`.  `mu` tells whether the mutex is held across
steps (by `Start` while it launches, by `Close` until it returns); a critical
section of a goroutine is one step.  `cancel` tells whether the cancel function
is set.  `calls` is not a field of the Go type: it records the calls made to
collaborators. -/
structure MultiServerMCPClient where
  connections : GoMap ConnectionConfig
  sessions : GoMap MCPClient
  serverNameToTools : GoMap (List LangchainMCPTool)
  mu : Bool
  eg : Option Errgroup
  cancel : Bool
  clientInfo : Implementation
  clientCapabilities : ClientCapabilities
  calls : List Remote

/-- Whether the context that the goroutines of the client pass to their calls is
done. -/
def ctxDone (c : MultiServerMCPClient) : Bool :=
  match c.eg with
  | some g => g.ctxDone
  | none => false

/-- The constructor `NewMultiServerMCPClient`. -/
def NewMultiServerMCPClient (connections : GoMap ConnectionConfig)
    (clientInfo : Implementation) (clientCapabilities : ClientCapabilities) :
    MultiServerMCPClient :=
  let clientInfo :=
    if clientInfo.Name = "" then { clientInfo with Name := "langchaingo-mcp-client" }
    else clientInfo
  let clientInfo :=
    if clientInfo.Version = "" then { clientInfo with Version := "0.0.1" } else clientInfo
  { connections := connections, sessions := [], serverNameToTools := [], mu := false,
    eg := none, cancel := false, clientInfo := clientInfo,
    clientCapabilities := clientCapabilities, calls := [] }

/-- The timeout chosen by `initializeSessionAndLoadTools` (client.go, 301-324)
from `config, ok := c.connections[serverName]`. -/
def initializationTimeout (config : Option ConnectionConfig) : Int :=
  match config with
  | some (ConnectionConfig.Stdio cfg) =>
    if cfg.InitializationTimeout > 0 then cfg.InitializationTimeout
    else DefaultStdioConnectionTimeout
  | some (ConnectionConfig.SSE cfg) =>
    if cfg.InitializationTimeout > 0 then cfg.InitializationTimeout
    else DefaultStdioConnectionTimeout
  | _ => DefaultStdioConnectionTimeout

/-- The request built by `initializeSessionAndLoadTools` (client.go, 330-333). -/
def initRequest (w : World) (clientInfo : Implementation)
    (clientCapabilities : ClientCapabilities) : InitializeRequest :=
  { ProtocolVersion := w.LATEST_PROTOCOL_VERSION, ClientInfo := clientInfo,
    Capabilities := clientCapabilities }

/-- One step of the goroutine `t`: its next position and the client after the
step; `none` when it cannot move (it has returned, or it needs the mutex while
the mutex is held).  A call to a collaborator is made with the context of the
group, in the state it has when the step is taken. -/
def Task.step (w : World) (c : MultiServerMCPClient) (t : Task) :
    Option (TaskPc × MultiServerMCPClient) :=
  match t.pc with
  | TaskPc.connect =>
    let c1 := { c with calls := c.calls ++ [Remote.connect t.name] }
    match connectToServer w (ctxDone c) t.name t.cfg with
    | Except.error err =>
      some (TaskPc.done (some ("failed to connect to server " ++ t.name ++ ": " ++ err)), c1)
    | Except.ok mcpClient => some (TaskPc.storeSession mcpClient, c1)
  | TaskPc.storeSession mcpClient =>
    if c.mu then none
    else some (TaskPc.readConfig mcpClient,
      { c with sessions := GoMap.set c.sessions t.name mcpClient })
  | TaskPc.readConfig mcpClient =>
    if c.mu then none
    else some (TaskPc.handshake mcpClient
      (initializationTimeout (GoMap.get c.connections t.name)), c)
  | TaskPc.handshake mcpClient timeout =>
    let c1 := { c with calls := c.calls ++ [Remote.Initialize t.name mcpClient.id] }
    match mcpClient.InitializeCtx (ctxDone c) timeout
        (initRequest w c.clientInfo c.clientCapabilities) with
    | Except.error err =>
      some (TaskPc.closeFailed mcpClient
        ("MCP initialization failed for " ++ t.name ++ ": " ++ err), c1)
    | Except.ok _ => some (TaskPc.loadTools mcpClient, c1)
  | TaskPc.loadTools mcpClient =>
    let c1 := { c with calls := c.calls ++ [Remote.ListTools t.name mcpClient.id] }
    match LoadMCPToolsCtx (ctxDone c) mcpClient with
    | Except.error err =>
      some (TaskPc.closeFailed mcpClient
        ("failed to load tools for " ++ t.name ++ ": " ++ err), c1)
    | Except.ok loadedTools => some (TaskPc.storeTools mcpClient loadedTools, c1)
  | TaskPc.storeTools _ loadedTools =>
    if c.mu then none
    else some (TaskPc.done none,
      { c with serverNameToTools := GoMap.set c.serverNameToTools t.name loadedTools })
  | TaskPc.closeFailed mcpClient err =>
    some (TaskPc.deleteSession err,
      { c with calls := c.calls ++ [Remote.Close t.name mcpClient.id] })
  | TaskPc.deleteSession err =>
    if c.mu then none
    else some (TaskPc.done
        (some ("failed to initialize/load tools for server " ++ t.name ++ ": " ++ err)),
      { c with sessions := GoMap.delete c.sessions t.name })
  | TaskPc.done _ => none

/-- The error kept by the group when a goroutine moves to `pc`: the first
non-nil error returned stays. -/
def Errgroup.record (old : Option String) (pc : TaskPc) : Option String :=
  match old, pc with
  | none, TaskPc.done (some e) => some e
  | _, _ => old

/-- The scheduler lets goroutine number `i` of the group take one step; nothing
changes when there is no such goroutine or it cannot move. -/
def stepTask (w : World) (c : MultiServerMCPClient) (i : Nat) : MultiServerMCPClient :=
  match c.eg with
  | none => c
  | some g =>
    match g.tasks[i]? with
    | none => c
    | some t =>
      match Task.step w c t with
      | none => c
      | some (pc, c1) =>
        { c1 with eg := some { g with tasks := g.tasks.set i { t with pc := pc },
                                      err := Errgroup.record g.err pc } }

/-- The goroutines run as the schedule says, one step at a time. -/
def runTasks (w : World) (c : MultiServerMCPClient) : List Nat → MultiServerMCPClient
  | [] => c
  | i :: schedule => runTasks w (stepTask w c i) schedule

/-- Whether `eg.Wait()` can return: every goroutine has returned. -/
def Errgroup.finished (g : Errgroup) : Bool := g.tasks.all (fun t => t.pc.isDone)

/-- How a call of `Start` ends. -/
inductive StartResult where
  /-- The call has not returned: it waits for the mutex or for the goroutines. -/
  | blocked
  /-- The call returned `err`, leaving the client `c`. -/
  | returned (c : MultiServerMCPClient) (err : Option String)

/-- The part of `Start` that runs with the mutex held (client.go, 115-155): the
cancel function and the group are set, with a new context, and one goroutine is
launched for each entry of `c.connections`. -/
def launch (c : MultiServerMCPClient) : MultiServerMCPClient :=
  { c with mu := true, cancel := true,
           eg := some { tasks := c.connections.map
                          (fun p => { name := p.1, cfg := p.2, pc := TaskPc.connect }),
                        err := none, cancelled := false } }

/-- The call `c.mu.Unlock()` by the holder of the mutex. -/
def unlock (c : MultiServerMCPClient) : MultiServerMCPClient := { c with mu := false }

/-- The method `Start`.  The goroutines take the steps of `before` while `Start`
still holds the mutex and those of `after` once it has released it; `Start`
returns when `eg.Wait()` does. -/
def Start (w : World) (c : MultiServerMCPClient) (before after : List Nat) : StartResult :=
  if c.mu then StartResult.blocked
  else
    match c.eg with
    | some _ => StartResult.returned c (some "client already started")
    | none =>
      let run := runTasks w (unlock (runTasks w (launch c) before)) after
      match run.eg with
      | some g => if g.finished then StartResult.returned run g.err else StartResult.blocked
      | none => StartResult.blocked

/-- The errors collected by the loop of `Close` over the sessions. -/
def closeErrors (sessions : GoMap MCPClient) : List String :=
  sessions.filterMap (fun p =>
    match p.2.Close with
    | some err => some ("failed to close session " ++ p.1 ++ ": " ++ err)
    | none => none)

/-- The method `Close`.  The goroutines still running take the steps of `during`
while `Close`, holding the mutex, is in `eg.Wait()`; `none` when `Close` has not
returned (it waits for the mutex or for the goroutines).  The call `c.cancel()`
makes the context of the group done. -/
def Close (w : World) (c : MultiServerMCPClient) (during : List Nat) :
    Option (MultiServerMCPClient × Option String) :=
  if c.mu then none
  else
    let cancelled := if c.cancel then [Remote.cancel] else []
    let errors := closeErrors c.sessions
    let closed : MultiServerMCPClient :=
      { c with mu := true, sessions := [],
               eg := c.eg.map (fun g => { g with cancelled := g.cancelled || c.cancel }),
               calls := c.calls ++ cancelled ++
                 c.sessions.map (fun p => Remote.Close p.1 p.2.id) }
    let waited := runTasks w closed during
    match waited.eg with
    | some g =>
      if g.finished then
        some ({ waited with eg := none, mu := false },
          match errors with
          | first :: _ => some first
          | [] => g.err)
      else none
    | none =>
      some ({ waited with mu := false },
        match errors with
        | first :: _ => some first
        | [] => none)

/-- The method `GetTools`. -/
def GetTools (c : MultiServerMCPClient) : List LangchainMCPTool :=
  c.serverNameToTools.foldl (fun allTools p => allTools ++ p.2) []

/-- The setup of one server followed on its own, with a context that stays live
(the body of the goroutine, client.go 126-153): the connection and the tools it
stores, or the error the goroutine returns. -/
def setupServer (w : World) (c : MultiServerMCPClient) (name : String)
    (cfg : ConnectionConfig) : Except String (MCPClient × List LangchainMCPTool) :=
  match connectToServer w false name cfg with
  | Except.error err => Except.error ("failed to connect to server " ++ name ++ ": " ++ err)
  | Except.ok mcpClient =>
    match mcpClient.Initialize (initializationTimeout (GoMap.get c.connections name))
        (initRequest w c.clientInfo c.clientCapabilities) with
    | Except.error err =>
      Except.error ("failed to initialize/load tools for server " ++ name ++ ": " ++
        ("MCP initialization failed for " ++ name ++ ": " ++ err))
    | Except.ok _ =>
      match LoadMCPTools mcpClient with
      | Except.error err =>
        Except.error ("failed to initialize/load tools for server " ++ name ++ ": " ++
          ("failed to load tools for " ++ name ++ ": " ++ err))
      | Except.ok loadedTools => Except.ok (mcpClient, loadedTools)

/-- The servers whose setup succeeds when followed on its own (`setupServer`),
each with its connection and its tools. -/
def succeeded (w : World) (c : MultiServerMCPClient) :
    List (String × MCPClient × List LangchainMCPTool) :=
  c.connections.filterMap (fun p =>
    match setupServer w c p.1 p.2 with
    | Except.ok r => some (p.1, r)
    | Except.error _ => none)

/-- The servers whose setup fails when followed on its own (`setupServer`), each
with the error its goroutine then returns. -/
def failed (w : World) (c : MultiServerMCPClient) : List (String × String) :=
  c.connections.filterMap (fun p =>
    match setupServer w c p.1 p.2 with
    | Except.ok _ => none
    | Except.error e => some (p.1, e))

/-- What the two maps must hold under the name of a goroutine, given where the
goroutine stands: `session` is `c.sessions[name]`, `tools` is
`c.serverNameToTools[name]`, `c0` is the client when `Start` was called, and
`done` tells whether the context of the group is done.  A goroutine that has got
past a call has had the answer the call gives with a live context; a goroutine
that has failed has failed as it does on its own, unless the context is done. -/
def TaskOK (w : World) (c0 : MultiServerMCPClient) (done : Bool) (t : Task)
    (session : Option MCPClient) (tools : Option (List LangchainMCPTool)) : Prop :=
  match t.pc with
  | TaskPc.connect => session = none ∧ tools = none
  | TaskPc.storeSession cl =>
    connectToServer w false t.name t.cfg = Except.ok cl ∧ session = none ∧ tools = none
  | TaskPc.readConfig cl =>
    connectToServer w false t.name t.cfg = Except.ok cl ∧ session = some cl ∧ tools = none
  | TaskPc.handshake cl timeout =>
    connectToServer w false t.name t.cfg = Except.ok cl ∧
    timeout = initializationTimeout (GoMap.get c0.connections t.name) ∧
    session = some cl ∧ tools = none
  | TaskPc.loadTools cl =>
    connectToServer w false t.name t.cfg = Except.ok cl ∧
    (∃ r, cl.Initialize (initializationTimeout (GoMap.get c0.connections t.name))
      (initRequest w c0.clientInfo c0.clientCapabilities) = Except.ok r) ∧
    session = some cl ∧ tools = none
  | TaskPc.storeTools cl loaded =>
    setupServer w c0 t.name t.cfg = Except.ok (cl, loaded) ∧ session = some cl ∧ tools = none
  | TaskPc.closeFailed _ err =>
    (done = true ∨ setupServer w c0 t.name t.cfg = Except.error
      ("failed to initialize/load tools for server " ++ t.name ++ ": " ++ err)) ∧ tools = none
  | TaskPc.deleteSession err =>
    (done = true ∨ setupServer w c0 t.name t.cfg = Except.error
      ("failed to initialize/load tools for server " ++ t.name ++ ": " ++ err)) ∧ tools = none
  | TaskPc.done none =>
    ∃ cl loaded, setupServer w c0 t.name t.cfg = Except.ok (cl, loaded) ∧
      session = some cl ∧ tools = some loaded
  | TaskPc.done (some e) =>
    (done = true ∨ setupServer w c0 t.name t.cfg = Except.error e) ∧
    session = none ∧ tools = none

/-- The invariant of a run of `Start` called on `c0`: `c` is the client now,
`g` its group.  Nobody has called `c.cancel()`; every goroutine is where the
maps say; the group holds an error exactly when a goroutine returned one, and
the error it holds is the error that the setup of that server has on its own,
the goroutine having made its calls while the context was live; and the maps
hold nothing else. -/
structure StartInv (w : World) (c0 c : MultiServerMCPClient) (g : Errgroup) : Prop where
  eg : c.eg = some g
  live : g.cancelled = false
  conns : c.connections = c0.connections
  info : c.clientInfo = c0.clientInfo
  caps : c.clientCapabilities = c0.clientCapabilities
  tasks : g.tasks.map (fun t => (t.name, t.cfg)) = c0.connections
  ok : ∀ (i : Nat) (t : Task), g.tasks[i]? = some t →
    TaskOK w c0 g.ctxDone t (GoMap.get c.sessions t.name)
      (GoMap.get c.serverNameToTools t.name)
  errNone : g.err = none → ∀ (i : Nat) (t : Task) (e : String), g.tasks[i]? = some t →
    t.pc ≠ TaskPc.done (some e)
  errSome : ∀ e, g.err = some e →
    ∃ (i : Nat) (t : Task), g.tasks[i]? = some t ∧ t.pc = TaskPc.done (some e) ∧
      setupServer w c0 t.name t.cfg = Except.error e
  sessionsNodup : (GoMap.keys c.sessions).Nodup
  toolsNodup : (GoMap.keys c.serverNameToTools).Nodup
  outside : ∀ n, n ∉ GoMap.keys c0.connections →
    GoMap.get c.sessions n = none ∧ GoMap.get c.serverNameToTools n = none

/-- The map that keeps, under the same key, the values `f` gives. -/
def GoMap.filterMapValues {α β : Type} (m : GoMap α) (f : String → α → Option β) :
    GoMap β :=
  m.filterMap (fun p => (f p.1 p.2).map (fun v => (p.1, v)))

/-- The connection that the setup of a server leaves in `c.sessions`, if any. -/
def sessionOf (w : World) (c : MultiServerMCPClient) (name : String)
    (cfg : ConnectionConfig) : Option MCPClient :=
  match setupServer w c name cfg with
  | Except.ok r => some r.1
  | Except.error _ => none

/-- The tools that the setup of a server leaves in `c.serverNameToTools`, if any. -/
def toolsOf (w : World) (c : MultiServerMCPClient) (name : String)
    (cfg : ConnectionConfig) : Option (List LangchainMCPTool) :=
  match setupServer w c name cfg with
  | Except.ok r => some r.2
  | Except.error _ => none

/-- Whether the goroutine has returned nil. -/
def TaskPc.succeeded : TaskPc → Bool
  | TaskPc.done none => true
  | _ => false

/-- Whether the goroutine of the server `name` has returned nil in the group. -/
def Errgroup.succeeded (g : Errgroup) (name : String) : Bool :=
  g.tasks.any (fun t => decide (t.name = name) && t.pc.succeeded)

/-- What the goroutine has returned, `none` while it runs. -/
def Task.returned (t : Task) : Option (Option String) :=
  match t.pc with
  | TaskPc.done ret => some ret
  | _ => none

/-- An upper bound on the steps a goroutine still takes before it returns. -/
def TaskPc.rank : TaskPc → Nat
  | TaskPc.connect => 7
  | TaskPc.storeSession _ => 6
  | TaskPc.readConfig _ => 5
  | TaskPc.handshake _ _ => 4
  | TaskPc.loadTools _ => 3
  | TaskPc.closeFailed _ _ => 2
  | TaskPc.storeTools _ _ => 1
  | TaskPc.deleteSession _ => 1
  | TaskPc.done _ => 0

/-- A schedule that lets each of `n` goroutines run until it returns, one
goroutine after the other. -/
def fairSchedule (n : Nat) : List Nat :=
  (List.range n).flatMap (fun i => List.replicate 7 i)

/-- The client has a group of `n` goroutines, the mutex is free, and goroutine
`i` is at most `bound i` steps from returning. -/
def Ranks (c : MultiServerMCPClient) (n : Nat) (bound : Nat → Nat) : Prop :=
  ∃ g, c.eg = some g ∧ g.tasks.length = n ∧ c.mu = false ∧
    ∀ (i : Nat) (t : Task), g.tasks[i]? = some t → t.pc.rank ≤ bound i

/-- The claim of the specification for rendering: the texts of the text
fragments, in order. -/
def textFragments : List Content → List String
  | [] => []
  | Content.TextContent text :: rest => text :: textFragments rest
  | _ :: rest => textFragments rest

/-- Whether `Call` meets a failure: the parse fails, the transport fails, or the
result is flagged as an error. -/
def callFails (lib : Stdlib) (t : LangchainMCPTool) (input : String) : Bool :=
  match parseInput lib t.mcpTool input with
  | Except.error _ => true
  | Except.ok arguments =>
    match t.mcpClient.CallTool { Name := t.mcpTool.Name, Arguments := arguments } with
    | Except.error _ => true
    | Except.ok result => result.IsError

/-- The claim of the specification for the positional fallback: the map that
gives the i-th number to the i-th name, assigned one after the other. -/
def assignInOrder (names : List String) (nums : List Float64) : GoMap JVal :=
  (names.zip nums).foldl (fun m p => GoMap.set m p.1 (JVal.num p.2)) []

/-- The method `initializeSessionAndLoadTools`, called on its own with the
mutex free (as the tests call it): the client it leaves and the error it
returns; `none` when it waits for the mutex. -/
def initializeSessionAndLoadTools (w : World) (c : MultiServerMCPClient)
    (serverName : String) (mcpClient : MCPClient) :
    Option (MultiServerMCPClient × Option String) :=
  if c.mu then none
  else
    let timeout := initializationTimeout (GoMap.get c.connections serverName)
    let c1 := { c with calls := c.calls ++ [Remote.Initialize serverName mcpClient.id] }
    match mcpClient.Initialize timeout (initRequest w c.clientInfo c.clientCapabilities) with
    | Except.error err =>
      some (c1, some ("MCP initialization failed for " ++ serverName ++ ": " ++ err))
    | Except.ok _ =>
      let c2 := { c1 with calls := c1.calls ++ [Remote.ListTools serverName mcpClient.id] }
      match LoadMCPTools mcpClient with
      | Except.error err =>
        some (c2, some ("failed to load tools for " ++ serverName ++ ": " ++ err))
      | Except.ok loadedTools =>
        some ({ c2 with serverNameToTools :=
                  GoMap.set c2.serverNameToTools serverName loadedTools }, none)

/-- The client when `Close`, holding the mutex, reaches `eg.Wait()` (client.go,
174-187): the cancel function has been called if set, which makes the context
of the group done, every session has been closed and the sessions map is a new
empty map. -/
def closeLocked (c : MultiServerMCPClient) : MultiServerMCPClient :=
  { c with mu := true, sessions := [],
           eg := c.eg.map (fun g => { g with cancelled := g.cancelled || c.cancel }),
           calls := c.calls ++ (if c.cancel then [Remote.cancel] else []) ++
             c.sessions.map (fun p => Remote.Close p.1 p.2.id) }

/-- The calls of `Close` on a connection among the recorded calls. -/
def closeEvents (calls : List Remote) : List Remote :=
  calls.filter (fun r =>
    match r with
    | Remote.Close _ _ => true
    | _ => false)

/-- The goroutine has connected and has not returned: before it returns it
still has to take the mutex (to store its session, to store its tools or to
delete its session). -/
def TaskPc.needsMutex : TaskPc → Bool
  | TaskPc.connect => false
  | TaskPc.done _ => false
  | _ => true

/-- The underlying cause when the setup of a server fails: the error of the
connect, of the initialize request or of the tool listing. -/
def setupCause (w : World) (c : MultiServerMCPClient) (name : String)
    (cfg : ConnectionConfig) : Option String :=
  match connectToServer w false name cfg with
  | Except.error err => some err
  | Except.ok mcpClient =>
    match mcpClient.Initialize (initializationTimeout (GoMap.get c.connections name))
        (initRequest w c.clientInfo c.clientCapabilities) with
    | Except.error err => some err
    | Except.ok _ =>
      match mcpClient.ListTools with
      | Except.error err => some err
      | Except.ok _ => none

/-! ## Package prompt -/

/-- The constant `mcp.RoleUser`. -/
def RoleUser : String := "user"

/-- The constant `mcp.RoleAssistant`. -/
def RoleAssistant : String := "assistant"

/-- The interface `llms.ChatMessage` with the two implementations the package
builds. -/
inductive ChatMessage where
  | HumanChatMessage (Content : String)
  | AIChatMessage (Content : String)
  deriving DecidableEq, Repr

/-- The function `convertMCPPromptMessageToLangchainMessage`. -/
def convertMCPPromptMessageToLangchainMessage (message : PromptMessage) :
    Except String ChatMessage :=
  match message.Content with
  | Content.TextContent text =>
    if message.Role = RoleUser then Except.ok (ChatMessage.HumanChatMessage text)
    else if message.Role = RoleAssistant then Except.ok (ChatMessage.AIChatMessage text)
    else Except.error ("unsupported prompt message role: " ++ message.Role)
  | Content.ImageContent _ _ =>
    Except.error "unsupported prompt message content type: image"
  | Content.EmbeddedResource _ =>
    Except.error "unsupported prompt message content type: resource"
  | Content.Other typeName =>
    Except.error ("unknown prompt message content type: " ++ typeName)

/-- What `LoadMCPPrompt` and `GetPrompt` return (`messages` is `none` for a nil
slice), with the requests sent, each with the connection it was sent to. -/
structure PromptReturn where
  messages : Option (List ChatMessage)
  err : Option String
  requests : List (Nat × GetPromptRequest)
  deriving DecidableEq, Repr

/-- The function `LoadMCPPrompt`. -/
def LoadMCPPrompt (mcpClient : MCPClient) (name : String)
    (arguments : Option (GoMap String)) : PromptReturn :=
  let request : GetPromptRequest := { Name := name, Arguments := arguments }
  match mcpClient.GetPrompt request with
  | Except.error err =>
    { messages := none,
      err := some ("failed to get MCP prompt '" ++ name ++ "': " ++ err),
      requests := [(mcpClient.id, request)] }
  | Except.ok response =>
    { messages := some (response.filterMap (fun mcpMessage =>
        match convertMCPPromptMessageToLangchainMessage mcpMessage with
        | Except.ok lcMessage => some lcMessage
        | Except.error _ => none)),
      err := none,
      requests := [(mcpClient.id, request)] }

/-- The method `GetPrompt` of `MultiServerMCPClient`. -/
def GetPrompt (c : MultiServerMCPClient) (serverName promptName : String)
    (arguments : Option (GoMap String)) : PromptReturn :=
  match GoMap.get c.sessions serverName with
  | none =>
    { messages := none, err := some ("no active session for server: " ++ serverName),
      requests := [] }
  | some session => LoadMCPPrompt session promptName arguments

/-- What `LoadMCPTools` returns (`tools` is `none` for a nil slice), with the
connections to which it sent a listing request. -/
structure ToolsReturn where
  tools : Option (List LangchainMCPTool)
  err : Option String
  requests : List Nat

/-- The function `LoadMCPTools` with the listing requests it sends (tool.go,
208-223): the request of line 210 goes out before the result is looked at. -/
def LoadMCPToolsTraced (mcpClient : MCPClient) : ToolsReturn :=
  match mcpClient.ListTools with
  | Except.error err =>
    { tools := none, err := some ("failed to list MCP tools: " ++ err),
      requests := [mcpClient.id] }
  | Except.ok tools =>
    { tools := some (tools.map (fun mcpTool => NewLangchainMCPTool mcpTool mcpClient false)),
      err := none, requests := [mcpClient.id] }

/-! ## Package prompt: the conversion as the specification words it -/

/-- The conversion of one prompt message as the specification words it: a text
message of the user becomes a human message, a text message of the assistant an
AI message, each with the same text; every other message is dropped. -/
def specPromptConversion (message : PromptMessage) : Option ChatMessage :=
  match message.Content with
  | Content.TextContent text =>
    if message.Role = "user" then some (ChatMessage.HumanChatMessage text)
    else if message.Role = "assistant" then some (ChatMessage.AIChatMessage text)
    else none
  | _ => none

/-! ## The mutex: what each method does while it holds it -/

/-- A call that can block: a call to a collaborator over the network or to a
process, or the wait for the goroutines of the group. -/
inductive Blocking where
  /-- The call `c.connectToServer(ctx, name, cfg)`. -/
  | connect (serverName : String)
  /-- The call `mcpClient.Initialize(initCtx, initRequest)`. -/
  | Initialize (serverName : String) (client : Nat)
  /-- The call `mcpClient.ListTools(ctx, listRequest)` made by `LoadMCPTools`. -/
  | ListTools (serverName : String) (client : Nat)
  /-- The call `mcpClient.GetPrompt(ctx, request)` made by `LoadMCPPrompt`. -/
  | GetPrompt (client : Nat)
  /-- The call `Close()` on a connection. -/
  | Close (serverName : String) (client : Nat)
  /-- The call `c.eg.Wait()`. -/
  | Wait
  deriving DecidableEq, Repr

/-- What a method of `MultiServerMCPClient` or a goroutine of `Start` does to the
mutex `c.mu` and between its uses, one statement after the other.  A call made
on a field (`c.cancel()`, `c.eg.Go`, `c.eg.Wait()`, `session.Close()`) is the
call alone; `access` is a statement that only reads or writes the named field or
map of the client. -/
inductive Op where
  /-- The call `c.mu.Lock()`. -/
  | Lock
  /-- The call `c.mu.Unlock()`, deferred or not. -/
  | Unlock
  /-- The call `c.mu.RLock()`. -/
  | RLock
  /-- The call `c.mu.RUnlock()`, deferred or not. -/
  | RUnlock
  | access (field : String)
  /-- The call `c.cancel()`, which does not block. -/
  | cancel
  /-- The call `c.eg.Go(...)` for one server, which does not block. -/
  | Go (serverName : String)
  | blocking (call : Blocking)
  deriving DecidableEq, Repr

/-- Whether the statement is a call that can block. -/
def Op.isBlocking : Op → Bool
  | Op.blocking _ => true
  | _ => false

/-- Whether the statement only reads or writes a field or map of the client. -/
def Op.isAccess : Op → Bool
  | Op.access _ => true
  | _ => false

/-- Whether the statement takes or releases the mutex. -/
def Op.isLockOp : Op → Bool
  | Op.Lock => true
  | Op.Unlock => true
  | Op.RLock => true
  | Op.RUnlock => true
  | _ => false

/-- Whether the statement takes the mutex. -/
def Op.takesMutex : Op → Bool
  | Op.Lock => true
  | Op.RLock => true
  | _ => false

/-- The statements executed while the one who executes them holds the mutex;
`held` tells whether it is held at the start. -/
def critical : Bool → List Op → List Op
  | _, [] => []
  | held, op :: rest =>
    match op with
    | Op.Lock => critical true rest
    | Op.RLock => critical true rest
    | Op.Unlock => critical false rest
    | Op.RUnlock => critical false rest
    | _ => if held then op :: critical held rest else critical held rest

/-- No call that can block is made while the mutex is held. -/
def noBlockingUnderLock (ops : List Op) : Bool :=
  (critical false ops).all (fun op => !op.isBlocking)

/-- Every critical section consists of reads and writes of fields and maps
only. -/
def criticalSectionsAccessOnly (ops : List Op) : Bool :=
  (critical false ops).all Op.isAccess

/-- The collaborator call that a statement records in `calls`, if any. -/
def Op.remote : Op → Option Remote
  | Op.cancel => some Remote.cancel
  | Op.blocking (Blocking.connect n) => some (Remote.connect n)
  | Op.blocking (Blocking.Initialize n id) => some (Remote.Initialize n id)
  | Op.blocking (Blocking.ListTools n id) => some (Remote.ListTools n id)
  | Op.blocking (Blocking.Close n id) => some (Remote.Close n id)
  | _ => none

/-- The statements of one step of a goroutine of `Start` that stands at `pc`
(client.go, 125-154 and 299-362). -/
def TaskPc.ops (name : String) : TaskPc → List Op
  | TaskPc.connect => [Op.blocking (Blocking.connect name)]
  | TaskPc.storeSession _ => [Op.Lock, Op.access "sessions", Op.Unlock]
  | TaskPc.readConfig _ => [Op.RLock, Op.access "connections", Op.RUnlock]
  | TaskPc.handshake mcpClient _ =>
    [Op.access "clientInfo", Op.access "clientCapabilities",
     Op.blocking (Blocking.Initialize name mcpClient.id)]
  | TaskPc.loadTools mcpClient => [Op.blocking (Blocking.ListTools name mcpClient.id)]
  | TaskPc.storeTools _ _ => [Op.Lock, Op.access "serverNameToTools", Op.Unlock]
  | TaskPc.closeFailed mcpClient _ => [Op.blocking (Blocking.Close name mcpClient.id)]
  | TaskPc.deleteSession _ => [Op.Lock, Op.access "sessions", Op.Unlock]
  | TaskPc.done _ => []

/-- The statements of `Start` itself (client.go, 103-170): the goroutines are
launched with the mutex held, the wait comes after the unlock. -/
def StartOps (c : MultiServerMCPClient) : List Op :=
  [Op.Lock, Op.access "eg"] ++
  (if c.eg.isSome then [Op.Unlock]
   else
     [Op.access "cancel", Op.access "eg", Op.access "connections"] ++
     c.connections.map (fun p => Op.Go p.1) ++
     [Op.Unlock, Op.blocking Blocking.Wait])

/-- The statements of `Close` between `c.mu.Lock()` and the deferred
`c.mu.Unlock()` (client.go, 177-201). -/
def CloseBody (c : MultiServerMCPClient) : List Op :=
  [Op.access "cancel"] ++ (if c.cancel then [Op.cancel] else []) ++
  [Op.access "sessions"] ++
  c.sessions.map (fun p => Op.blocking (Blocking.Close p.1 p.2.id)) ++
  [Op.access "sessions", Op.access "eg"] ++
  (if c.eg.isSome then [Op.blocking Blocking.Wait, Op.access "eg"] else [])

/-- The statements of `Close` (client.go, 173-202). -/
def CloseOps (c : MultiServerMCPClient) : List Op :=
  [Op.Lock] ++ CloseBody c ++ [Op.Unlock]

/-- The statements of `initializeSessionAndLoadTools` (client.go, 299-362). -/
def initializeSessionAndLoadToolsOps (w : World) (c : MultiServerMCPClient)
    (serverName : String) (mcpClient : MCPClient) : List Op :=
  [Op.RLock, Op.access "connections", Op.RUnlock,
   Op.access "clientInfo", Op.access "clientCapabilities",
   Op.blocking (Blocking.Initialize serverName mcpClient.id)] ++
  (match mcpClient.Initialize (initializationTimeout (GoMap.get c.connections serverName))
      (initRequest w c.clientInfo c.clientCapabilities) with
   | Except.error _ => []
   | Except.ok _ =>
     [Op.blocking (Blocking.ListTools serverName mcpClient.id)] ++
     (match LoadMCPTools mcpClient with
      | Except.error _ => []
      | Except.ok _ => [Op.Lock, Op.access "serverNameToTools", Op.Unlock]))

/-- The statements of `GetTools` (client.go, 365-374). -/
def GetToolsOps : List Op := [Op.RLock, Op.access "serverNameToTools", Op.RUnlock]

/-- The statements of `GetPrompt` (client.go, 377-387): the request goes out
after the read lock is released. -/
def GetPromptOps (c : MultiServerMCPClient) (serverName : String) : List Op :=
  [Op.RLock, Op.access "sessions", Op.RUnlock] ++
  (match GoMap.get c.sessions serverName with
   | none => []
   | some session => [Op.blocking (Blocking.GetPrompt session.id)])

/-! ## Worked examples: inputs and the answers Go gives on them -/

/-- The number 1 as a `float64`. -/
def f64_1 : Float64 := ⟨0x3FF0000000000000⟩
/-- The number 3 as a `float64`. -/
def f64_3 : Float64 := ⟨0x4008000000000000⟩
/-- The number 5 as a `float64`. -/
def f64_5 : Float64 := ⟨0x4014000000000000⟩

/-- The answers of `json.Unmarshal` and `strconv.ParseFloat` on the texts of
the worked examples.  A text outside the two tables gets a placeholder error;
no example reads it there. -/
def exampleLib : Stdlib where
  Unmarshal := fun input =>
    if input = "null" then Except.ok none
    else if input = "\x7b\x7d" then Except.ok (some [])
    else if input = "\x7b\"x\":1\x7d" then Except.ok (some [("x", JVal.num f64_1)])
    else if input = "3" then
      Except.error "json: cannot unmarshal number into Go value of type map[string]interface \x7b\x7d"
    else if input = "3,5" then Except.error "invalid character ',' after top-level value"
    else if input = "3,abc" then Except.error "invalid character ',' after top-level value"
    else if input = "hello, world " then
      Except.error "invalid character 'h' looking for beginning of value"
    else if input = "not json" then
      Except.error "invalid character 'o' in literal null (expecting 'u')"
    else Except.error "not in the table"
  ParseFloat := fun s =>
    if s = "3" then Except.ok f64_3
    else if s = "5" then Except.ok f64_5
    else if s = "abc" then Except.error "strconv.ParseFloat: parsing \"abc\": invalid syntax"
    else Except.error "not in the table"

/-- A connection that answers every tool call with the text `ok`. -/
def okClient : MCPClient where
  id := 1
  Initialize := fun _ _ => Except.ok { Name := "mock-server", Version := "1" }
  ListTools := Except.ok []
  CallTool := fun _ => Except.ok { Content := [Content.TextContent "ok"], IsError := false }
  GetPrompt := fun _ => Except.ok []
  Close := none
  InitializeDone := none
  ListToolsDone := none

/-- The schema of a parameter of the given kind. -/
def paramOf (kind : String) : JVal := JVal.obj [("type", JVal.str kind)]

/-- A tool with the number parameters `a` and `b`, both required. -/
def toolAB : Tool :=
  { Name := "add", Description := "adds",
    InputSchema := { Type_ := "object",
                     Properties := [("a", paramOf "number"), ("b", paramOf "number")],
                     Required := ["a", "b"] } }

/-- The tool `toolAB` with properties and required names listed the other way. -/
def toolBA : Tool :=
  { Name := "add", Description := "adds",
    InputSchema := { Type_ := "object",
                     Properties := [("b", paramOf "number"), ("a", paramOf "number")],
                     Required := ["b", "a"] } }

/-- A tool with the single required number parameter `x`. -/
def toolX : Tool :=
  { Name := "neg", Description := "negates",
    InputSchema := { Type_ := "object", Properties := [("x", paramOf "number")],
                     Required := ["x"] } }

/-- A tool with the single string parameter `q`. -/
def toolQ : Tool :=
  { Name := "search", Description := "searches",
    InputSchema := { Type_ := "object", Properties := [("q", paramOf "string")],
                     Required := ["q"] } }

/-- A tool with the required string parameters `paramA` and `paramB`. -/
def toolStrict : Tool :=
  { Name := "json-tool-strict", Description := "Accepts JSON only",
    InputSchema := { Type_ := "object",
                     Properties := [("paramA", paramOf "string"), ("paramB", paramOf "string")],
                     Required := ["paramA", "paramB"] } }

/-- A tool without parameters. -/
def toolS1 : Tool :=
  { Name := "tool-s1", Description := "",
    InputSchema := { Type_ := "object", Properties := [], Required := [] } }

/-- A server that initializes and lists the tool `tool-s1`. -/
def client1 : MCPClient where
  id := 1
  Initialize := fun _ _ => Except.ok { Name := "mock-server", Version := "1" }
  ListTools := Except.ok [toolS1]
  CallTool := fun _ => Except.ok { Content := [Content.TextContent "ok"], IsError := false }
  GetPrompt := fun _ => Except.ok []
  Close := none
  InitializeDone := some "context canceled"
  ListToolsDone := some "context canceled"

/-- A server whose initialization fails. -/
def client2 : MCPClient where
  id := 2
  Initialize := fun _ _ => Except.error "init failed"
  ListTools := Except.ok []
  CallTool := fun _ => Except.ok { Content := [], IsError := false }
  GetPrompt := fun _ => Except.ok []
  Close := none
  InitializeDone := some "context canceled"
  ListToolsDone := some "context canceled"

/-- The transports of the worked example: `server1` is reached over stdio and
`server2` over SSE; with a context that is done neither transport connects. -/
def exampleWorld : World where
  connectToServerViaStdio := fun serverName _ =>
    if serverName = "server1" then Except.ok client1
    else Except.error ("failed to start stdio client for " ++ serverName ++ ": not found")
  connectToServerViaSSE := fun serverName _ =>
    if serverName = "server2" then Except.ok client2
    else Except.error ("failed to start SSE connection for " ++ serverName ++ ": refused")
  LATEST_PROTOCOL_VERSION := "2024-11-05"
  connectToServerViaStdioDone := fun serverName _ =>
    if serverName = "server1" then
      "context deadline exceeded while connecting to server1: context canceled"
    else "failed to start stdio client for " ++ serverName ++ ": not found"
  connectToServerViaSSEDone := fun serverName _ =>
    some ("failed to start SSE connection for " ++ serverName ++ ": context canceled")

/-- The connections of the worked example. -/
def exampleConnections : GoMap ConnectionConfig :=
  [("server1", ConnectionConfig.Stdio
      { Transport := "stdio", Command := "cmd1", Args := [], Env := none, Cwd := "",
        Encoding := "", EncodingErrorHandler := "", ConnectionTimeout := 0,
        InitializationTimeout := 0, NotificationBufferSize := 0 }),
   ("server2", ConnectionConfig.SSE
      { Transport := "sse", URL := "http://localhost:8080", Headers := none, Timeout := 0,
        SSEReadTimeout := 0, InitializationTimeout := 0 })]

/-- The client of the worked example, before `Start`. -/
def exampleClient : MultiServerMCPClient :=
  NewMultiServerMCPClient exampleConnections { Name := "", Version := "" }
    { Experimental := none, Roots := none, Sampling := false }

/-- The client of the worked example when `Start` returns, the two goroutines
having connected while `Start` held the mutex and then taken turns. -/
def exampleStarted : MultiServerMCPClient :=
  runTasks exampleWorld (unlock (runTasks exampleWorld (launch exampleClient) [0, 1]))
    [1, 0, 1, 0, 1, 0, 1, 0, 1, 0]

/-- The client of the worked example when `Start` has released the mutex and
waits for its goroutines: the goroutine of `server1` has connected and is about
to record its session, the goroutine of `server2` is still connecting. -/
def exampleConnecting : MultiServerMCPClient :=
  unlock (runTasks exampleWorld (launch exampleClient) [0])

/-- The client of the worked example after `Start` has returned and `Close` has
then returned. -/
def exampleClosed : MultiServerMCPClient :=
  { closeLocked exampleStarted with eg := none, mu := false }

/-- A connection that cannot be closed. -/
def client3 : MCPClient where
  id := 3
  Initialize := fun _ _ => Except.ok { Name := "mock-server", Version := "1" }
  ListTools := Except.ok []
  CallTool := fun _ => Except.ok { Content := [], IsError := false }
  GetPrompt := fun _ => Except.ok []
  Close := some "broken pipe"
  InitializeDone := some "context canceled"
  ListToolsDone := some "context canceled"

/-- A client on which `Start` was never called, with three sessions put in its
map, the second of which cannot be closed. -/
def exampleSessions : MultiServerMCPClient :=
  { exampleClient with
    sessions := [("server1", client1), ("server3", client3), ("server2", client2)] }

/-- Two servers whose configuration is of neither connection type, so that
both fail at connect. -/
def brokenConnections : GoMap ConnectionConfig :=
  [("a", ConnectionConfig.Other), ("b", ConnectionConfig.Other)]

/-- A fresh client on `brokenConnections`. -/
def brokenClient : MultiServerMCPClient :=
  NewMultiServerMCPClient brokenConnections { Name := "", Version := "" }
    { Experimental := none, Roots := none, Sampling := false }

/-- The client `brokenClient` when `Start` returns, the goroutine of `a` having
run before the goroutine of `b`. -/
def brokenStarted : MultiServerMCPClient :=
  runTasks exampleWorld (unlock (runTasks exampleWorld (launch brokenClient) [])) [0, 1]

/-- A tool without parameters, as the test of the failing client builds it. -/
def toolErrorClient : Tool :=
  { Name := "error-client-tool", Description := "",
    InputSchema := { Type_ := "", Properties := [], Required := [] } }

/-- A connection on which every tool call fails. -/
def failingClient : MCPClient where
  id := 4
  Initialize := fun _ _ => Except.ok { Name := "mock-server", Version := "1" }
  ListTools := Except.error "failed to list tools from server"
  CallTool := fun _ => Except.error "network connection failed"
  GetPrompt := fun _ => Except.error "MCP client error"
  Close := none
  InitializeDone := none
  ListToolsDone := none

/-- A tool with a name and a description only. -/
def toolNamed (name description : String) : Tool :=
  { Name := name, Description := description,
    InputSchema := { Type_ := "", Properties := [], Required := [] } }

/-- A connection that lists `tool1` and `tool2`. -/
def listingClient : MCPClient where
  id := 5
  Initialize := fun _ _ => Except.ok { Name := "mock-server", Version := "1" }
  ListTools := Except.ok [toolNamed "tool1" "Desc 1", toolNamed "tool2" "Desc 2"]
  CallTool := fun _ => Except.ok { Content := [], IsError := false }
  GetPrompt := fun _ => Except.ok []
  Close := none
  InitializeDone := none
  ListToolsDone := none

/-- A connection that serves the prompts of the tests: three messages of which
the second has the role `system`, an empty prompt, and an error for any other
name. -/
def promptClient : MCPClient where
  id := 6
  Initialize := fun _ _ => Except.ok { Name := "mock-server", Version := "1" }
  ListTools := Except.ok []
  CallTool := fun _ => Except.ok { Content := [], IsError := false }
  GetPrompt := fun request =>
    if request.Name = "conversion-error-prompt" then
      Except.ok [{ Role := "user", Content := Content.TextContent "Valid user message" },
                 { Role := "system", Content := Content.TextContent "Unsupported system message" },
                 { Role := "assistant", Content := Content.TextContent "Valid assistant message" }]
    else if request.Name = "empty-prompt" then Except.ok []
    else Except.error "MCP client error"
  Close := none
  InitializeDone := none
  ListToolsDone := none

/-! ## Theorems: package tool -/

theorem notifications_append (xs ys : List Event) :
    notifications (xs ++ ys) = notifications xs ++ notifications ys := by
  induction xs with
  | nil => rfl
  | cons e es ih => cases e <;> simp [notifications, ih]

theorem requests_append (xs ys : List Event) :
    requests (xs ++ ys) = requests xs ++ requests ys := by
  induction xs with
  | nil => rfl
  | cons e es ih => cases e <;> simp [requests, ih]

theorem requests_notify (t : LangchainMCPTool) (e : Event)
    (he : ∀ r, e ≠ Event.CallTool r) : requests (notify t e) = [] := by
  unfold notify
  split
  · cases e <;> simp_all [requests]
  · rfl

theorem notifications_notify (t : LangchainMCPTool) (e : Event)
    (he : ∀ r, e ≠ Event.CallTool r) : notifications (notify t e) = notify t e := by
  unfold notify
  split
  · cases e <;> simp_all [notifications]
  · rfl

/-- C1. `Call` never returns an error: its error component is nil whatever the
library, the tool and the instruction are, and each failure shows in the text:
a parse failure as the `Error: failed to parse tool input` text, a transport
failure as the `Error calling tool` text, and any result of the server
(error-flagged or not) as the text rendered from it. -/
theorem call_returns_no_error (lib : Stdlib) (t : LangchainMCPTool) (input : String) :
    (Call lib t input).err = none ∧
    (∀ jsonErr, parseInput lib t.mcpTool input = Except.error jsonErr →
      (Call lib t input).output = "Error: " ++ ("failed to parse tool input '" ++ input ++
        "': not valid JSON and other parsing attempts failed: " ++ jsonErr)) ∧
    (∀ arguments cause, parseInput lib t.mcpTool input = Except.ok arguments →
      t.mcpClient.CallTool { Name := t.mcpTool.Name, Arguments := arguments }
        = Except.error cause →
      (Call lib t input).output = "Error calling tool " ++ t.mcpTool.Name ++ ": " ++
        ("failed to call MCP tool " ++ t.mcpTool.Name ++ ": " ++ cause)) ∧
    (∀ arguments result, parseInput lib t.mcpTool input = Except.ok arguments →
      t.mcpClient.CallTool { Name := t.mcpTool.Name, Arguments := arguments }
        = Except.ok result →
      (Call lib t input).output = (processCallToolResult result).1) := by
  refine ⟨?_, ?_, ?_, ?_⟩
  · unfold Call
    cases parseInput lib t.mcpTool input with
    | error e => rfl
    | ok arguments =>
      dsimp only
      cases t.mcpClient.CallTool { Name := t.mcpTool.Name, Arguments := arguments } with
      | error cause => rfl
      | ok result =>
        dsimp only
        rcases hres : processCallToolResult result with ⟨output, _ | toolErr⟩ <;> rfl
  · intro jsonErr h
    unfold Call
    rw [h]
  · intro arguments cause h hc
    unfold Call
    rw [h]
    dsimp only
    rw [hc]
  · intro arguments result h hc
    unfold Call
    rw [h]
    dsimp only
    rw [hc]
    dsimp only
    rcases hres : processCallToolResult result with ⟨output, _ | toolErr⟩ <;> rfl

/-- A witness of C1: a run with a parse failure and a run with a failing tool. -/
theorem call_returns_no_error_witness :
    (Call exampleLib (NewLangchainMCPTool toolStrict okClient true) "not json").err = none ∧
    (Call exampleLib (NewLangchainMCPTool toolQ okClient true) "hello, world ").err = none :=
  ⟨(call_returns_no_error exampleLib _ "not json").1,
   (call_returns_no_error exampleLib _ "hello, world ").1⟩

theorem parseInput_of_unmarshal_ok (lib : Stdlib) (mcpTool : Tool) (input : String)
    (arguments : Option (GoMap JVal)) (h : lib.Unmarshal input = Except.ok arguments) :
    parseInput lib mcpTool input = Except.ok arguments := by
  unfold parseInput
  rw [h]

theorem requests_call_of_parse_ok (lib : Stdlib) (t : LangchainMCPTool) (input : String)
    (arguments : Option (GoMap JVal))
    (h : parseInput lib t.mcpTool input = Except.ok arguments) :
    requests (Call lib t input).events =
      [{ Name := t.mcpTool.Name, Arguments := arguments }] := by
  have hs : requests (notify t (Event.HandleToolStart input)) = [] :=
    requests_notify t _ (by intro r hr; cases hr)
  unfold Call
  rw [h]
  dsimp only
  cases t.mcpClient.CallTool { Name := t.mcpTool.Name, Arguments := arguments } with
  | error cause =>
    dsimp only
    rw [requests_append, requests_append, hs, requests_notify t _ (by intro r hr; cases hr)]
    rfl
  | ok result =>
    dsimp only
    rcases hres : processCallToolResult result with ⟨output, _ | toolErr⟩
    · dsimp only
      rw [requests_append, requests_append, hs, requests_notify t _ (by intro r hr; cases hr)]
      rfl
    · dsimp only
      rw [requests_append, requests_append, hs, requests_notify t _ (by intro r hr; cases hr)]
      rfl

theorem requests_call_of_parse_error (lib : Stdlib) (t : LangchainMCPTool) (input : String)
    (jsonErr : String) (h : parseInput lib t.mcpTool input = Except.error jsonErr) :
    requests (Call lib t input).events = [] := by
  unfold Call
  rw [h]
  dsimp only
  rw [requests_append, requests_notify t _ (by intro r hr; cases hr),
    requests_notify t _ (by intro r hr; cases hr)]
  rfl

/-- C3. Structured parse has priority: when `json.Unmarshal` turns the
instruction into the mapping `m`, whatever the schema of the tool, `Call` sends
exactly one request, named after the tool, whose arguments are `m` itself. -/
theorem structured_parse_verbatim (lib : Stdlib) (t : LangchainMCPTool) (input : String)
    (m : GoMap JVal) (hjson : lib.Unmarshal input = Except.ok (some m)) :
    parseInput lib t.mcpTool input = Except.ok (some m) ∧
    requests (Call lib t input).events = [{ Name := t.mcpTool.Name, Arguments := some m }] :=
  ⟨parseInput_of_unmarshal_ok lib t.mcpTool input (some m) hjson,
   requests_call_of_parse_ok lib t input (some m)
     (parseInput_of_unmarshal_ok lib t.mcpTool input (some m) hjson)⟩

/-- A witness of C3: the object with the key `x` sent to the tool whose only
parameter is the string `q`. -/
theorem structured_parse_verbatim_witness :
    exampleLib.Unmarshal "\x7b\"x\":1\x7d" = Except.ok (some [("x", JVal.num f64_1)]) ∧
    requests (Call exampleLib (NewLangchainMCPTool toolQ okClient true)
      "\x7b\"x\":1\x7d").events =
      [{ Name := "search", Arguments := some [("x", JVal.num f64_1)] }] :=
  ⟨rfl, (structured_parse_verbatim exampleLib (NewLangchainMCPTool toolQ okClient true)
    "\x7b\"x\":1\x7d" [("x", JVal.num f64_1)] rfl).2⟩

theorem GoMap.get_set {β : Type} (m : GoMap β) (k k' : String) (v : β) :
    GoMap.get (GoMap.set m k v) k' = if k = k' then some v else GoMap.get m k' := by
  induction m with
  | nil => simp [GoMap.set, GoMap.get]
  | cons p rest ih =>
    obtain ⟨k0, v0⟩ := p
    by_cases h0 : k0 = k
    · subst h0
      by_cases h1 : k0 = k' <;> simp [GoMap.set, GoMap.get, h1]
    · by_cases h1 : k0 = k'
      · subst h1
        simp [GoMap.set, GoMap.get, h0, Ne.symm h0]
      · simp [GoMap.set, GoMap.get, h0, h1, ih]

theorem GoMap.get_foldl_set_of_not_mem (l : List (String × Float64)) (acc : GoMap JVal)
    (k : String) (hk : k ∉ l.map Prod.fst) :
    GoMap.get (l.foldl (fun m p => GoMap.set m p.1 (JVal.num p.2)) acc) k = GoMap.get acc k := by
  induction l generalizing acc with
  | nil => rfl
  | cons p rest ih =>
    simp only [List.map_cons, List.mem_cons, not_or] at hk
    rw [List.foldl_cons, ih _ hk.2, GoMap.get_set, if_neg (Ne.symm hk.1)]

theorem GoMap.get_foldl_set_of_mem (l : List (String × Float64)) (acc : GoMap JVal)
    (k : String) (x : Float64) (hnd : (l.map Prod.fst).Nodup) (hk : (k, x) ∈ l) :
    GoMap.get (l.foldl (fun m p => GoMap.set m p.1 (JVal.num p.2)) acc) k
      = some (JVal.num x) := by
  induction l generalizing acc with
  | nil => cases hk
  | cons p rest ih =>
    rw [List.map_cons, List.nodup_cons] at hnd
    rw [List.foldl_cons]
    rcases List.mem_cons.1 hk with h | h
    · subst h
      rw [GoMap.get_foldl_set_of_not_mem rest _ k hnd.1, GoMap.get_set, if_pos rfl]
    · exact ih _ hnd.2 h

theorem parseParts_eq (lib : Stdlib) (names : List String) (parts : List String)
    (nums : List Float64) (i : Nat) (acc : GoMap JVal)
    (hparse : parts.map (fun p => lib.ParseFloat (TrimSpace p)) = nums.map Except.ok)
    (hlen : i + parts.length ≤ names.length) :
    parseParts lib names parts i acc
      = some (((names.drop i).zip nums).foldl
          (fun m p => GoMap.set m p.1 (JVal.num p.2)) acc) := by
  induction parts generalizing nums i acc with
  | nil =>
    cases nums with
    | nil => simp [parseParts]
    | cons x xs => simp at hparse
  | cons part rest ih =>
    cases nums with
    | nil => simp at hparse
    | cons x xs =>
      simp only [List.map_cons, List.cons.injEq] at hparse
      simp only [List.length_cons] at hlen
      have hi : i < names.length := by omega
      unfold parseParts
      simp only [hparse.1, List.getElem?_eq_getElem hi]
      rw [ih xs (i + 1) _ hparse.2 (by omega), List.drop_eq_getElem_cons hi]
      rfl

theorem map_fst_zip_sublist {α β : Type} (xs : List α) (ys : List β) :
    (List.map Prod.fst (xs.zip ys)).Sublist xs := by
  induction xs generalizing ys with
  | nil => simp
  | cons a as ih =>
    cases ys with
    | nil => simp
    | cons b bs => simpa using ih bs

theorem sortStrings_perm (xs : List String) : (sortStrings xs).Perm xs :=
  List.perm_insertionSort _ xs

theorem parseCommaSeparated_eq (lib : Stdlib) (mcpTool : Tool) (input : String)
    (nums : List Float64)
    (hmany : 1 < (Split input ',').length)
    (hnum : ∀ p ∈ mcpTool.InputSchema.Properties, hasType p.2 "number" = true)
    (hreq : (Split input ',').length = mcpTool.InputSchema.Required.length)
    (hparse : (Split input ',').map (fun p => lib.ParseFloat (TrimSpace p))
      = nums.map Except.ok) :
    parseCommaSeparated lib mcpTool input
      = some (assignInOrder (sortStrings mcpTool.InputSchema.Required) nums) := by
  have hall : mcpTool.InputSchema.Properties.all (fun p => hasType p.2 "number") = true :=
    List.all_eq_true.2 hnum
  unfold parseCommaSeparated
  simp only [hall, hreq, gt_iff_lt, Bool.and_true, decide_True, Bool.and_self]
  rw [if_pos (by simpa [hreq] using hmany)]
  rw [parseParts_eq lib _ _ nums 0 [] hparse
    (by rw [(sortStrings_perm _).length_eq, hreq]; omega)]
  rfl

theorem parseInput_of_commaSeparated (lib : Stdlib) (mcpTool : Tool) (input jsonErr : String)
    (args : GoMap JVal) (hjson : lib.Unmarshal input = Except.error jsonErr)
    (h : parseCommaSeparated lib mcpTool input = some args) :
    parseInput lib mcpTool input = Except.ok (some args) := by
  unfold parseInput parseFallback
  rw [hjson]
  dsimp only
  rw [h]

/-- C4, amended. Positional numeric fallback: for every k ≥ 2, every tool whose
declared parameters are all of kind `number` and that has k required
parameters, and every instruction that `json.Unmarshal` rejects and that splits
on commas into k pieces each of which, trimmed, parses as a number, `Call` sends
one request whose arguments give the i-th number to the i-th required name in
ascending order; when the required names are distinct the i-th name is looked
up as the i-th number, and a name that is not required is absent. -/
theorem positional_numeric_fallback (lib : Stdlib) (t : LangchainMCPTool)
    (input jsonErr : String) (k : Nat) (nums : List Float64)
    (hk : 2 ≤ k)
    (hjson : lib.Unmarshal input = Except.error jsonErr)
    (hnum : ∀ p ∈ t.mcpTool.InputSchema.Properties, hasType p.2 "number" = true)
    (hreq : t.mcpTool.InputSchema.Required.length = k)
    (hparts : (Split input ',').length = k)
    (hparse : (Split input ',').map (fun p => lib.ParseFloat (TrimSpace p))
      = nums.map Except.ok) :
    requests (Call lib t input).events =
      [{ Name := t.mcpTool.Name,
         Arguments := some (assignInOrder (sortStrings t.mcpTool.InputSchema.Required) nums) }] ∧
    (t.mcpTool.InputSchema.Required.Nodup → ∀ (i : Nat) (name : String) (x : Float64),
      (sortStrings t.mcpTool.InputSchema.Required)[i]? = some name → nums[i]? = some x →
      GoMap.get (assignInOrder (sortStrings t.mcpTool.InputSchema.Required) nums) name
        = some (JVal.num x)) ∧
    (∀ name : String, name ∉ t.mcpTool.InputSchema.Required →
      GoMap.get (assignInOrder (sortStrings t.mcpTool.InputSchema.Required) nums) name
        = none) := by
  refine ⟨?_, ?_, ?_⟩
  · apply requests_call_of_parse_ok
    apply parseInput_of_commaSeparated lib t.mcpTool input jsonErr _ hjson
    exact parseCommaSeparated_eq lib t.mcpTool input nums (by omega) hnum
      (by rw [hparts, hreq]) hparse
  · intro hnd i name x hname hx
    unfold assignInOrder
    apply GoMap.get_foldl_set_of_mem
    · exact List.Nodup.sublist (map_fst_zip_sublist _ nums)
        ((sortStrings_perm _).nodup_iff.2 hnd)
    · rw [List.mem_iff_getElem?]
      exact ⟨i, by rw [List.getElem?_zip_eq_some]; exact ⟨hname, hx⟩⟩
  · intro name hname
    unfold assignInOrder
    rw [GoMap.get_foldl_set_of_not_mem]
    · rfl
    · intro hmem
      apply hname
      apply (sortStrings_perm _).subset
      obtain ⟨p, hp, rfl⟩ := List.mem_map.1 hmem
      exact (List.of_mem_zip hp).1

/-- A witness of C4: the test of the two numbers. -/
theorem positional_numeric_fallback_witness :
    requests (Call exampleLib (NewLangchainMCPTool toolAB okClient true) "3,5").events =
      [{ Name := "add", Arguments := some [("a", JVal.num f64_3), ("b", JVal.num f64_5)] }] :=
  (positional_numeric_fallback exampleLib (NewLangchainMCPTool toolAB okClient true) "3,5"
    "invalid character ',' after top-level value" 2 [f64_3, f64_5] (by decide) rfl
    (by intro p hp
        simp only [NewLangchainMCPTool, toolAB, List.mem_cons, List.mem_singleton,
          List.not_mem_nil, or_false] at hp
        rcases hp with rfl | rfl <;> rfl)
    rfl (by decide) rfl).1

/-- The counterexample to C4 as stated, at k = 1: the tool has the one number
parameter `x`, required; the instruction `3` is no JSON object, is one piece
and parses as a number; yet no request is sent and the parse error is returned. -/
theorem positional_numeric_fallback_fails_for_one_piece :
    exampleLib.Unmarshal "3" = Except.error
      "json: cannot unmarshal number into Go value of type map[string]interface \x7b\x7d" ∧
    (∀ p ∈ toolX.InputSchema.Properties, hasType p.2 "number" = true) ∧
    toolX.InputSchema.Required.length = 1 ∧
    (Split "3" ',').length = 1 ∧
    (Split "3" ',').map (fun p => exampleLib.ParseFloat (TrimSpace p)) = [Except.ok f64_3] ∧
    requests (Call exampleLib (NewLangchainMCPTool toolX okClient true) "3").events = [] ∧
    (Call exampleLib (NewLangchainMCPTool toolX okClient true) "3").output =
      "Error: failed to parse tool input '3': not valid JSON and other parsing attempts failed: json: cannot unmarshal number into Go value of type map[string]interface \x7b\x7d" := by
  refine ⟨rfl, ?_, rfl, by decide, rfl, rfl, rfl⟩
  intro p hp
  simp only [toolX, List.mem_singleton] at hp
  subst hp
  rfl

theorem sortStrings_sorted (xs : List String) :
    (sortStrings xs).Sorted (fun a b => a.toList ≤ b.toList) :=
  @List.sorted_insertionSort String (fun a b => a.toList ≤ b.toList) _
    ⟨fun a b => le_total a.toList b.toList⟩
    ⟨fun _ _ _ hab hbc => le_trans hab hbc⟩ xs

theorem sortStrings_eq_of_perm (xs ys : List String) (h : xs.Perm ys) :
    sortStrings xs = sortStrings ys :=
  @List.eq_of_perm_of_sorted String (fun a b => a.toList ≤ b.toList)
    ⟨fun _ _ hab hba => String.ext (le_antisymm hab hba)⟩ _ _
    (((sortStrings_perm xs).trans h).trans (sortStrings_perm ys).symm)
    (sortStrings_sorted xs) (sortStrings_sorted ys)

theorem all_eq_of_perm {α : Type} (f : α → Bool) (xs ys : List α) (h : xs.Perm ys) :
    xs.all f = ys.all f := by
  rw [Bool.eq_iff_iff, List.all_eq_true, List.all_eq_true]
  exact ⟨fun hx y hy => hx y (h.mem_iff.2 hy), fun hy x hx => hy x (h.mem_iff.1 hx)⟩

theorem parseCommaSeparated_perm (lib : Stdlib) (mcpTool mcpTool' : Tool) (input : String)
    (hprops : mcpTool.InputSchema.Properties.Perm mcpTool'.InputSchema.Properties)
    (hreq : mcpTool.InputSchema.Required.Perm mcpTool'.InputSchema.Required) :
    parseCommaSeparated lib mcpTool input = parseCommaSeparated lib mcpTool' input := by
  unfold parseCommaSeparated
  dsimp only
  rw [all_eq_of_perm _ _ _ hprops, hreq.length_eq, sortStrings_eq_of_perm _ _ hreq]

theorem parseSingleString_perm (mcpTool mcpTool' : Tool) (input : String)
    (hprops : mcpTool.InputSchema.Properties.Perm mcpTool'.InputSchema.Properties) :
    parseSingleString mcpTool input = parseSingleString mcpTool' input := by
  unfold parseSingleString
  by_cases h1 : mcpTool.InputSchema.Properties.length = 1
  · obtain ⟨p, hp⟩ := List.length_eq_one.1 h1
    have hp' : mcpTool'.InputSchema.Properties = [p] :=
      List.perm_singleton.1 (hp ▸ hprops.symm)
    rw [hp, hp']
  · have h1' : ¬ mcpTool'.InputSchema.Properties.length = 1 := by
      rw [← hprops.length_eq]; exact h1
    rw [if_neg h1, if_neg h1']

theorem parseInput_perm (lib : Stdlib) (mcpTool mcpTool' : Tool) (input : String)
    (hprops : mcpTool.InputSchema.Properties.Perm mcpTool'.InputSchema.Properties)
    (hreq : mcpTool.InputSchema.Required.Perm mcpTool'.InputSchema.Required) :
    parseInput lib mcpTool input = parseInput lib mcpTool' input := by
  unfold parseInput parseFallback
  rw [parseCommaSeparated_perm lib mcpTool mcpTool' input hprops hreq,
    parseSingleString_perm mcpTool mcpTool' input hprops]

theorem Call_congr (lib : Stdlib) (t t' : LangchainMCPTool) (input : String)
    (hname : t.mcpTool.Name = t'.mcpTool.Name) (hclient : t.mcpClient = t'.mcpClient)
    (hcb : t.callbacks = t'.callbacks)
    (hparse : parseInput lib t.mcpTool input = parseInput lib t'.mcpTool input) :
    Call lib t input = Call lib t' input := by
  unfold Call notify LangchainMCPTool.Name
  rw [hname, hclient, hcb, hparse]

/-- C5. Argument resolution does not depend on declared order: two tools that
differ only by a permutation of the `Required` list and of the properties get
the same arguments and the same result of `Call` on every instruction; and a
tool with the number parameters `a` and `b`, required in either order, resolves
the instruction `3,5` to `a` = 3, `b` = 5. -/
theorem resolution_order_independent (lib : Stdlib) (t t' : LangchainMCPTool)
    (input : String)
    (hname : t.mcpTool.Name = t'.mcpTool.Name) (hclient : t.mcpClient = t'.mcpClient)
    (hcb : t.callbacks = t'.callbacks)
    (hprops : t.mcpTool.InputSchema.Properties.Perm t'.mcpTool.InputSchema.Properties)
    (hreq : t.mcpTool.InputSchema.Required.Perm t'.mcpTool.InputSchema.Required) :
    parseCommaSeparated lib t.mcpTool input = parseCommaSeparated lib t'.mcpTool input ∧
    parseInput lib t.mcpTool input = parseInput lib t'.mcpTool input ∧
    Call lib t input = Call lib t' input ∧
    (∀ (jsonErr : String) (x3 x5 : Float64) (sa sb : JVal),
      lib.Unmarshal "3,5" = Except.error jsonErr →
      lib.ParseFloat "3" = Except.ok x3 → lib.ParseFloat "5" = Except.ok x5 →
      t.mcpTool.InputSchema.Properties.Perm [("a", sa), ("b", sb)] →
      hasType sa "number" = true → hasType sb "number" = true →
      t.mcpTool.InputSchema.Required.Perm ["a", "b"] →
      parseInput lib t.mcpTool "3,5"
        = Except.ok (some [("a", JVal.num x3), ("b", JVal.num x5)])) := by
  refine ⟨parseCommaSeparated_perm lib _ _ input hprops hreq,
    parseInput_perm lib _ _ input hprops hreq,
    Call_congr lib t t' input hname hclient hcb (parseInput_perm lib _ _ input hprops hreq),
    ?_⟩
  intro jsonErr x3 x5 sa sb hjson h3 h5 hp ha hb hr
  apply parseInput_of_commaSeparated lib t.mcpTool "3,5" jsonErr _ hjson
  have hsplit : Split "3,5" ',' = ["3", "5"] := by decide
  have ht3 : TrimSpace "3" = "3" := by decide
  have ht5 : TrimSpace "5" = "5" := by decide
  rw [parseCommaSeparated_eq lib t.mcpTool "3,5" [x3, x5]
    (by rw [hsplit]; decide)
    (by intro p hpm
        rcases List.mem_cons.1 (hp.mem_iff.1 hpm) with rfl | hpm'
        · exact ha
        · rw [List.mem_singleton.1 hpm']; exact hb)
    (by rw [hsplit, hr.length_eq]; rfl)
    (by rw [hsplit]; simp only [List.map_cons, List.map_nil, ht3, ht5, h3, h5])]
  rw [sortStrings_eq_of_perm _ _ hr]
  rfl

/-- A witness of C5: the tools `toolAB` and `toolBA` on the instruction `3,5`. -/
theorem resolution_order_independent_witness :
    parseInput exampleLib toolAB "3,5" = parseInput exampleLib toolBA "3,5" ∧
    parseInput exampleLib toolBA "3,5"
      = Except.ok (some [("a", JVal.num f64_3), ("b", JVal.num f64_5)]) := by
  have h := resolution_order_independent exampleLib
    (NewLangchainMCPTool toolBA okClient false) (NewLangchainMCPTool toolAB okClient false)
    "3,5" rfl rfl rfl (List.Perm.swap _ _ _) (List.Perm.swap _ _ _)
  exact ⟨h.2.1.symm, h.2.2.2 "invalid character ',' after top-level value" f64_3 f64_5
    (paramOf "number") (paramOf "number") rfl rfl rfl (List.Perm.swap _ _ _) rfl rfl
    (List.Perm.swap _ _ _)⟩

theorem hasType_string_not_number (schema : JVal) (h : hasType schema "string" = true) :
    hasType schema "number" = false := by
  unfold hasType at h ⊢
  split at h
  · split at h
    · rename_i s hs
      have hs' : s = "string" := by simpa using h
      subst hs'
      simp [hs]
    · cases h
  · cases h

theorem sortStrings_singleton (q : String) : sortStrings [q] = [q] := rfl

theorem parseSingleString_of_single (mcpTool : Tool) (input q : String) (schema : JVal)
    (hprops : mcpTool.InputSchema.Properties = [(q, schema)]) :
    parseSingleString mcpTool input
      = if hasType schema "string" then some [(q, JVal.str input)] else none := by
  unfold parseSingleString
  rw [hprops]
  simp [GoMap.keys, sortStrings_singleton, GoMap.get]

theorem parseInput_of_singleString (lib : Stdlib) (mcpTool : Tool) (input jsonErr : String)
    (args : GoMap JVal) (hjson : lib.Unmarshal input = Except.error jsonErr)
    (hcomma : parseCommaSeparated lib mcpTool input = none)
    (h : parseSingleString mcpTool input = some args) :
    parseInput lib mcpTool input = Except.ok (some args) := by
  unfold parseInput parseFallback
  rw [hjson]
  dsimp only
  rw [hcomma]
  dsimp only
  rw [h]

/-- C6, amended. Single free-text fallback: for every tool that declares
exactly one parameter `q`, of kind `string`, and every instruction that
`json.Unmarshal` rejects (so neither a JSON object nor the literal `null`),
`Call` sends one request whose arguments are exactly `q` bound to the raw
instruction, unmodified. -/
theorem single_string_fallback (lib : Stdlib) (t : LangchainMCPTool)
    (input jsonErr q : String) (schema : JVal)
    (hjson : lib.Unmarshal input = Except.error jsonErr)
    (hprops : t.mcpTool.InputSchema.Properties = [(q, schema)])
    (hkind : hasType schema "string" = true) :
    requests (Call lib t input).events =
      [{ Name := t.mcpTool.Name, Arguments := some [(q, JVal.str input)] }] := by
  apply requests_call_of_parse_ok
  apply parseInput_of_singleString lib t.mcpTool input jsonErr _ hjson
  · unfold parseCommaSeparated
    simp [hprops, hasType_string_not_number schema hkind]
  · rw [parseSingleString_of_single t.mcpTool input q schema hprops, if_pos hkind]

/-- A witness of C6: a text with a comma and a trailing blank. -/
theorem single_string_fallback_witness :
    requests (Call exampleLib (NewLangchainMCPTool toolQ okClient true)
      "hello, world ").events =
      [{ Name := "search", Arguments := some [("q", JVal.str "hello, world ")] }] :=
  single_string_fallback exampleLib (NewLangchainMCPTool toolQ okClient true)
    "hello, world " "invalid character 'h' looking for beginning of value" "q"
    (paramOf "string") rfl rfl rfl

/-- The counterexample to C6 as stated: the instruction `null` is not a JSON
object and the tool declares the single string parameter `q`, yet the request
carries a nil argument map, not `q` bound to the instruction. -/
theorem single_string_fallback_fails_for_null :
    (∀ m, exampleLib.Unmarshal "null" ≠ Except.ok (some m)) ∧
    toolQ.InputSchema.Properties = [("q", paramOf "string")] ∧
    hasType (paramOf "string") "string" = true ∧
    requests (Call exampleLib (NewLangchainMCPTool toolQ okClient true) "null").events =
      [{ Name := "search", Arguments := none }] ∧
    requests (Call exampleLib (NewLangchainMCPTool toolQ okClient true) "null").events ≠
      [{ Name := "search", Arguments := some [("q", JVal.str "null")] }] := by
  have hreq : requests (Call exampleLib (NewLangchainMCPTool toolQ okClient true)
      "null").events = [{ Name := "search", Arguments := none }] := rfl
  refine ⟨?_, rfl, rfl, hreq, ?_⟩
  · intro m hm
    have h0 : exampleLib.Unmarshal "null" = Except.ok none := rfl
    rw [h0] at hm
    cases hm
  · rw [hreq]
    intro h
    cases h

theorem parseSingleString_none (mcpTool : Tool) (input : String)
    (hsingle : ¬ ∃ q schema, mcpTool.InputSchema.Properties = [(q, schema)] ∧
      hasType schema "string" = true) :
    parseSingleString mcpTool input = none := by
  by_cases h1 : mcpTool.InputSchema.Properties.length = 1
  · obtain ⟨⟨q, schema⟩, hp⟩ := List.length_eq_one.1 h1
    rw [parseSingleString_of_single mcpTool input q schema hp]
    split
    · rename_i hk
      exact absurd ⟨q, schema, hp, hk⟩ hsingle
    · rfl
  · unfold parseSingleString
    rw [if_neg h1]

theorem parseInput_exhausted (lib : Stdlib) (mcpTool : Tool) (input jsonErr : String)
    (hjson : lib.Unmarshal input = Except.error jsonErr)
    (hcomma : parseCommaSeparated lib mcpTool input = none)
    (hsingle : parseSingleString mcpTool input = none) :
    parseInput lib mcpTool input = Except.error jsonErr := by
  unfold parseInput parseFallback
  rw [hjson]
  dsimp only
  rw [hcomma]
  dsimp only
  rw [hsingle]

theorem output_of_parse_error (lib : Stdlib) (t : LangchainMCPTool) (input jsonErr : String)
    (h : parseInput lib t.mcpTool input = Except.error jsonErr) :
    (Call lib t input).output = "Error: " ++ ("failed to parse tool input '" ++ input ++
      "': not valid JSON and other parsing attempts failed: " ++ jsonErr) := by
  unfold Call
  rw [h]

/-- C7, amended. Exhaustion: whenever `json.Unmarshal` rejects the instruction
(so it is neither a JSON object nor the literal `null`), the positional numeric
fallback does not succeed and the tool does not declare exactly one string
parameter, `Call` returns the text `Error: failed to parse tool input '...'`
which starts so and contains the instruction verbatim, and sends no request. -/
theorem parse_exhaustion (lib : Stdlib) (t : LangchainMCPTool) (input jsonErr : String)
    (hjson : lib.Unmarshal input = Except.error jsonErr)
    (hcomma : parseCommaSeparated lib t.mcpTool input = none)
    (hsingle : ¬ ∃ q schema, t.mcpTool.InputSchema.Properties = [(q, schema)] ∧
      hasType schema "string" = true) :
    (Call lib t input).output = "Error: " ++ ("failed to parse tool input '" ++ input ++
      "': not valid JSON and other parsing attempts failed: " ++ jsonErr) ∧
    "Error: failed to parse tool input".toList <+: (Call lib t input).output.toList ∧
    input.toList <:+: (Call lib t input).output.toList ∧
    (Call lib t input).err = none ∧
    requests (Call lib t input).events = [] := by
  have hparse : parseInput lib t.mcpTool input = Except.error jsonErr :=
    parseInput_exhausted lib t.mcpTool input jsonErr hjson hcomma
      (parseSingleString_none t.mcpTool input hsingle)
  have hout := output_of_parse_error lib t input jsonErr hparse
  refine ⟨hout, ?_, ?_, ?_, requests_call_of_parse_error lib t input jsonErr hparse⟩
  · rw [hout]
    simp only [String.toList, String.data_append]
    exact ⟨" '".toList ++ (input.data ++
      "': not valid JSON and other parsing attempts failed: ".data ++ jsonErr.data),
      by simp [String.toList]⟩
  · rw [hout]
    simp only [String.toList, String.data_append]
    exact ⟨"Error: ".data ++ "failed to parse tool input '".data,
      "': not valid JSON and other parsing attempts failed: ".data ++ jsonErr.data,
      by simp⟩
  · unfold Call
    rw [hparse]

/-- A witness of C7: the test of the two required string parameters. -/
theorem parse_exhaustion_witness :
    (Call exampleLib (NewLangchainMCPTool toolStrict okClient true) "not json").output =
      "Error: failed to parse tool input 'not json': not valid JSON and other parsing attempts failed: invalid character 'o' in literal null (expecting 'u')" ∧
    requests (Call exampleLib (NewLangchainMCPTool toolStrict okClient true)
      "not json").events = [] := by
  have h := parse_exhaustion exampleLib (NewLangchainMCPTool toolStrict okClient true)
    "not json" "invalid character 'o' in literal null (expecting 'u')" rfl rfl
    (by rintro ⟨q, schema, hp, -⟩
        simp [NewLangchainMCPTool, toolStrict] at hp)
  exact ⟨h.1.trans rfl, h.2.2.2.2⟩

/-- The counterexample to C7 as stated: the instruction `null` is not a JSON
object, the positional fallback does not succeed and the tool declares two
string parameters, yet a request is sent and the text returned is the answer of
the server, not a parse error. -/
theorem parse_exhaustion_fails_for_null :
    (∀ m, exampleLib.Unmarshal "null" ≠ Except.ok (some m)) ∧
    parseCommaSeparated exampleLib toolStrict "null" = none ∧
    (¬ ∃ q schema, toolStrict.InputSchema.Properties = [(q, schema)] ∧
      hasType schema "string" = true) ∧
    requests (Call exampleLib (NewLangchainMCPTool toolStrict okClient true) "null").events =
      [{ Name := "json-tool-strict", Arguments := none }] ∧
    (Call exampleLib (NewLangchainMCPTool toolStrict okClient true) "null").output = "ok" := by
  refine ⟨?_, rfl, ?_, rfl, rfl⟩
  · intro m hm
    have h0 : exampleLib.Unmarshal "null" = Except.ok none := rfl
    rw [h0] at hm
    cases hm
  · rintro ⟨q, schema, hp, -⟩
    simp [toolStrict] at hp

theorem String.length_pos_of_ne_empty (t : String) (h : t ≠ "") : t.length > 0 := by
  obtain ⟨l⟩ := t
  cases l with
  | nil => exact absurd rfl h
  | cons a as => simp [String.length]

theorem render_nonempty (content : List Content) (acc : String) (hacc : acc.length > 0) :
    content.foldl (fun outputBuilder c =>
      match c with
      | Content.TextContent text =>
        (if outputBuilder.length > 0 then outputBuilder ++ "\n" else outputBuilder) ++ text
      | _ => outputBuilder) acc
      = String.intercalate.go acc "\n" (textFragments content) := by
  induction content generalizing acc with
  | nil => rfl
  | cons c rest ih =>
    cases c with
    | TextContent text =>
      simp only [List.foldl_cons, textFragments, String.intercalate.go, if_pos hacc]
      exact ih _ (by simp only [String.length_append]; omega)
    | ImageContent d m => exact ih acc hacc
    | EmbeddedResource u => exact ih acc hacc
    | Other n => exact ih acc hacc

/-- What `processCallToolResult` renders, exactly: the join by newlines of the
text fragments that remain once the leading empty ones are dropped. -/
theorem processCallToolResult_text (result : CallToolResult) :
    (processCallToolResult result).1
      = "\n".intercalate ((textFragments result.Content).dropWhile (fun t => t = "")) := by
  have hfold : ∀ content : List Content,
      content.foldl (fun outputBuilder c =>
        match c with
        | Content.TextContent text =>
          (if outputBuilder.length > 0 then outputBuilder ++ "\n" else outputBuilder) ++ text
        | _ => outputBuilder) ""
        = "\n".intercalate ((textFragments content).dropWhile (fun t => t = "")) := by
    intro content
    induction content with
    | nil => rfl
    | cons c rest ih =>
      cases c with
      | TextContent text =>
        by_cases ht : text = ""
        · subst ht
          simpa [textFragments, List.dropWhile] using ih
        · have hstep : (if "".length > 0 then "" ++ "\n" else "") ++ text = text := by
            simp
          simp only [List.foldl_cons, textFragments, List.dropWhile, ht, decide_False, hstep]
          rw [render_nonempty rest text (String.length_pos_of_ne_empty text ht)]
          rfl
      | ImageContent d m => exact ih
      | EmbeddedResource u => exact ih
      | Other n => exact ih
  unfold processCallToolResult
  split <;> exact hfold result.Content

/-- C8, at the failing input. The result with the text fragments `""` and `"B"`
is rendered as `B`, with no separator, while the join of its two text
fragments by a newline is a newline followed by `B`; an empty fragment after a
non-empty one keeps its separators. -/
theorem processCallToolResult_drops_separator_after_empty_text :
    (processCallToolResult
      { Content := [Content.TextContent "", Content.TextContent "B"], IsError := false }).1
      = "B" ∧
    "\n".intercalate (textFragments [Content.TextContent "", Content.TextContent "B"])
      = "\nB" ∧
    (processCallToolResult
      { Content := [Content.TextContent "", Content.TextContent "B"], IsError := false }).1
      ≠ "\n".intercalate (textFragments [Content.TextContent "", Content.TextContent "B"]) ∧
    (processCallToolResult
      { Content := [Content.TextContent "A", Content.TextContent "", Content.TextContent "B"],
        IsError := false }).1 = "A\n\nB" := by
  refine ⟨by decide, by decide, by decide, by decide⟩

theorem foldl_no_text (content : List Content) (acc : String)
    (h : textFragments content = []) :
    content.foldl (fun outputBuilder c =>
      match c with
      | Content.TextContent text =>
        (if outputBuilder.length > 0 then outputBuilder ++ "\n" else outputBuilder) ++ text
      | _ => outputBuilder) acc = acc := by
  induction content with
  | nil => rfl
  | cons c rest ih =>
    cases c with
    | TextContent text => simp [textFragments] at h
    | ImageContent d m => exact ih (by simpa [textFragments] using h)
    | EmbeddedResource u => exact ih (by simpa [textFragments] using h)
    | Other n => exact ih (by simpa [textFragments] using h)

/-- C9. The error flag does not change the rendered text: on every list of
fragments `processCallToolResult` gives the same text with `IsError` set as
without; the error is non-nil exactly when `IsError` is set, and its message is
that text; an error-flagged result without a text fragment gives the empty
text together with a non-nil error. -/
theorem error_flag_keeps_text (content : List Content) (isError : Bool) :
    (processCallToolResult { Content := content, IsError := true }).1
      = (processCallToolResult { Content := content, IsError := false }).1 ∧
    ((processCallToolResult { Content := content, IsError := isError }).2.isSome = true
      ↔ isError = true) ∧
    (processCallToolResult { Content := content, IsError := true }).2
      = some (processCallToolResult { Content := content, IsError := false }).1 ∧
    (processCallToolResult { Content := content, IsError := false }).2 = none ∧
    (textFragments content = [] →
      processCallToolResult { Content := content, IsError := true } = ("", some "")) := by
  refine ⟨rfl, ?_, rfl, rfl, ?_⟩
  · cases isError <;> simp [processCallToolResult]
  · intro h
    unfold processCallToolResult
    simp only [if_true]
    rw [foldl_no_text content "" h]

/-- A witness of C9: an error-flagged result that holds only an image. -/
theorem error_flag_keeps_text_witness :
    processCallToolResult { Content := [Content.ImageContent "" ""], IsError := true }
      = ("", some "") :=
  (error_flag_keeps_text [Content.ImageContent "" ""] true).2.2.2.2 rfl

/-- C10. Observation-hook protocol: with a handler attached, every `Call`
notifies exactly twice: first `HandleToolStart` with the raw instruction, then
`HandleToolError` when the parse fails, the transport fails or the result is
error-flagged, and otherwise `HandleToolEnd` with the text that `Call` returns. -/
theorem hook_protocol (lib : Stdlib) (t : LangchainMCPTool) (input : String)
    (hhook : t.callbacks = true) :
    ∃ last, notifications (Call lib t input).events = [Event.HandleToolStart input, last] ∧
      ((callFails lib t input = true ∧ ∃ err, last = Event.HandleToolError err) ∨
       (callFails lib t input = false ∧
         last = Event.HandleToolEnd (Call lib t input).output)) := by
  unfold Call callFails notify
  simp only [hhook, if_true]
  cases parseInput lib t.mcpTool input with
  | error jsonErr =>
    exact ⟨_, rfl, Or.inl ⟨rfl, _, rfl⟩⟩
  | ok arguments =>
    dsimp only
    cases t.mcpClient.CallTool { Name := t.mcpTool.Name, Arguments := arguments } with
    | error cause => exact ⟨_, rfl, Or.inl ⟨rfl, _, rfl⟩⟩
    | ok result =>
      dsimp only
      cases hflag : result.IsError with
      | true =>
        have hres : processCallToolResult result
            = ((processCallToolResult result).1, some (processCallToolResult result).1) := by
          simp [processCallToolResult, hflag]
        rw [hres]
        exact ⟨_, rfl, Or.inl ⟨rfl, _, rfl⟩⟩
      | false =>
        have hres : processCallToolResult result
            = ((processCallToolResult result).1, none) := by
          simp [processCallToolResult, hflag]
        rw [hres]
        exact ⟨_, rfl, Or.inr ⟨rfl, rfl⟩⟩

/-- A witness of C10: a successful call and a call whose parse fails. -/
theorem hook_protocol_witness :
    (∃ last, notifications
        (Call exampleLib (NewLangchainMCPTool toolQ okClient true) "hello, world ").events
        = [Event.HandleToolStart "hello, world ", last] ∧
      ((callFails exampleLib (NewLangchainMCPTool toolQ okClient true) "hello, world " = true ∧
          ∃ err, last = Event.HandleToolError err) ∨
       (callFails exampleLib (NewLangchainMCPTool toolQ okClient true) "hello, world " = false ∧
          last = Event.HandleToolEnd
            (Call exampleLib (NewLangchainMCPTool toolQ okClient true) "hello, world ").output))) ∧
    notifications
        (Call exampleLib (NewLangchainMCPTool toolQ okClient true) "hello, world ").events
      = [Event.HandleToolStart "hello, world ", Event.HandleToolEnd "ok"] :=
  ⟨hook_protocol exampleLib (NewLangchainMCPTool toolQ okClient true) "hello, world " rfl, rfl⟩

/-! ## Theorems: maps -/

theorem GoMap.get_delete {β : Type} (m : GoMap β) (k k' : String) :
    GoMap.get (GoMap.delete m k) k' = if k = k' then none else GoMap.get m k' := by
  induction m with
  | nil => simp [GoMap.delete, GoMap.get]
  | cons p rest ih =>
    obtain ⟨k0, v0⟩ := p
    by_cases hk : k = k'
    · subst hk
      rw [if_pos rfl] at ih ⊢
      by_cases h0 : k0 = k
      · simp [GoMap.delete, h0, ih]
      · simp [GoMap.delete, GoMap.get, h0, ih]
    · rw [if_neg hk] at ih ⊢
      by_cases h0 : k0 = k
      · subst h0
        simp [GoMap.delete, GoMap.get, hk, ih]
      · by_cases h1 : k0 = k'
        · subst h1
          simp [GoMap.delete, GoMap.get, h0]
        · simp [GoMap.delete, GoMap.get, h0, h1, ih]

theorem GoMap.mem_keys_set {β : Type} (m : GoMap β) (k : String) (v : β) (n : String) :
    n ∈ GoMap.keys (GoMap.set m k v) ↔ n = k ∨ n ∈ GoMap.keys m := by
  induction m with
  | nil => simp [GoMap.set, GoMap.keys]
  | cons p rest ih =>
    obtain ⟨k0, v0⟩ := p
    by_cases h0 : k0 = k
    · subst h0
      simp [GoMap.set, GoMap.keys]
    · simp only [GoMap.keys] at ih
      simp only [GoMap.set, h0, if_false, GoMap.keys, List.map_cons, List.mem_cons, ih]
      tauto

theorem GoMap.nodup_keys_set {β : Type} (m : GoMap β) (k : String) (v : β)
    (h : (GoMap.keys m).Nodup) : (GoMap.keys (GoMap.set m k v)).Nodup := by
  induction m with
  | nil => simp [GoMap.set, GoMap.keys]
  | cons p rest ih =>
    obtain ⟨k0, v0⟩ := p
    have h' : k0 ∉ GoMap.keys rest ∧ (GoMap.keys rest).Nodup := by
      simpa [GoMap.keys] using h
    by_cases h0 : k0 = k
    · subst h0
      simpa [GoMap.set, GoMap.keys] using h
    · have hk : k0 ∉ GoMap.keys (GoMap.set rest k v) := by
        rw [GoMap.mem_keys_set]
        exact fun hor => hor.elim h0 h'.1
      have hrec := ih h'.2
      simp only [GoMap.keys] at hk hrec
      simp [GoMap.set, h0, GoMap.keys, hk, hrec]

theorem GoMap.keys_delete_sublist {β : Type} (m : GoMap β) (k : String) :
    (GoMap.keys (GoMap.delete m k)).Sublist (GoMap.keys m) := by
  induction m with
  | nil => simp [GoMap.delete, GoMap.keys]
  | cons p rest ih =>
    obtain ⟨k0, v0⟩ := p
    simp only [GoMap.keys] at ih
    by_cases h0 : k0 = k
    · simp only [GoMap.delete, h0, if_true, GoMap.keys, List.map_cons]
      exact List.Sublist.cons _ ih
    · simp only [GoMap.delete, h0, if_false, GoMap.keys, List.map_cons]
      exact List.Sublist.cons₂ _ ih

theorem GoMap.get_eq_none_of_not_mem {β : Type} (m : GoMap β) (k : String)
    (h : k ∉ GoMap.keys m) : GoMap.get m k = none := by
  induction m with
  | nil => rfl
  | cons p rest ih =>
    obtain ⟨k0, v0⟩ := p
    have h' : ¬ k = k0 ∧ k ∉ GoMap.keys rest := by simpa [GoMap.keys] using h
    simp [GoMap.get, Ne.symm h'.1, ih h'.2]

theorem connectToServer_live (w : World) (done : Bool) (name : String)
    (cfg : ConnectionConfig) (cl : MCPClient)
    (h : connectToServer w done name cfg = Except.ok cl) :
    connectToServer w false name cfg = Except.ok cl := by
  cases done with
  | false => exact h
  | true =>
    cases cfg with
    | Stdio conn => simp [connectToServer] at h
    | SSE conn =>
      simp only [connectToServer, if_true] at h
      cases hd : w.connectToServerViaSSEDone name conn with
      | none =>
        rw [hd] at h
        exact h
      | some err =>
        rw [hd] at h
        cases h
    | Other => exact h

theorem connectToServer_error (w : World) (done : Bool) (name : String)
    (cfg : ConnectionConfig) (e : String)
    (h : connectToServer w done name cfg = Except.error e) :
    done = true ∨ connectToServer w false name cfg = Except.error e := by
  cases done with
  | false => exact Or.inr h
  | true => exact Or.inl rfl

theorem InitializeCtx_live (cl : MCPClient) (done : Bool) (timeout : Int)
    (request : InitializeRequest) (r : Implementation)
    (h : cl.InitializeCtx done timeout request = Except.ok r) :
    cl.Initialize timeout request = Except.ok r := by
  cases done with
  | false => exact h
  | true =>
    simp only [MCPClient.InitializeCtx, if_true] at h
    cases hd : cl.InitializeDone with
    | none =>
      rw [hd] at h
      exact h
    | some err =>
      rw [hd] at h
      cases h

theorem InitializeCtx_error (cl : MCPClient) (done : Bool) (timeout : Int)
    (request : InitializeRequest) (e : String)
    (h : cl.InitializeCtx done timeout request = Except.error e) :
    done = true ∨ cl.Initialize timeout request = Except.error e := by
  cases done with
  | false => exact Or.inr h
  | true => exact Or.inl rfl

theorem LoadMCPToolsCtx_live (done : Bool) (cl : MCPClient)
    (loaded : List LangchainMCPTool) (h : LoadMCPToolsCtx done cl = Except.ok loaded) :
    LoadMCPTools cl = Except.ok loaded := by
  cases done with
  | false => exact h
  | true =>
    simp only [LoadMCPToolsCtx, if_true] at h
    cases hd : cl.ListToolsDone with
    | none =>
      rw [hd] at h
      exact h
    | some err =>
      rw [hd] at h
      cases h

theorem LoadMCPToolsCtx_error (done : Bool) (cl : MCPClient) (e : String)
    (h : LoadMCPToolsCtx done cl = Except.error e) :
    done = true ∨ LoadMCPTools cl = Except.error e := by
  cases done with
  | false => exact Or.inr h
  | true => exact Or.inl rfl

theorem TaskOK.ctx_mono (w : World) (c0 : MultiServerMCPClient) (done done' : Bool) (t : Task)
    (session : Option MCPClient) (tools : Option (List LangchainMCPTool))
    (hd : done = true → done' = true) (h : TaskOK w c0 done t session tools) :
    TaskOK w c0 done' t session tools := by
  obtain ⟨name, cfg, pc⟩ := t
  cases pc with
  | closeFailed cl err =>
    simp only [TaskOK] at h ⊢
    exact ⟨h.1.imp hd id, h.2⟩
  | deleteSession err =>
    simp only [TaskOK] at h ⊢
    exact ⟨h.1.imp hd id, h.2⟩
  | done ret =>
    cases ret with
    | none => exact h
    | some e =>
      simp only [TaskOK] at h ⊢
      exact ⟨h.1.imp hd id, h.2⟩
  | _ => exact h

theorem Task.step_ok (w : World) (c0 c c1 : MultiServerMCPClient) (t : Task) (pc : TaskPc)
    (hconns : c.connections = c0.connections) (hinfo : c.clientInfo = c0.clientInfo)
    (hcaps : c.clientCapabilities = c0.clientCapabilities)
    (hok : TaskOK w c0 (ctxDone c) t (GoMap.get c.sessions t.name)
      (GoMap.get c.serverNameToTools t.name))
    (hstep : Task.step w c t = some (pc, c1)) :
    c1.connections = c.connections ∧ c1.clientInfo = c.clientInfo ∧
    c1.clientCapabilities = c.clientCapabilities ∧ c1.mu = c.mu ∧ c1.cancel = c.cancel ∧
    (∀ n, n ≠ t.name → GoMap.get c1.sessions n = GoMap.get c.sessions n ∧
      GoMap.get c1.serverNameToTools n = GoMap.get c.serverNameToTools n) ∧
    ((GoMap.keys c.sessions).Nodup → (GoMap.keys c1.sessions).Nodup) ∧
    ((GoMap.keys c.serverNameToTools).Nodup → (GoMap.keys c1.serverNameToTools).Nodup) ∧
    TaskOK w c0 (ctxDone c) { t with pc := pc } (GoMap.get c1.sessions t.name)
      (GoMap.get c1.serverNameToTools t.name) := by
  obtain ⟨name, cfg, pc0⟩ := t
  cases pc0 with
  | connect =>
    simp only [Task.step] at hstep
    simp only [TaskOK] at hok
    cases hconn : connectToServer w (ctxDone c) name cfg with
    | error err =>
      rw [hconn] at hstep
      simp only [Option.some.injEq, Prod.mk.injEq] at hstep
      obtain ⟨rfl, rfl⟩ := hstep
      refine ⟨rfl, rfl, rfl, rfl, rfl, fun _ _ => ⟨rfl, rfl⟩, id, id, ?_⟩
      simp only [TaskOK]
      refine ⟨?_, hok.1, hok.2⟩
      rcases connectToServer_error w _ name cfg err hconn with hd | hlive
      · exact Or.inl hd
      · right
        simp [setupServer, hlive]
    | ok cl =>
      rw [hconn] at hstep
      simp only [Option.some.injEq, Prod.mk.injEq] at hstep
      obtain ⟨rfl, rfl⟩ := hstep
      have hlive := connectToServer_live w _ name cfg cl hconn
      simp [TaskOK, hlive, hok.1, hok.2]
  | storeSession cl =>
    simp only [Task.step] at hstep
    simp only [TaskOK] at hok
    split at hstep
    · cases hstep
    · simp only [Option.some.injEq, Prod.mk.injEq] at hstep
      obtain ⟨rfl, rfl⟩ := hstep
      refine ⟨rfl, rfl, rfl, rfl, rfl, ?_, GoMap.nodup_keys_set _ _ _, id, ?_⟩
      · intro n hn
        simp [GoMap.get_set, Ne.symm hn]
      · simp [TaskOK, GoMap.get_set, hok.1, hok.2.2]
  | readConfig cl =>
    simp only [Task.step] at hstep
    simp only [TaskOK] at hok
    split at hstep
    · cases hstep
    · simp only [Option.some.injEq, Prod.mk.injEq] at hstep
      obtain ⟨rfl, rfl⟩ := hstep
      simp [TaskOK, hok.1, hok.2.1, hok.2.2, hconns]
  | handshake cl timeout =>
    simp only [Task.step] at hstep
    simp only [TaskOK] at hok
    obtain ⟨hconn, htime, hs, ht⟩ := hok
    cases hinit : cl.InitializeCtx (ctxDone c) timeout
        (initRequest w c.clientInfo c.clientCapabilities) with
    | error err =>
      rw [hinit] at hstep
      simp only [Option.some.injEq, Prod.mk.injEq] at hstep
      obtain ⟨rfl, rfl⟩ := hstep
      refine ⟨rfl, rfl, rfl, rfl, rfl, fun _ _ => ⟨rfl, rfl⟩, id, id, ?_⟩
      simp only [TaskOK]
      refine ⟨?_, ht⟩
      rcases InitializeCtx_error cl _ timeout _ err hinit with hd | hlive
      · exact Or.inl hd
      · right
        rw [hinfo, hcaps, htime] at hlive
        simp [setupServer, hconn, hlive]
    | ok r =>
      rw [hinit] at hstep
      simp only [Option.some.injEq, Prod.mk.injEq] at hstep
      obtain ⟨rfl, rfl⟩ := hstep
      have hlive := InitializeCtx_live cl _ timeout _ r hinit
      rw [hinfo, hcaps, htime] at hlive
      simp [TaskOK, hconn, hlive, hs, ht]
  | loadTools cl =>
    simp only [Task.step] at hstep
    simp only [TaskOK] at hok
    obtain ⟨hconn, ⟨r, hinit⟩, hs, ht⟩ := hok
    cases hload : LoadMCPToolsCtx (ctxDone c) cl with
    | error err =>
      rw [hload] at hstep
      simp only [Option.some.injEq, Prod.mk.injEq] at hstep
      obtain ⟨rfl, rfl⟩ := hstep
      refine ⟨rfl, rfl, rfl, rfl, rfl, fun _ _ => ⟨rfl, rfl⟩, id, id, ?_⟩
      simp only [TaskOK]
      refine ⟨?_, ht⟩
      rcases LoadMCPToolsCtx_error _ cl err hload with hd | hlive
      · exact Or.inl hd
      · right
        simp [setupServer, hconn, hinit, hlive]
    | ok loaded =>
      rw [hload] at hstep
      simp only [Option.some.injEq, Prod.mk.injEq] at hstep
      obtain ⟨rfl, rfl⟩ := hstep
      have hlive := LoadMCPToolsCtx_live _ cl loaded hload
      simp [TaskOK, setupServer, hconn, hinit, hlive, hs, ht]
  | storeTools cl loaded =>
    simp only [Task.step] at hstep
    simp only [TaskOK] at hok
    split at hstep
    · cases hstep
    · simp only [Option.some.injEq, Prod.mk.injEq] at hstep
      obtain ⟨rfl, rfl⟩ := hstep
      refine ⟨rfl, rfl, rfl, rfl, rfl, ?_, id, GoMap.nodup_keys_set _ _ _, ?_⟩
      · intro n hn
        simp [GoMap.get_set, Ne.symm hn]
      · simp [TaskOK, GoMap.get_set, hok.1, hok.2.1]
  | closeFailed cl err =>
    simp only [Task.step] at hstep
    simp only [TaskOK] at hok
    simp only [Option.some.injEq, Prod.mk.injEq] at hstep
    obtain ⟨rfl, rfl⟩ := hstep
    refine ⟨rfl, rfl, rfl, rfl, rfl, fun _ _ => ⟨rfl, rfl⟩, id, id, ?_⟩
    simp only [TaskOK]
    exact hok
  | deleteSession err =>
    simp only [Task.step] at hstep
    simp only [TaskOK] at hok
    split at hstep
    · cases hstep
    · simp only [Option.some.injEq, Prod.mk.injEq] at hstep
      obtain ⟨rfl, rfl⟩ := hstep
      refine ⟨rfl, rfl, rfl, rfl, rfl, ?_,
        fun h => List.Sublist.nodup (GoMap.keys_delete_sublist _ _) h, id, ?_⟩
      · intro n hn
        simp [GoMap.get_delete, Ne.symm hn]
      · simp only [TaskOK]
        exact ⟨hok.1, by simp [GoMap.get_delete], hok.2⟩
  | done ret =>
    simp [Task.step] at hstep

theorem set_eq_self_of_getElem? {α : Type} (l : List α) (i : Nat) (a : α)
    (h : l[i]? = some a) : l.set i a = l := by
  induction l generalizing i with
  | nil => rfl
  | cons x xs ih =>
    cases i with
    | zero =>
      simp only [List.getElem?_cons_zero, Option.some.injEq] at h
      simp [h]
    | succ j =>
      simp only [List.getElem?_cons_succ] at h
      simp [ih j h]

theorem task_name_ne (tasks : List Task) (hnd : (tasks.map Task.name).Nodup)
    (i j : Nat) (t t' : Task) (hi : tasks[i]? = some t) (hj : tasks[j]? = some t')
    (hij : i ≠ j) : t'.name ≠ t.name := by
  intro hname
  obtain ⟨hi', hti⟩ := List.getElem?_eq_some.1 hi
  obtain ⟨hj', htj⟩ := List.getElem?_eq_some.1 hj
  have hi'' : i < (tasks.map Task.name).length := by simpa using hi'
  have hj'' : j < (tasks.map Task.name).length := by simpa using hj'
  have heq : (tasks.map Task.name)[i] = (tasks.map Task.name)[j] := by
    simp [hti, htj, hname]
  exact hij ((List.Nodup.getElem_inj_iff hnd).1 heq)

theorem task_names_nodup (c0 : MultiServerMCPClient) (g : Errgroup)
    (hnd : (GoMap.keys c0.connections).Nodup)
    (htasks : g.tasks.map (fun t => (t.name, t.cfg)) = c0.connections) :
    (g.tasks.map Task.name).Nodup := by
  have h : g.tasks.map Task.name = GoMap.keys c0.connections := by
    rw [← htasks, GoMap.keys, List.map_map]
    rfl
  rw [h]
  exact hnd

theorem task_name_mem_keys (c0 : MultiServerMCPClient) (g : Errgroup)
    (htasks : g.tasks.map (fun t => (t.name, t.cfg)) = c0.connections)
    (i : Nat) (t : Task) (hi : g.tasks[i]? = some t) :
    (t.name, t.cfg) ∈ c0.connections ∧ t.name ∈ GoMap.keys c0.connections := by
  have hmem : t ∈ g.tasks := List.mem_iff_getElem?.2 ⟨i, hi⟩
  have h1 : (t.name, t.cfg) ∈ c0.connections := by
    rw [← htasks]
    exact List.mem_map.2 ⟨t, hmem, rfl⟩
  exact ⟨h1, List.mem_map.2 ⟨(t.name, t.cfg), h1, rfl⟩⟩

theorem Errgroup.record_eq_none (old : Option String) (pc : TaskPc)
    (h : Errgroup.record old pc = none) : old = none ∧ ∀ e, pc ≠ TaskPc.done (some e) := by
  cases old with
  | some e0 => simp [Errgroup.record] at h
  | none =>
    refine ⟨rfl, ?_⟩
    intro e hpc
    subst hpc
    simp [Errgroup.record] at h

theorem Errgroup.record_eq_some (old : Option String) (pc : TaskPc) (e : String)
    (h : Errgroup.record old pc = some e) :
    old = some e ∨ (old = none ∧ pc = TaskPc.done (some e)) := by
  cases old with
  | some e0 =>
    left
    simpa [Errgroup.record] using h
  | none =>
    right
    refine ⟨rfl, ?_⟩
    cases pc with
    | done ret =>
      cases ret with
      | none => simp [Errgroup.record] at h
      | some e1 =>
        simp only [Errgroup.record, Option.some.injEq] at h
        rw [h]
    | _ => simp [Errgroup.record] at h

theorem ctxDone_eq (c : MultiServerMCPClient) (g : Errgroup) (h : c.eg = some g) :
    ctxDone c = g.ctxDone := by
  unfold ctxDone
  rw [h]

theorem Errgroup.ctxDone_record (g : Errgroup) (tasks : List Task) (pc : TaskPc)
    (h : g.ctxDone = true) :
    Errgroup.ctxDone { g with tasks := tasks, err := Errgroup.record g.err pc } = true := by
  unfold Errgroup.ctxDone at h ⊢
  cases hg : g.err with
  | none =>
    rw [hg] at h
    simp only [Option.isSome_none, Bool.false_or] at h
    simp [h]
  | some e => simp [Errgroup.record]

theorem stepTask_inv (w : World) (c0 c : MultiServerMCPClient) (g : Errgroup) (i : Nat)
    (hnd : (GoMap.keys c0.connections).Nodup) (h : StartInv w c0 c g) :
    ∃ g', StartInv w c0 (stepTask w c i) g' := by
  unfold stepTask
  rw [h.eg]
  dsimp only
  cases hti : g.tasks[i]? with
  | none => exact ⟨g, h⟩
  | some t =>
    dsimp only
    cases hstep : Task.step w c t with
    | none => exact ⟨g, h⟩
    | some r =>
      obtain ⟨pc, c1⟩ := r
      dsimp only
      have hctx : ctxDone c = g.ctxDone := ctxDone_eq c g h.eg
      have hok0 := h.ok i t hti
      rw [← hctx] at hok0
      obtain ⟨h1, h2, h3, -, -, hother, hsn, htn, hnew⟩ :=
        Task.step_ok w c0 c c1 t pc h.conns h.info h.caps hok0 hstep
      rw [hctx] at hnew
      have hilt : i < g.tasks.length := (List.getElem?_eq_some.1 hti).1
      have hnames := task_names_nodup c0 g hnd h.tasks
      have hmono := Errgroup.ctxDone_record g (g.tasks.set i { t with pc := pc }) pc
      refine ⟨_, ⟨rfl, h.live, h1.trans h.conns, h2.trans h.info, h3.trans h.caps, ?_, ?_, ?_,
        ?_, hsn h.sessionsNodup, htn h.toolsNodup, ?_⟩⟩
      · dsimp only
        rw [List.map_set, ← h.tasks]
        apply set_eq_self_of_getElem?
        rw [List.getElem?_map, hti]
        rfl
      · intro j t' hj
        dsimp only at hj ⊢
        rw [List.getElem?_set] at hj
        by_cases hij : i = j
        · rw [if_pos hij, if_pos hilt] at hj
          cases hj
          exact TaskOK.ctx_mono w c0 _ _ _ _ _ hmono hnew
        · rw [if_neg hij] at hj
          have hne := task_name_ne g.tasks hnames i j t t' hti hj hij
          rw [(hother t'.name hne).1, (hother t'.name hne).2]
          exact TaskOK.ctx_mono w c0 _ _ _ _ _ hmono (h.ok j t' hj)
      · intro hnone j t' e hj
        dsimp only at hnone hj
        obtain ⟨hold, hpc⟩ := Errgroup.record_eq_none _ _ hnone
        rw [List.getElem?_set] at hj
        by_cases hij : i = j
        · rw [if_pos hij, if_pos hilt] at hj
          cases hj
          exact hpc e
        · rw [if_neg hij] at hj
          exact h.errNone hold j t' e hj
      · intro e he
        dsimp only at he ⊢
        rcases Errgroup.record_eq_some _ _ _ he with hold | ⟨hold, hpc⟩
        · obtain ⟨j, t', hj, hdone, hsetup⟩ := h.errSome e hold
          have hij : i ≠ j := by
            intro hij
            subst hij
            rw [hti] at hj
            cases hj
            obtain ⟨name, cfg, pc0⟩ := t
            simp only at hdone
            subst hdone
            simp [Task.step] at hstep
          exact ⟨j, t', by rw [List.getElem?_set, if_neg hij]; exact hj, hdone, hsetup⟩
        · refine ⟨i, { t with pc := pc },
            by rw [List.getElem?_set, if_pos rfl, if_pos hilt], hpc, ?_⟩
          subst hpc
          have hlive : g.ctxDone = false := by
            unfold Errgroup.ctxDone
            rw [hold, h.live]
            rfl
          rw [hlive] at hnew
          simp only [TaskOK] at hnew
          rcases hnew.1 with hd | hsetup
          · cases hd
          · exact hsetup
      · intro n hn
        have hne : n ≠ t.name := by
          intro hnt
          exact hn (hnt ▸ (task_name_mem_keys c0 g h.tasks i t hti).2)
        dsimp only
        rw [(hother n hne).1, (hother n hne).2]
        exact h.outside n hn

theorem runTasks_inv (w : World) (c0 : MultiServerMCPClient)
    (hnd : (GoMap.keys c0.connections).Nodup) (schedule : List Nat)
    (c : MultiServerMCPClient) (g : Errgroup) (h : StartInv w c0 c g) :
    ∃ g', StartInv w c0 (runTasks w c schedule) g' := by
  induction schedule generalizing c g with
  | nil => exact ⟨g, h⟩
  | cons i rest ih =>
    obtain ⟨g1, h1⟩ := stepTask_inv w c0 c g i hnd h
    exact ih _ g1 h1

theorem succeeded_sessions (w : World) (c : MultiServerMCPClient) :
    (succeeded w c).map (fun s => (s.1, s.2.1))
      = GoMap.filterMapValues c.connections (sessionOf w c) := by
  unfold succeeded GoMap.filterMapValues sessionOf
  rw [List.map_filterMap]
  congr 1
  funext p
  cases setupServer w c p.1 p.2 <;> rfl

theorem succeeded_tools (w : World) (c : MultiServerMCPClient) :
    (succeeded w c).map (fun s => (s.1, s.2.2))
      = GoMap.filterMapValues c.connections (toolsOf w c) := by
  unfold succeeded GoMap.filterMapValues toolsOf
  rw [List.map_filterMap]
  congr 1
  funext p
  cases setupServer w c p.1 p.2 <;> rfl

theorem finished_task_done (g : Errgroup) (hfin : g.finished = true) (i : Nat) (t : Task)
    (hi : g.tasks[i]? = some t) : ∃ ret, t.pc = TaskPc.done ret := by
  have hmem : t ∈ g.tasks := List.mem_iff_getElem?.2 ⟨i, hi⟩
  have hd := List.all_eq_true.1 hfin t hmem
  cases hpc : t.pc with
  | done ret => exact ⟨ret, rfl⟩
  | _ => simp [hpc, TaskPc.isDone] at hd

theorem Task.step_flags (w : World) (c c1 : MultiServerMCPClient) (t : Task) (pc : TaskPc)
    (hstep : Task.step w c t = some (pc, c1)) : c1.mu = c.mu ∧ c1.cancel = c.cancel := by
  obtain ⟨name, cfg, pc0⟩ := t
  cases pc0 with
  | connect =>
    simp only [Task.step] at hstep
    cases hconn : connectToServer w (ctxDone c) name cfg <;> rw [hconn] at hstep <;>
      simp only [Option.some.injEq, Prod.mk.injEq] at hstep <;>
      obtain ⟨-, rfl⟩ := hstep <;> exact ⟨rfl, rfl⟩
  | storeSession cl =>
    simp only [Task.step] at hstep
    split at hstep
    · cases hstep
    · simp only [Option.some.injEq, Prod.mk.injEq] at hstep
      obtain ⟨-, rfl⟩ := hstep
      exact ⟨rfl, rfl⟩
  | readConfig cl =>
    simp only [Task.step] at hstep
    split at hstep
    · cases hstep
    · simp only [Option.some.injEq, Prod.mk.injEq] at hstep
      obtain ⟨-, rfl⟩ := hstep
      exact ⟨rfl, rfl⟩
  | handshake cl timeout =>
    simp only [Task.step] at hstep
    cases hinit : cl.InitializeCtx (ctxDone c) timeout
        (initRequest w c.clientInfo c.clientCapabilities) <;>
      rw [hinit] at hstep <;>
      simp only [Option.some.injEq, Prod.mk.injEq] at hstep <;>
      obtain ⟨-, rfl⟩ := hstep <;> exact ⟨rfl, rfl⟩
  | loadTools cl =>
    simp only [Task.step] at hstep
    cases hload : LoadMCPToolsCtx (ctxDone c) cl <;> rw [hload] at hstep <;>
      simp only [Option.some.injEq, Prod.mk.injEq] at hstep <;>
      obtain ⟨-, rfl⟩ := hstep <;> exact ⟨rfl, rfl⟩
  | storeTools cl loaded =>
    simp only [Task.step] at hstep
    split at hstep
    · cases hstep
    · simp only [Option.some.injEq, Prod.mk.injEq] at hstep
      obtain ⟨-, rfl⟩ := hstep
      exact ⟨rfl, rfl⟩
  | closeFailed cl err =>
    simp only [Task.step, Option.some.injEq, Prod.mk.injEq] at hstep
    obtain ⟨-, rfl⟩ := hstep
    exact ⟨rfl, rfl⟩
  | deleteSession err =>
    simp only [Task.step] at hstep
    split at hstep
    · cases hstep
    · simp only [Option.some.injEq, Prod.mk.injEq] at hstep
      obtain ⟨-, rfl⟩ := hstep
      exact ⟨rfl, rfl⟩
  | done ret => simp [Task.step] at hstep

theorem stepTask_flags (w : World) (c : MultiServerMCPClient) (i : Nat) :
    (stepTask w c i).mu = c.mu ∧ (stepTask w c i).cancel = c.cancel := by
  unfold stepTask
  cases c.eg with
  | none => exact ⟨rfl, rfl⟩
  | some g =>
    dsimp only
    cases g.tasks[i]? with
    | none => exact ⟨rfl, rfl⟩
    | some t =>
      dsimp only
      cases hstep : Task.step w c t with
      | none => exact ⟨rfl, rfl⟩
      | some r =>
        obtain ⟨pc, c1⟩ := r
        exact Task.step_flags w c c1 t pc hstep

theorem runTasks_flags (w : World) (schedule : List Nat) (c : MultiServerMCPClient) :
    (runTasks w c schedule).mu = c.mu ∧ (runTasks w c schedule).cancel = c.cancel := by
  induction schedule generalizing c with
  | nil => exact ⟨rfl, rfl⟩
  | cons i rest ih =>
    obtain ⟨h1, h2⟩ := ih (stepTask w c i)
    obtain ⟨h3, h4⟩ := stepTask_flags w c i
    exact ⟨h1.trans h3, h2.trans h4⟩

theorem StartInv.setMu (w : World) (c0 c : MultiServerMCPClient) (g : Errgroup) (b : Bool)
    (h : StartInv w c0 c g) : StartInv w c0 { c with mu := b } g :=
  ⟨h.eg, h.live, h.conns, h.info, h.caps, h.tasks, h.ok, h.errNone, h.errSome,
    h.sessionsNodup, h.toolsNodup, h.outside⟩

theorem Start_returned (w : World) (c0 c' : MultiServerMCPClient) (before after : List Nat)
    (err : Option String) (hnd : (GoMap.keys c0.connections).Nodup)
    (hmu : c0.mu = false) (heg : c0.eg = none) (hs : c0.sessions = [])
    (ht : c0.serverNameToTools = [])
    (hstart : Start w c0 before after = StartResult.returned c' err) :
    ∃ g, StartInv w c0 c' g ∧ g.finished = true ∧ err = g.err ∧ c'.mu = false ∧
      c'.cancel = true := by
  unfold Start at hstart
  rw [hmu, heg] at hstart
  simp only [Bool.false_eq_true, if_false] at hstart
  have hlaunch : StartInv w c0 (launch c0)
      { tasks := c0.connections.map
          (fun p => { name := p.1, cfg := p.2, pc := TaskPc.connect }),
        err := none, cancelled := false } := by
    refine ⟨rfl, rfl, rfl, rfl, rfl, ?_, ?_, ?_, ?_, ?_, ?_, ?_⟩
    · simp [List.map_map, Function.comp_def]
    · intro i t hi
      obtain ⟨p, -, hp⟩ := List.mem_map.1 (List.mem_iff_getElem?.2 ⟨i, hi⟩)
      subst hp
      simp [TaskOK, launch, hs, ht, GoMap.get]
    · intro _ i t e hi
      obtain ⟨p, -, hp⟩ := List.mem_map.1 (List.mem_iff_getElem?.2 ⟨i, hi⟩)
      subst hp
      simp
    · intro e he
      cases he
    · simp [launch, hs, GoMap.keys]
    · simp [launch, ht, GoMap.keys]
    · intro n _
      simp [launch, hs, ht, GoMap.get]
  obtain ⟨g1, h1⟩ := runTasks_inv w c0 hnd before _ _ hlaunch
  obtain ⟨g2, h2⟩ := runTasks_inv w c0 hnd after _ _ (StartInv.setMu w c0 _ g1 false h1)
  have hflags1 := runTasks_flags w before (launch c0)
  have hflags2 := runTasks_flags w after (unlock (runTasks w (launch c0) before))
  change StartInv w c0 (runTasks w (unlock (runTasks w (launch c0) before)) after) g2 at h2
  rw [h2.eg] at hstart
  dsimp only at hstart
  split at hstart
  · rename_i hfin
    simp only [StartResult.returned.injEq] at hstart
    obtain ⟨rfl, rfl⟩ := hstart
    exact ⟨g2, h2, hfin, rfl, hflags2.1, hflags2.2.trans hflags1.2⟩
  · cases hstart

theorem foldl_append_tools (m : GoMap (List LangchainMCPTool))
    (acc : List LangchainMCPTool) :
    m.foldl (fun allTools p => allTools ++ p.2) acc = acc ++ (m.map Prod.snd).flatten := by
  induction m generalizing acc with
  | nil => simp
  | cons p rest ih => simp [ih, List.append_assoc]

theorem GetTools_eq_flatten (c : MultiServerMCPClient) :
    GetTools c = (c.serverNameToTools.map Prod.snd).flatten := by
  unfold GetTools
  rw [foldl_append_tools]
  rfl

theorem succeeded_add_failed (w : World) (c : MultiServerMCPClient) :
    (succeeded w c).length + (failed w c).length = c.connections.length := by
  unfold succeeded failed
  induction c.connections with
  | nil => rfl
  | cons p rest ih =>
    cases hsetup : setupServer w c p.1 p.2 with
    | error e =>
      simp only [List.filterMap_cons, hsetup, List.length_cons]
      omega
    | ok r =>
      simp only [List.filterMap_cons, hsetup, List.length_cons]
      omega

theorem Start_error_iff (w : World) (c0 c : MultiServerMCPClient) (g : Errgroup)
    (h : StartInv w c0 c g) (hfin : g.finished = true) :
    g.err.isSome = true ↔ 0 < (failed w c0).length := by
  constructor
  · intro hsome
    obtain ⟨e, he⟩ := Option.isSome_iff_exists.1 hsome
    obtain ⟨i, t, hi, -, hsetup⟩ := h.errSome e he
    have hmem := (task_name_mem_keys c0 g h.tasks i t hi).1
    have hin : (t.name, e) ∈ failed w c0 := by
      unfold failed
      rw [List.mem_filterMap]
      exact ⟨(t.name, t.cfg), hmem, by simp [hsetup]⟩
    exact List.length_pos_of_mem hin
  · intro hpos
    obtain ⟨⟨n, e⟩, hin⟩ := List.exists_mem_of_length_pos hpos
    unfold failed at hin
    rw [List.mem_filterMap] at hin
    obtain ⟨⟨n', cfg⟩, hmem, hf⟩ := hin
    rw [← h.tasks] at hmem
    obtain ⟨t, ht, hteq⟩ := List.mem_map.1 hmem
    obtain ⟨i, hi⟩ := List.mem_iff_getElem?.1 ht
    obtain ⟨ret, hret⟩ := finished_task_done g hfin i t hi
    have hok := h.ok i t hi
    obtain ⟨name, cfg', pc⟩ := t
    simp only [Prod.mk.injEq] at hteq
    obtain ⟨rfl, rfl⟩ := hteq
    simp only at hret
    subst hret
    cases ret with
    | none =>
      obtain ⟨cl, loaded, hs, -, -⟩ := hok
      simp only at hs
      simp [hs] at hf
    | some e' =>
      cases herr : g.err with
      | some e0 => rfl
      | none => exact absurd rfl (h.errNone herr i _ e' hi)

theorem Task.step_rank (w : World) (c c1 : MultiServerMCPClient) (t : Task) (pc : TaskPc)
    (hstep : Task.step w c t = some (pc, c1)) : pc.rank < t.pc.rank := by
  obtain ⟨name, cfg, pc0⟩ := t
  cases pc0 with
  | connect =>
    simp only [Task.step] at hstep
    cases hconn : connectToServer w (ctxDone c) name cfg <;> rw [hconn] at hstep <;>
      simp only [Option.some.injEq, Prod.mk.injEq] at hstep <;>
      obtain ⟨rfl, -⟩ := hstep <;> simp [TaskPc.rank]
  | storeSession cl =>
    simp only [Task.step] at hstep
    split at hstep
    · cases hstep
    · simp only [Option.some.injEq, Prod.mk.injEq] at hstep
      obtain ⟨rfl, -⟩ := hstep
      simp [TaskPc.rank]
  | readConfig cl =>
    simp only [Task.step] at hstep
    split at hstep
    · cases hstep
    · simp only [Option.some.injEq, Prod.mk.injEq] at hstep
      obtain ⟨rfl, -⟩ := hstep
      simp [TaskPc.rank]
  | handshake cl timeout =>
    simp only [Task.step] at hstep
    cases hinit : cl.InitializeCtx (ctxDone c) timeout
        (initRequest w c.clientInfo c.clientCapabilities) <;>
      rw [hinit] at hstep <;>
      simp only [Option.some.injEq, Prod.mk.injEq] at hstep <;>
      obtain ⟨rfl, -⟩ := hstep <;> simp [TaskPc.rank]
  | loadTools cl =>
    simp only [Task.step] at hstep
    cases hload : LoadMCPToolsCtx (ctxDone c) cl <;> rw [hload] at hstep <;>
      simp only [Option.some.injEq, Prod.mk.injEq] at hstep <;>
      obtain ⟨rfl, -⟩ := hstep <;> simp [TaskPc.rank]
  | storeTools cl loaded =>
    simp only [Task.step] at hstep
    split at hstep
    · cases hstep
    · simp only [Option.some.injEq, Prod.mk.injEq] at hstep
      obtain ⟨rfl, -⟩ := hstep
      simp [TaskPc.rank]
  | closeFailed cl err =>
    simp only [Task.step, Option.some.injEq, Prod.mk.injEq] at hstep
    obtain ⟨rfl, -⟩ := hstep
    simp [TaskPc.rank]
  | deleteSession err =>
    simp only [Task.step] at hstep
    split at hstep
    · cases hstep
    · simp only [Option.some.injEq, Prod.mk.injEq] at hstep
      obtain ⟨rfl, -⟩ := hstep
      simp [TaskPc.rank]
  | done ret => simp [Task.step] at hstep

theorem Task.step_none_rank (w : World) (c : MultiServerMCPClient) (t : Task)
    (hmu : c.mu = false) (hstep : Task.step w c t = none) : t.pc.rank = 0 := by
  obtain ⟨name, cfg, pc0⟩ := t
  cases pc0 with
  | connect =>
    simp only [Task.step] at hstep
    cases hconn : connectToServer w (ctxDone c) name cfg <;> rw [hconn] at hstep <;> cases hstep
  | handshake cl timeout =>
    simp only [Task.step] at hstep
    cases hinit : cl.InitializeCtx (ctxDone c) timeout
        (initRequest w c.clientInfo c.clientCapabilities) <;>
      rw [hinit] at hstep <;> cases hstep
  | loadTools cl =>
    simp only [Task.step] at hstep
    cases hload : LoadMCPToolsCtx (ctxDone c) cl <;> rw [hload] at hstep <;> cases hstep
  | done ret => rfl
  | _ => simp [Task.step, hmu] at hstep

theorem stepTask_ranks (w : World) (c : MultiServerMCPClient) (n : Nat) (bound : Nat → Nat)
    (i : Nat) (h : Ranks c n bound) :
    Ranks (stepTask w c i) n (Function.update bound i (bound i - 1)) := by
  obtain ⟨g, heg, hlen, hmu, hb⟩ := h
  have hweak : ∀ (j : Nat) (t : Task), g.tasks[j]? = some t → j ≠ i →
      t.pc.rank ≤ Function.update bound i (bound i - 1) j := by
    intro j t hj hji
    rw [Function.update_noteq hji]
    exact hb j t hj
  unfold stepTask
  rw [heg]
  dsimp only
  cases hti : g.tasks[i]? with
  | none =>
    refine ⟨g, heg, hlen, hmu, ?_⟩
    intro j t hj
    by_cases hji : j = i
    · subst hji
      rw [hti] at hj
      cases hj
    · exact hweak j t hj hji
  | some t =>
    dsimp only
    cases hstep : Task.step w c t with
    | none =>
      refine ⟨g, heg, hlen, hmu, ?_⟩
      intro j t' hj
      by_cases hji : j = i
      · subst hji
        rw [hti] at hj
        cases hj
        rw [Task.step_none_rank w c t hmu hstep]
        exact Nat.zero_le _
      · exact hweak j t' hj hji
    | some r =>
      obtain ⟨pc, c1⟩ := r
      have hilt : i < g.tasks.length := (List.getElem?_eq_some.1 hti).1
      refine ⟨_, rfl, by simpa using hlen,
        (Task.step_flags w c c1 t pc hstep).1.trans hmu, ?_⟩
      intro j t' hj
      dsimp only at hj
      rw [List.getElem?_set] at hj
      by_cases hij : i = j
      · rw [if_pos hij, if_pos hilt] at hj
        cases hj
        subst hij
        rw [Function.update_same]
        have h1 := Task.step_rank w c c1 t pc hstep
        have h2 := hb i t hti
        dsimp only
        omega
      · rw [if_neg hij] at hj
        exact hweak j t' hj (Ne.symm hij)

theorem Ranks.mono (c : MultiServerMCPClient) (n : Nat) (bound bound' : Nat → Nat)
    (h : Ranks c n bound) (hle : ∀ i, bound i ≤ bound' i) : Ranks c n bound' := by
  obtain ⟨g, heg, hlen, hmu, hb⟩ := h
  exact ⟨g, heg, hlen, hmu, fun i t hi => le_trans (hb i t hi) (hle i)⟩

theorem runTasks_append (w : World) (c : MultiServerMCPClient) (s1 s2 : List Nat) :
    runTasks w c (s1 ++ s2) = runTasks w (runTasks w c s1) s2 := by
  induction s1 generalizing c with
  | nil => rfl
  | cons i rest ih => exact ih (stepTask w c i)

theorem runTasks_replicate_ranks (w : World) (n : Nat) (i k : Nat)
    (c : MultiServerMCPClient) (bound : Nat → Nat) (h : Ranks c n bound) :
    Ranks (runTasks w c (List.replicate k i)) n (Function.update bound i (bound i - k)) := by
  induction k generalizing c bound with
  | zero =>
    simpa [runTasks] using h
  | succ k ih =>
    have h1 := ih (stepTask w c i) _ (stepTask_ranks w c n bound i h)
    simp only [List.replicate_succ, runTasks]
    refine Ranks.mono _ n _ _ h1 ?_
    intro j
    by_cases hji : j = i
    · subst hji
      simp only [Function.update_same]
      omega
    · simp [Function.update_noteq hji]

theorem runTasks_fair_ranks (w : World) (n : Nat) (indices : List Nat)
    (c : MultiServerMCPClient) (bound : Nat → Nat) (h : Ranks c n bound)
    (hbound : ∀ i, bound i ≤ 7) :
    Ranks (runTasks w c (indices.flatMap (fun i => List.replicate 7 i))) n
      (fun j => if j ∈ indices then 0 else bound j) := by
  induction indices generalizing c bound with
  | nil => simpa [runTasks] using h
  | cons i rest ih =>
    rw [List.flatMap_cons, runTasks_append]
    have h1 := runTasks_replicate_ranks w n i 7 c bound h
    have h2 := ih _ _ h1 (by
      intro j
      by_cases hji : j = i
      · subst hji
        rw [Function.update_same]
        have := hbound j
        omega
      · simpa [Function.update_noteq hji] using hbound j)
    refine Ranks.mono _ n _ _ h2 ?_
    intro j
    by_cases hjr : j ∈ rest
    · simp [hjr]
    · by_cases hji : j = i
      · subst hji
        simp only [hjr, if_false, Function.update_same, List.mem_cons, true_or, if_true]
        have := hbound j
        omega
      · simp [hjr, hji, Function.update_noteq hji]

theorem TaskPc.rank_le (pc : TaskPc) : pc.rank ≤ 7 := by
  cases pc <;> simp [TaskPc.rank]

theorem stepTask_group (w : World) (c : MultiServerMCPClient) (i : Nat) (g : Errgroup)
    (heg : c.eg = some g) :
    ∃ g', (stepTask w c i).eg = some g' ∧ g'.tasks.length = g.tasks.length := by
  unfold stepTask
  rw [heg]
  dsimp only
  cases g.tasks[i]? with
  | none => exact ⟨g, heg, rfl⟩
  | some t =>
    dsimp only
    cases Task.step w c t with
    | none => exact ⟨g, heg, rfl⟩
    | some r => exact ⟨_, rfl, by simp⟩

theorem runTasks_group (w : World) (schedule : List Nat) (c : MultiServerMCPClient)
    (g : Errgroup) (heg : c.eg = some g) :
    ∃ g', (runTasks w c schedule).eg = some g' ∧ g'.tasks.length = g.tasks.length := by
  induction schedule generalizing c g with
  | nil => exact ⟨g, heg, rfl⟩
  | cons i rest ih =>
    obtain ⟨g1, h1, hl1⟩ := stepTask_group w c i g heg
    obtain ⟨g2, h2, hl2⟩ := ih _ g1 h1
    exact ⟨g2, h2, hl2.trans hl1⟩

/-- `Start` returns: on a client that is not started and whose mutex is free,
whatever steps the goroutines have taken so far, `Start` returns once each
goroutine has been given seven more steps. -/
theorem Start_returns (w : World) (c : MultiServerMCPClient) (before after : List Nat)
    (hmu : c.mu = false) (heg : c.eg = none) :
    ∃ c' err, Start w c before (after ++ fairSchedule c.connections.length)
      = StartResult.returned c' err := by
  unfold Start
  rw [hmu, heg]
  simp only [Bool.false_eq_true, if_false]
  obtain ⟨g1, h1, hl1⟩ := runTasks_group w before (launch c) _ rfl
  have hl1' : g1.tasks.length = c.connections.length := by
    rw [hl1]
    simp
  obtain ⟨g2, h2, hl2⟩ := runTasks_group w after (unlock (runTasks w (launch c) before)) g1 h1
  have hflag := (runTasks_flags w after (unlock (runTasks w (launch c) before))).1
  have hranks : Ranks (runTasks w (unlock (runTasks w (launch c) before)) after)
      c.connections.length (fun _ => 7) :=
    ⟨g2, h2, hl2.trans hl1', hflag, fun _ t _ => TaskPc.rank_le t.pc⟩
  have hfinal := runTasks_fair_ranks w c.connections.length
    (List.range c.connections.length) _ _ hranks (fun _ => le_refl 7)
  obtain ⟨g3, h3, hl3, -, hb3⟩ := hfinal
  rw [runTasks_append]
  unfold fairSchedule
  rw [h3]
  dsimp only
  have hfin : g3.finished = true := by
    unfold Errgroup.finished
    rw [List.all_eq_true]
    intro t ht
    obtain ⟨i, hi⟩ := List.mem_iff_getElem?.1 ht
    have hilt : i < c.connections.length := hl3 ▸ (List.getElem?_eq_some.1 hi).1
    have hr := hb3 i t hi
    dsimp only at hr
    rw [if_pos (List.mem_range.2 hilt)] at hr
    cases hpc : t.pc with
    | done ret => rfl
    | _ => rw [hpc] at hr; simp [TaskPc.rank] at hr
  rw [if_pos hfin]
  exact ⟨_, _, rfl⟩

/-- C12. `Start` rejects a second invocation: once `Start` has launched its
goroutines on a client (whatever steps they have taken since, `Start` having
released the mutex), and more generally on every client whose group is set and
whose mutex is free, a further `Start` returns the error `client already
started` and leaves the client as it was: no goroutine is launched, no call is
recorded, and the connections, sessions and tools maps are unchanged. -/
theorem second_start_rejected (w : World) (c : MultiServerMCPClient)
    (before after again1 again2 : List Nat) :
    Start w (runTasks w (unlock (runTasks w (launch c) before)) after) again1 again2
      = StartResult.returned (runTasks w (unlock (runTasks w (launch c) before)) after)
          (some "client already started") ∧
    ∀ c' : MultiServerMCPClient, c'.mu = false → c'.eg.isSome = true →
      Start w c' again1 again2 = StartResult.returned c' (some "client already started") := by
  have hgen : ∀ c' : MultiServerMCPClient, c'.mu = false → c'.eg.isSome = true →
      Start w c' again1 again2
        = StartResult.returned c' (some "client already started") := by
    intro c' hmu heg
    obtain ⟨g, hg⟩ := Option.isSome_iff_exists.1 heg
    unfold Start
    rw [hmu, hg]
    rfl
  refine ⟨hgen _ ?_ ?_, hgen⟩
  · exact (runTasks_flags w after _).1
  · obtain ⟨g1, h1, -⟩ := runTasks_group w before (launch c) _ rfl
    obtain ⟨g2, h2, -⟩ := runTasks_group w after (unlock (runTasks w (launch c) before)) g1 h1
    rw [h2]
    rfl

/-- A witness of C12: `Start` once more on the client of the worked example,
after its `Start` has returned. -/
theorem second_start_rejected_witness :
    Start exampleWorld exampleStarted [] [0, 1]
      = StartResult.returned exampleStarted (some "client already started") :=
  (second_start_rejected exampleWorld exampleClient [0, 1] [1, 0, 1, 0, 1, 0, 1, 0, 1, 0]
    [] [0, 1]).1

/-- C18. `GetTools` flattens the per-server lists: in whatever order the map is
ranged over, the list returned is a permutation of the concatenation of the
per-server lists; its length is the sum of their lengths; the tools of each
server form a sublist of it, so they keep their relative order; and it is
empty when the map is empty.  `GetTools` only reads the client. -/
theorem GetTools_flattens (c : MultiServerMCPClient)
    (order : GoMap (List LangchainMCPTool)) (horder : order.Perm c.serverNameToTools) :
    (GetTools { c with serverNameToTools := order }).Perm
      (c.serverNameToTools.map Prod.snd).flatten ∧
    (GetTools { c with serverNameToTools := order }).length
      = (c.serverNameToTools.map (fun p => p.2.length)).sum ∧
    (∀ p ∈ c.serverNameToTools,
      p.2.Sublist (GetTools { c with serverNameToTools := order })) ∧
    (c.serverNameToTools = [] → GetTools c = []) := by
  have hperm : (GetTools { c with serverNameToTools := order }).Perm
      (c.serverNameToTools.map Prod.snd).flatten := by
    rw [GetTools_eq_flatten]
    exact (horder.map Prod.snd).flatten
  refine ⟨hperm, ?_, ?_, ?_⟩
  · rw [hperm.length_eq, List.length_flatten, List.map_map]
    rfl
  · intro p hp
    rw [GetTools_eq_flatten]
    apply List.sublist_flatten_of_mem
    exact List.mem_map.2 ⟨p, horder.mem_iff.2 hp, rfl⟩
  · intro h
    unfold GetTools
    rw [h]
    rfl

/-- A witness of C18: the tools map of the worked example. -/
theorem GetTools_flattens_witness :
    (GetTools exampleStarted).Perm (exampleStarted.serverNameToTools.map Prod.snd).flatten ∧
    (GetTools exampleStarted).length = 1 :=
  ⟨(GetTools_flattens exampleStarted exampleStarted.serverNameToTools (List.Perm.refl _)).1,
   by decide⟩

theorem GoMap.get_ne_none_of_mem {β : Type} (m : GoMap β) (k : String) (v : β)
    (hp : (k, v) ∈ m) : GoMap.get m k ≠ none := by
  induction m with
  | nil => cases hp
  | cons q rest ih =>
    obtain ⟨k0, v0⟩ := q
    by_cases h0 : k0 = k
    · simp [GoMap.get, h0]
    · simp only [GoMap.get, h0, if_false]
      rcases List.mem_cons.1 hp with hq | hq
      · exact absurd (by cases hq; rfl) h0
      · exact ih hq

theorem GoMap.get_eq_none_iff {β : Type} (m : GoMap β) (k : String) :
    GoMap.get m k = none ↔ k ∉ GoMap.keys m := by
  constructor
  · intro h hk
    obtain ⟨⟨k', v⟩, hp, hk'⟩ := List.mem_map.1 hk
    simp only at hk'
    subst hk'
    exact GoMap.get_ne_none_of_mem m k' v hp h
  · exact GoMap.get_eq_none_of_not_mem m k

theorem no_session_ne_prompt_error (serverName name cause : String) :
    "failed to get MCP prompt '" ++ name ++ "': " ++ cause
      ≠ "no active session for server: " ++ serverName := by
  intro h
  have h2 := congrArg String.data h
  simp [String.data_append] at h2

/-- C19. `GetPrompt` fails with `no active session for server: <name>`, nil
messages and no request sent exactly when the server name is absent from the
sessions map; when the name is present its result, requests included, is that
of `LoadMCPPrompt` on the connection stored under the name, with the prompt
name and the arguments given. -/
theorem GetPrompt_session_lookup (c : MultiServerMCPClient) (serverName promptName : String)
    (arguments : Option (GoMap String)) :
    (serverName ∉ GoMap.keys c.sessions →
      GetPrompt c serverName promptName arguments
        = { messages := none, err := some ("no active session for server: " ++ serverName),
            requests := [] }) ∧
    (∀ session, GoMap.get c.sessions serverName = some session →
      GetPrompt c serverName promptName arguments
        = LoadMCPPrompt session promptName arguments) ∧
    ((GetPrompt c serverName promptName arguments).err
        = some ("no active session for server: " ++ serverName)
      ↔ serverName ∉ GoMap.keys c.sessions) := by
  have habsent : serverName ∉ GoMap.keys c.sessions →
      GetPrompt c serverName promptName arguments
        = { messages := none, err := some ("no active session for server: " ++ serverName),
            requests := [] } := by
    intro h
    unfold GetPrompt
    rw [(GoMap.get_eq_none_iff _ _).2 h]
  have hpresent : ∀ session, GoMap.get c.sessions serverName = some session →
      GetPrompt c serverName promptName arguments
        = LoadMCPPrompt session promptName arguments := by
    intro session h
    unfold GetPrompt
    rw [h]
  refine ⟨habsent, hpresent, ?_, ?_⟩
  · intro herr
    rw [← GoMap.get_eq_none_iff]
    cases hget : GoMap.get c.sessions serverName with
    | none => rfl
    | some session =>
      rw [hpresent session hget] at herr
      unfold LoadMCPPrompt at herr
      dsimp only at herr
      cases hp : session.GetPrompt { Name := promptName, Arguments := arguments } with
      | error cause =>
        rw [hp] at herr
        simp only [Option.some.injEq] at herr
        exact absurd herr (no_session_ne_prompt_error serverName promptName cause)
      | ok response =>
        rw [hp] at herr
        cases herr
  · intro h
    rw [habsent h]

/-- A witness of C19: a server that is not connected and a server that is. -/
theorem GetPrompt_session_lookup_witness :
    GetPrompt exampleStarted "nonexistent-server" "p" none
      = { messages := none,
          err := some "no active session for server: nonexistent-server", requests := [] } ∧
    GetPrompt exampleStarted "server1" "p" none
      = { messages := some [], err := none,
          requests := [(1, { Name := "p", Arguments := none })] } :=
  ⟨(GetPrompt_session_lookup exampleStarted "nonexistent-server" "p" none).1 (by decide),
   ((GetPrompt_session_lookup exampleStarted "server1" "p" none).2.1 client1 rfl).trans rfl⟩

theorem infix_middle (x a y : String) : a.toList <:+: (x ++ a ++ y).toList :=
  ⟨x.toList, y.toList, by simp [String.toList, String.data_append]⟩

theorem infix_last (x a : String) : a.toList <:+: (x ++ a).toList :=
  ⟨x.toList, [], by simp [String.toList, String.data_append]⟩

theorem infix_append_right (a b y : String) (h : a.toList <:+: b.toList) :
    a.toList <:+: (b ++ y).toList := by
  obtain ⟨p, q, hpq⟩ := h
  refine ⟨p, q ++ y.toList, ?_⟩
  simp only [String.toList] at hpq ⊢
  rw [String.data_append, ← hpq]
  simp

theorem infix_append_left (a b x : String) (h : a.toList <:+: b.toList) :
    a.toList <:+: (x ++ b).toList := by
  obtain ⟨p, q, hpq⟩ := h
  refine ⟨x.toList ++ p, q, ?_⟩
  simp only [String.toList] at hpq ⊢
  rw [String.data_append, ← hpq]
  simp

/-- While the context of the group is live, the goroutine of `Start` takes the
steps of `initializeSessionAndLoadTools`: from `readConfig` its steps lead to
the client that the method leaves, at `closeFailed` with the error the method
returns or at `done` when it returns nil. -/
theorem initializeSessionAndLoadTools_steps (w : World) (c : MultiServerMCPClient)
    (name : String) (cfg : ConnectionConfig) (cl : MCPClient) (hmu : c.mu = false)
    (hctx : ctxDone c = false) :
    ∃ c1, Task.step w c ⟨name, cfg, TaskPc.readConfig cl⟩
        = some (TaskPc.handshake cl (initializationTimeout (GoMap.get c.connections name)), c) ∧
      ∃ pc1, Task.step w c ⟨name, cfg,
          TaskPc.handshake cl (initializationTimeout (GoMap.get c.connections name))⟩
        = some (pc1, c1) ∧
      ((∃ err, pc1 = TaskPc.closeFailed cl err ∧
          initializeSessionAndLoadTools w c name cl = some (c1, some err)) ∨
       (pc1 = TaskPc.loadTools cl ∧
        ∃ pc2 c2, Task.step w c1 ⟨name, cfg, pc1⟩ = some (pc2, c2) ∧
          ((∃ err, pc2 = TaskPc.closeFailed cl err ∧
              initializeSessionAndLoadTools w c name cl = some (c2, some err)) ∨
           (∃ loaded c3, pc2 = TaskPc.storeTools cl loaded ∧
              Task.step w c2 ⟨name, cfg, pc2⟩ = some (TaskPc.done none, c3) ∧
              initializeSessionAndLoadTools w c name cl = some (c3, none))))) := by
  unfold initializeSessionAndLoadTools
  have hctx1 := hctx
  unfold ctxDone at hctx1
  simp only [Task.step, hmu, Bool.false_eq_true, if_false, true_and, hctx,
    MCPClient.InitializeCtx]
  cases hinit : cl.Initialize (initializationTimeout (GoMap.get c.connections name))
      (initRequest w c.clientInfo c.clientCapabilities) with
  | error err =>
    exact ⟨_, _, rfl, Or.inl ⟨_, rfl, rfl⟩⟩
  | ok r =>
    refine ⟨_, _, rfl, Or.inr ⟨rfl, ?_⟩⟩
    simp only [Task.step, ctxDone, hctx1, LoadMCPToolsCtx, Bool.false_eq_true, if_false]
    cases hload : LoadMCPTools cl with
    | error err => exact ⟨_, _, rfl, Or.inl ⟨_, rfl, rfl⟩⟩
    | ok loaded =>
      refine ⟨_, _, rfl, Or.inr ⟨loaded, _, rfl, ?_, rfl⟩⟩
      simp only [Task.step, hmu, Bool.false_eq_true, if_false]

/-- C20. Loader failure is wrapped and stores nothing: called with the mutex
free, `initializeSessionAndLoadTools` returns; when the initialize request
fails it returns `MCP initialization failed for <name>: <cause>`, sends no
tool-listing request and leaves the tools map as it was; when the tool listing
fails it returns `failed to load tools for <name>: failed to list MCP tools:
<cause>` and leaves the tools map as it was; each error contains the server
name and the cause; the tools entry is written, under the server name, exactly
when both steps succeed, and then the error is nil. -/
theorem loader_failure_stores_nothing (w : World) (c : MultiServerMCPClient)
    (serverName : String) (mcpClient : MCPClient) (hmu : c.mu = false) :
    ∃ c' err, initializeSessionAndLoadTools w c serverName mcpClient = some (c', err) ∧
      c'.sessions = c.sessions ∧
      (∀ cause, mcpClient.Initialize
          (initializationTimeout (GoMap.get c.connections serverName))
          (initRequest w c.clientInfo c.clientCapabilities) = Except.error cause →
        err = some ("MCP initialization failed for " ++ serverName ++ ": " ++ cause) ∧
        serverName.toList <:+:
          ("MCP initialization failed for " ++ serverName ++ ": " ++ cause).toList ∧
        cause.toList <:+:
          ("MCP initialization failed for " ++ serverName ++ ": " ++ cause).toList ∧
        c'.serverNameToTools = c.serverNameToTools ∧
        c'.calls = c.calls ++ [Remote.Initialize serverName mcpClient.id]) ∧
      (∀ r cause, mcpClient.Initialize
          (initializationTimeout (GoMap.get c.connections serverName))
          (initRequest w c.clientInfo c.clientCapabilities) = Except.ok r →
        mcpClient.ListTools = Except.error cause →
        err = some ("failed to load tools for " ++ serverName ++ ": " ++
          ("failed to list MCP tools: " ++ cause)) ∧
        serverName.toList <:+: ("failed to load tools for " ++ serverName ++ ": " ++
          ("failed to list MCP tools: " ++ cause)).toList ∧
        cause.toList <:+: ("failed to load tools for " ++ serverName ++ ": " ++
          ("failed to list MCP tools: " ++ cause)).toList ∧
        c'.serverNameToTools = c.serverNameToTools ∧
        c'.calls = c.calls ++ [Remote.Initialize serverName mcpClient.id,
          Remote.ListTools serverName mcpClient.id]) ∧
      (∀ r tools, mcpClient.Initialize
          (initializationTimeout (GoMap.get c.connections serverName))
          (initRequest w c.clientInfo c.clientCapabilities) = Except.ok r →
        mcpClient.ListTools = Except.ok tools →
        err = none ∧
        c'.serverNameToTools = GoMap.set c.serverNameToTools serverName
          (tools.map (fun mcpTool => NewLangchainMCPTool mcpTool mcpClient false))) ∧
      (err ≠ none → c'.serverNameToTools = c.serverNameToTools) := by
  unfold initializeSessionAndLoadTools
  simp only [hmu, Bool.false_eq_true, if_false]
  cases hinit : mcpClient.Initialize
      (initializationTimeout (GoMap.get c.connections serverName))
      (initRequest w c.clientInfo c.clientCapabilities) with
  | error cause0 =>
    refine ⟨_, _, rfl, rfl, ?_, ?_, ?_, fun _ => rfl⟩
    · intro cause hc
      cases hc
      exact ⟨rfl, infix_append_right _ _ _ (infix_middle _ _ _), infix_last _ _, rfl, rfl⟩
    · intro r cause hc
      cases hc
    · intro r tools hc
      cases hc
  | ok r0 =>
    unfold LoadMCPTools
    cases hlist : mcpClient.ListTools with
    | error cause0 =>
      refine ⟨_, _, rfl, rfl, ?_, ?_, ?_, fun _ => rfl⟩
      · intro cause hc
        cases hc
      · intro r cause _ hc
        cases hc
        refine ⟨rfl, infix_append_right _ _ _ (infix_middle _ _ _),
          infix_append_left _ _ _ (infix_last _ _), rfl, ?_⟩
        simp
      · intro r tools _ hc
        cases hc
    | ok tools0 =>
      refine ⟨_, _, rfl, rfl, ?_, ?_, ?_, fun h => absurd rfl h⟩
      · intro cause hc
        cases hc
      · intro r cause _ hc
        cases hc
      · intro r tools _ hc
        cases hc
        exact ⟨rfl, rfl⟩

/-- A witness of C20: the server of the worked example whose initialization
fails. -/
theorem loader_failure_stores_nothing_witness :
    ∃ c', initializeSessionAndLoadTools exampleWorld exampleClient "server2" client2
        = some (c', some "MCP initialization failed for server2: init failed") ∧
      c'.serverNameToTools = [] ∧ c'.calls = [Remote.Initialize "server2" 2] := by
  obtain ⟨c', err, hrun, -, hinit, -, -, -⟩ :=
    loader_failure_stores_nothing exampleWorld exampleClient "server2" client2 rfl
  obtain ⟨herr, -, -, htools, hcalls⟩ := hinit "init failed" rfl
  subst herr
  exact ⟨c', hrun, htools, hcalls⟩

/-! ## Theorems: `Close` while the mutex is held -/

theorem Task.step_locked (w : World) (c c1 : MultiServerMCPClient) (t : Task) (pc : TaskPc)
    (hmu : c.mu = true) (hstep : Task.step w c t = some (pc, c1)) :
    c1.sessions = c.sessions ∧ c1.serverNameToTools = c.serverNameToTools ∧
    (t.pc.needsMutex = true → pc.needsMutex = true) ∧
    (t.pc.needsMutex = false → closeEvents c1.calls = closeEvents c.calls) := by
  obtain ⟨name, cfg, pc0⟩ := t
  cases pc0 with
  | connect =>
    simp only [Task.step] at hstep
    cases hconn : connectToServer w (ctxDone c) name cfg <;> rw [hconn] at hstep <;>
      simp only [Option.some.injEq, Prod.mk.injEq] at hstep <;>
      obtain ⟨rfl, rfl⟩ := hstep <;>
      simp [TaskPc.needsMutex, closeEvents, List.filter_append]
  | handshake cl timeout =>
    simp only [Task.step] at hstep
    cases hinit : cl.InitializeCtx (ctxDone c) timeout
        (initRequest w c.clientInfo c.clientCapabilities) <;>
      rw [hinit] at hstep <;>
      simp only [Option.some.injEq, Prod.mk.injEq] at hstep <;>
      obtain ⟨rfl, rfl⟩ := hstep <;> simp [TaskPc.needsMutex]
  | loadTools cl =>
    simp only [Task.step] at hstep
    cases hload : LoadMCPToolsCtx (ctxDone c) cl <;> rw [hload] at hstep <;>
      simp only [Option.some.injEq, Prod.mk.injEq] at hstep <;>
      obtain ⟨rfl, rfl⟩ := hstep <;> simp [TaskPc.needsMutex]
  | closeFailed cl err =>
    simp only [Task.step, Option.some.injEq, Prod.mk.injEq] at hstep
    obtain ⟨rfl, rfl⟩ := hstep
    simp [TaskPc.needsMutex]
  | _ => simp [Task.step, hmu] at hstep

theorem Task.step_calls (w : World) (c c1 : MultiServerMCPClient) (t : Task) (pc : TaskPc)
    (hstep : Task.step w c t = some (pc, c1)) : ∃ evs, c1.calls = c.calls ++ evs := by
  obtain ⟨name, cfg, pc0⟩ := t
  cases pc0 with
  | connect =>
    simp only [Task.step] at hstep
    cases hconn : connectToServer w (ctxDone c) name cfg <;> rw [hconn] at hstep <;>
      simp only [Option.some.injEq, Prod.mk.injEq] at hstep <;>
      obtain ⟨-, rfl⟩ := hstep <;> exact ⟨_, rfl⟩
  | storeSession cl =>
    simp only [Task.step] at hstep
    split at hstep
    · cases hstep
    · simp only [Option.some.injEq, Prod.mk.injEq] at hstep
      obtain ⟨-, rfl⟩ := hstep
      exact ⟨[], by simp⟩
  | readConfig cl =>
    simp only [Task.step] at hstep
    split at hstep
    · cases hstep
    · simp only [Option.some.injEq, Prod.mk.injEq] at hstep
      obtain ⟨-, rfl⟩ := hstep
      exact ⟨[], by simp⟩
  | handshake cl timeout =>
    simp only [Task.step] at hstep
    cases hinit : cl.InitializeCtx (ctxDone c) timeout
        (initRequest w c.clientInfo c.clientCapabilities) <;>
      rw [hinit] at hstep <;>
      simp only [Option.some.injEq, Prod.mk.injEq] at hstep <;>
      obtain ⟨-, rfl⟩ := hstep <;> exact ⟨_, rfl⟩
  | loadTools cl =>
    simp only [Task.step] at hstep
    cases hload : LoadMCPToolsCtx (ctxDone c) cl <;> rw [hload] at hstep <;>
      simp only [Option.some.injEq, Prod.mk.injEq] at hstep <;>
      obtain ⟨-, rfl⟩ := hstep <;> exact ⟨_, rfl⟩
  | storeTools cl loaded =>
    simp only [Task.step] at hstep
    split at hstep
    · cases hstep
    · simp only [Option.some.injEq, Prod.mk.injEq] at hstep
      obtain ⟨-, rfl⟩ := hstep
      exact ⟨[], by simp⟩
  | closeFailed cl err =>
    simp only [Task.step, Option.some.injEq, Prod.mk.injEq] at hstep
    obtain ⟨-, rfl⟩ := hstep
    exact ⟨_, rfl⟩
  | deleteSession err =>
    simp only [Task.step] at hstep
    split at hstep
    · cases hstep
    · simp only [Option.some.injEq, Prod.mk.injEq] at hstep
      obtain ⟨-, rfl⟩ := hstep
      exact ⟨[], by simp⟩
  | done ret => simp [Task.step] at hstep

theorem stepTask_calls (w : World) (c : MultiServerMCPClient) (i : Nat) :
    ∃ evs, (stepTask w c i).calls = c.calls ++ evs := by
  unfold stepTask
  cases c.eg with
  | none => exact ⟨[], by simp⟩
  | some g =>
    dsimp only
    cases g.tasks[i]? with
    | none => exact ⟨[], by simp⟩
    | some t =>
      dsimp only
      cases hstep : Task.step w c t with
      | none => exact ⟨[], by simp⟩
      | some r =>
        obtain ⟨pc, c1⟩ := r
        exact Task.step_calls w c c1 t pc hstep

theorem runTasks_calls (w : World) (schedule : List Nat) (c : MultiServerMCPClient) :
    ∃ evs, (runTasks w c schedule).calls = c.calls ++ evs := by
  induction schedule generalizing c with
  | nil => exact ⟨[], by simp [runTasks]⟩
  | cons i rest ih =>
    obtain ⟨e1, h1⟩ := stepTask_calls w c i
    obtain ⟨e2, h2⟩ := ih (stepTask w c i)
    exact ⟨e1 ++ e2, by simp only [runTasks]; rw [h2, h1, List.append_assoc]⟩

theorem stepTask_locked (w : World) (c : MultiServerMCPClient) (i : Nat)
    (hmu : c.mu = true) :
    (stepTask w c i).sessions = c.sessions ∧
    (stepTask w c i).serverNameToTools = c.serverNameToTools := by
  unfold stepTask
  cases c.eg with
  | none => exact ⟨rfl, rfl⟩
  | some g =>
    dsimp only
    cases g.tasks[i]? with
    | none => exact ⟨rfl, rfl⟩
    | some t =>
      dsimp only
      cases hstep : Task.step w c t with
      | none => exact ⟨rfl, rfl⟩
      | some r =>
        obtain ⟨pc, c1⟩ := r
        obtain ⟨h1, h2, -, -⟩ := Task.step_locked w c c1 t pc hmu hstep
        exact ⟨h1, h2⟩

theorem runTasks_locked (w : World) (schedule : List Nat) (c : MultiServerMCPClient)
    (hmu : c.mu = true) :
    (runTasks w c schedule).sessions = c.sessions ∧
    (runTasks w c schedule).serverNameToTools = c.serverNameToTools := by
  induction schedule generalizing c with
  | nil => exact ⟨rfl, rfl⟩
  | cons i rest ih =>
    obtain ⟨h1, h2⟩ := stepTask_locked w c i hmu
    obtain ⟨h3, h4⟩ := ih (stepTask w c i) ((stepTask_flags w c i).1.trans hmu)
    exact ⟨h3.trans h1, h4.trans h2⟩

theorem closeLocked_eg_some (c : MultiServerMCPClient) (g : Errgroup) (h : c.eg = some g) :
    (closeLocked c).eg = some { g with cancelled := g.cancelled || c.cancel } := by
  unfold closeLocked
  simp only [h, Option.map_some']

theorem closeLocked_eg_none (c : MultiServerMCPClient) (h : c.eg = none) :
    (closeLocked c).eg = none := by
  unfold closeLocked
  simp only [h, Option.map_none']

theorem stepTask_stuck (w : World) (c : MultiServerMCPClient) (g : Errgroup) (i j : Nat)
    (t : Task) (hmu : c.mu = true) (heg : c.eg = some g) (hi : g.tasks[i]? = some t)
    (hneeds : t.pc.needsMutex = true) :
    ∃ g' t', (stepTask w c j).eg = some g' ∧ g'.tasks[i]? = some t' ∧
      t'.pc.needsMutex = true := by
  unfold stepTask
  rw [heg]
  dsimp only
  cases htj : g.tasks[j]? with
  | none => exact ⟨g, t, heg, hi, hneeds⟩
  | some tj =>
    dsimp only
    cases hstep : Task.step w c tj with
    | none => exact ⟨g, t, heg, hi, hneeds⟩
    | some r =>
      obtain ⟨pc, c1⟩ := r
      have hjlt : j < g.tasks.length := (List.getElem?_eq_some.1 htj).1
      by_cases hji : j = i
      · subst hji
        rw [hi] at htj
        cases htj
        exact ⟨_, { t with pc := pc }, rfl,
          by rw [List.getElem?_set, if_pos rfl, if_pos hjlt],
          (Task.step_locked w c c1 t pc hmu hstep).2.2.1 hneeds⟩
      · exact ⟨_, t, rfl, by rw [List.getElem?_set, if_neg hji]; exact hi, hneeds⟩

theorem runTasks_stuck (w : World) (schedule : List Nat) (c : MultiServerMCPClient)
    (g : Errgroup) (i : Nat) (t : Task) (hmu : c.mu = true) (heg : c.eg = some g)
    (hi : g.tasks[i]? = some t) (hneeds : t.pc.needsMutex = true) :
    ∃ g' t', (runTasks w c schedule).eg = some g' ∧ g'.tasks[i]? = some t' ∧
      t'.pc.needsMutex = true := by
  induction schedule generalizing c g t with
  | nil => exact ⟨g, t, heg, hi, hneeds⟩
  | cons j rest ih =>
    obtain ⟨g1, t1, h1, hi1, hn1⟩ := stepTask_stuck w c g i j t hmu heg hi hneeds
    exact ih (stepTask w c j) g1 t1 ((stepTask_flags w c j).1.trans hmu) h1 hi1 hn1

theorem not_finished_of_needsMutex (g : Errgroup) (i : Nat) (t : Task)
    (hi : g.tasks[i]? = some t) (hneeds : t.pc.needsMutex = true) : g.finished = false := by
  cases hfin : g.finished with
  | false => rfl
  | true =>
    obtain ⟨ret, hret⟩ := finished_task_done g hfin i t hi
    rw [hret] at hneeds
    cases hneeds

/-- `Close` never returns while a goroutine that has connected has not
returned: it holds the mutex that the goroutine needs and waits for the
goroutine. -/
theorem Close_blocked (w : World) (c : MultiServerMCPClient) (g : Errgroup) (i : Nat)
    (t : Task) (heg : c.eg = some g) (hi : g.tasks[i]? = some t)
    (hneeds : t.pc.needsMutex = true) (during : List Nat) : Close w c during = none := by
  unfold Close
  split
  · rfl
  · obtain ⟨g', t', h1, hi', hn'⟩ :=
      runTasks_stuck w during (closeLocked c) _ i t rfl (closeLocked_eg_some c g heg) hi hneeds
    change (match (runTasks w (closeLocked c) during).eg with
      | some g =>
        if g.finished then
          some ({ runTasks w (closeLocked c) during with eg := none, mu := false },
            match closeErrors c.sessions with
            | first :: _ => some first
            | [] => g.err)
        else none
      | none =>
        some ({ runTasks w (closeLocked c) during with mu := false },
          match closeErrors c.sessions with
          | first :: _ => some first
          | [] => none)) = none
    rw [h1]
    dsimp only
    rw [not_finished_of_needsMutex g' i t' hi' hn']
    rfl

theorem Close_eq (w : World) (c : MultiServerMCPClient) (during : List Nat) :
    Close w c during =
      if c.mu then none
      else
        match (runTasks w (closeLocked c) during).eg with
        | some g =>
          if g.finished then
            some ({ runTasks w (closeLocked c) during with eg := none, mu := false },
              match closeErrors c.sessions with
              | first :: _ => some first
              | [] => g.err)
          else none
        | none =>
          some ({ runTasks w (closeLocked c) during with mu := false },
            match closeErrors c.sessions with
            | first :: _ => some first
            | [] => none) := rfl

theorem stepTask_no_group (w : World) (c : MultiServerMCPClient) (i : Nat)
    (heg : c.eg = none) : stepTask w c i = c := by
  unfold stepTask
  rw [heg]

theorem runTasks_no_group (w : World) (schedule : List Nat) (c : MultiServerMCPClient)
    (heg : c.eg = none) : runTasks w c schedule = c := by
  induction schedule with
  | nil => rfl
  | cons i rest ih =>
    simp only [runTasks]
    rw [stepTask_no_group w c i heg]
    exact ih

theorem stepTask_closeEvents (w : World) (c : MultiServerMCPClient) (g : Errgroup) (j : Nat)
    (base : List Remote) (hmu : c.mu = true) (heg : c.eg = some g)
    (h : (∃ (i : Nat) (t : Task), g.tasks[i]? = some t ∧ t.pc.needsMutex = true) ∨
      closeEvents c.calls = base) :
    ∃ g', (stepTask w c j).eg = some g' ∧
      ((∃ (i : Nat) (t : Task), g'.tasks[i]? = some t ∧ t.pc.needsMutex = true) ∨
        closeEvents (stepTask w c j).calls = base) := by
  rcases h with ⟨i, t, hi, hneeds⟩ | hbase
  · obtain ⟨g', t', h1, hi', hn'⟩ := stepTask_stuck w c g i j t hmu heg hi hneeds
    exact ⟨g', h1, Or.inl ⟨i, t', hi', hn'⟩⟩
  · unfold stepTask
    rw [heg]
    dsimp only
    cases htj : g.tasks[j]? with
    | none => exact ⟨g, heg, Or.inr hbase⟩
    | some tj =>
      dsimp only
      cases hstep : Task.step w c tj with
      | none => exact ⟨g, heg, Or.inr hbase⟩
      | some r =>
        obtain ⟨pc, c1⟩ := r
        have hjlt : j < g.tasks.length := (List.getElem?_eq_some.1 htj).1
        refine ⟨_, rfl, ?_⟩
        cases hn : tj.pc.needsMutex with
        | true =>
          exact Or.inl ⟨j, { tj with pc := pc },
            by rw [List.getElem?_set, if_pos rfl, if_pos hjlt],
            (Task.step_locked w c c1 tj pc hmu hstep).2.2.1 hn⟩
        | false =>
          exact Or.inr (((Task.step_locked w c c1 tj pc hmu hstep).2.2.2 hn).trans hbase)

theorem runTasks_closeEvents (w : World) (schedule : List Nat) (c : MultiServerMCPClient)
    (g : Errgroup) (base : List Remote) (hmu : c.mu = true) (heg : c.eg = some g)
    (h : (∃ (i : Nat) (t : Task), g.tasks[i]? = some t ∧ t.pc.needsMutex = true) ∨
      closeEvents c.calls = base) :
    ∃ g', (runTasks w c schedule).eg = some g' ∧
      ((∃ (i : Nat) (t : Task), g'.tasks[i]? = some t ∧ t.pc.needsMutex = true) ∨
        closeEvents (runTasks w c schedule).calls = base) := by
  induction schedule generalizing c g with
  | nil => exact ⟨g, heg, h⟩
  | cons j rest ih =>
    obtain ⟨g1, h1, hor⟩ := stepTask_closeEvents w c g j base hmu heg h
    exact ih (stepTask w c j) g1 ((stepTask_flags w c j).1.trans hmu) h1 hor

theorem closeEvents_closeLocked (c : MultiServerMCPClient) :
    closeEvents (closeLocked c).calls
      = closeEvents c.calls ++ c.sessions.map (fun p => Remote.Close p.1 p.2.id) := by
  have hmap : ∀ l : GoMap MCPClient,
      closeEvents (l.map (fun p => Remote.Close p.1 p.2.id))
        = l.map (fun p => Remote.Close p.1 p.2.id) := by
    intro l
    induction l with
    | nil => rfl
    | cons p rest ih =>
      simp only [closeEvents] at ih
      simp [closeEvents, ih]
  have hcancel : closeEvents (if c.cancel then [Remote.cancel] else []) = [] := by
    cases c.cancel <;> rfl
  have happ : ∀ a b : List Remote, closeEvents (a ++ b) = closeEvents a ++ closeEvents b :=
    fun a b => List.filter_append a b
  unfold closeLocked
  dsimp only
  rw [happ, happ, hcancel, hmap, List.append_nil]

/-- What holds when `Close` has returned: the sessions map is empty, the tools
map is as it was, the group is reset and the mutex free; the calls recorded are
those made before, then the call of the cancel function if set and one `Close`
for each session, then calls of the goroutines among which there is no `Close`;
and the error is the first close error, or else the error of the group. -/
theorem Close_returned (w : World) (c c' : MultiServerMCPClient) (during : List Nat)
    (r : Option String) (h : Close w c during = some (c', r)) :
    c.mu = false ∧ c'.sessions = [] ∧ c'.serverNameToTools = c.serverNameToTools ∧
    c'.mu = false ∧ c'.eg = none ∧ c'.cancel = c.cancel ∧
    (∃ evs, c'.calls = c.calls ++ (if c.cancel then [Remote.cancel] else []) ++
      c.sessions.map (fun p => Remote.Close p.1 p.2.id) ++ evs) ∧
    closeEvents c'.calls
      = closeEvents c.calls ++ c.sessions.map (fun p => Remote.Close p.1 p.2.id) ∧
    (∀ first rest, closeErrors c.sessions = first :: rest → r = some first) ∧
    (closeErrors c.sessions = [] → c.eg = none → r = none) := by
  rw [Close_eq] at h
  cases hmu : c.mu with
  | true => simp [hmu] at h
  | false =>
    rw [hmu] at h
    simp only [Bool.false_eq_true, if_false] at h
    obtain ⟨hs, ht⟩ := runTasks_locked w during (closeLocked c) rfl
    obtain ⟨hf1, hf2⟩ := runTasks_flags w during (closeLocked c)
    obtain ⟨evs, hevs⟩ := runTasks_calls w during (closeLocked c)
    cases hg : (runTasks w (closeLocked c) during).eg with
    | none =>
      rw [hg] at h
      simp only [Option.some.injEq, Prod.mk.injEq] at h
      obtain ⟨rfl, rfl⟩ := h
      have hceg : c.eg = none := by
        cases hc : c.eg with
        | none => rfl
        | some g0 =>
          obtain ⟨g1, h1, -⟩ := runTasks_group w during (closeLocked c) _ (closeLocked_eg_some c g0 hc)
          rw [h1] at hg
          cases hg
      have hid : runTasks w (closeLocked c) during = closeLocked c :=
        runTasks_no_group w during (closeLocked c) (closeLocked_eg_none c hceg)
      refine ⟨rfl, hs, ht, rfl, rfl, hf2, ⟨evs, hevs⟩, ?_, ?_, ?_⟩
      · dsimp only
        rw [hid]
        exact closeEvents_closeLocked c
      · intro first rest hfr
        rw [hfr]
      · intro hnil _
        rw [hnil]
    | some g =>
      rw [hg] at h
      dsimp only at h
      cases hfin : g.finished with
      | false => simp [hfin] at h
      | true =>
        rw [hfin] at h
        simp only [if_true, Option.some.injEq, Prod.mk.injEq] at h
        obtain ⟨rfl, rfl⟩ := h
        refine ⟨rfl, hs, ht, rfl, rfl, hf2, ⟨evs, hevs⟩, ?_, ?_, ?_⟩
        · dsimp only
          cases hc : c.eg with
          | none =>
            rw [runTasks_no_group w during (closeLocked c) (closeLocked_eg_none c hc)] at hg
            rw [closeLocked_eg_none c hc] at hg
            cases hg
          | some g0 =>
            obtain ⟨g1, h1, hor⟩ := runTasks_closeEvents w during (closeLocked c) _
              (closeEvents (closeLocked c).calls) rfl (closeLocked_eg_some c g0 hc) (Or.inr rfl)
            rw [hg] at h1
            cases h1
            rcases hor with ⟨i, t, hi, hneeds⟩ | hbase
            · rw [not_finished_of_needsMutex g i t hi hneeds] at hfin
              cases hfin
            · rw [hbase]
              exact closeEvents_closeLocked c
        · intro first rest hfr
          rw [hfr]
        · intro _ hc
          rw [runTasks_no_group w during (closeLocked c) (closeLocked_eg_none c hc)] at hg
          rw [closeLocked_eg_none c hc] at hg
          cases hg

theorem Close_never_started (w : World) (c : MultiServerMCPClient) (during : List Nat)
    (hmu : c.mu = false) (heg : c.eg = none) :
    Close w c during = some ({ closeLocked c with mu := false },
      match closeErrors c.sessions with
      | first :: _ => some first
      | [] => none) := by
  rw [Close_eq, hmu, runTasks_no_group w during (closeLocked c) (closeLocked_eg_none c heg)]
  simp only [Bool.false_eq_true, if_false]
  rw [closeLocked_eg_none c heg]

/-- C14. `Close` shuts everything down.  With the mutex free, when `Close` reaches
`eg.Wait()` it has called the cancel function if one is set, has called `Close`
once for each entry of the sessions map and for nothing else, and the sessions
map is empty; the map stays empty while `Close` waits.  When `Close` returns,
the sessions map is empty, the group is reset, and the only calls of `Close`
recorded since it was entered are those, one for each session.  `Close` returns
when there is no group (`Start` never called) and when every goroutine of the
group has returned. -/
theorem Close_shuts_down (w : World) (c : MultiServerMCPClient) (during : List Nat)
    (hmu : c.mu = false) :
    (closeLocked c).sessions = [] ∧
    (closeLocked c).calls = c.calls ++ (if c.cancel then [Remote.cancel] else []) ++
      c.sessions.map (fun p => Remote.Close p.1 p.2.id) ∧
    (runTasks w (closeLocked c) during).sessions = [] ∧
    (∀ c' r, Close w c during = some (c', r) →
      c'.sessions = [] ∧ c'.mu = false ∧ c'.eg = none ∧
      (∃ evs, c'.calls = c.calls ++ (if c.cancel then [Remote.cancel] else []) ++
        c.sessions.map (fun p => Remote.Close p.1 p.2.id) ++ evs) ∧
      closeEvents c'.calls
        = closeEvents c.calls ++ c.sessions.map (fun p => Remote.Close p.1 p.2.id)) ∧
    (c.eg = none →
      Close w c during = some ({ closeLocked c with mu := false },
        match closeErrors c.sessions with
        | first :: _ => some first
        | [] => none)) ∧
    (∀ g, c.eg = some g → g.finished = true → ∃ c' r, Close w c [] = some (c', r)) := by
  refine ⟨rfl, rfl, (runTasks_locked w during (closeLocked c) rfl).1, ?_, ?_, ?_⟩
  · intro c' r h
    obtain ⟨-, h1, -, h2, h3, -, h4, h5, -, -⟩ := Close_returned w c c' during r h
    exact ⟨h1, h2, h3, h4, h5⟩
  · intro heg
    exact Close_never_started w c during hmu heg
  · intro g heg hfin
    rw [Close_eq, hmu]
    simp only [Bool.false_eq_true, if_false, runTasks]
    rw [closeLocked_eg_some c g heg]
    dsimp only
    rw [show Errgroup.finished { g with cancelled := g.cancelled || c.cancel } = true
      from hfin]
    exact ⟨_, _, rfl⟩

/-- A witness of C14: `Close` on a client on which `Start` was never called, with
three sessions and no cancel function. -/
theorem Close_shuts_down_witness :
    ∃ c', Close exampleWorld exampleSessions [] = some (c', some
        "failed to close session server3: broken pipe") ∧
      c'.sessions = [] ∧
      c'.calls = [Remote.Close "server1" 1, Remote.Close "server3" 3,
        Remote.Close "server2" 2] :=
  ⟨_, (Close_shuts_down exampleWorld exampleSessions [] rfl).2.2.2.2.1 rfl, rfl, rfl⟩

/-- C15, amended. `Close` twice in succession: whenever a first `Close` returns,
the sessions map is empty and the tools map is what it was before; a second
`Close` then returns no error, records no call of `Close` on a connection, and
leaves the sessions map empty and the tools map unchanged. -/
theorem Close_twice (w : World) (c c1 : MultiServerMCPClient) (d1 d2 : List Nat)
    (r1 : Option String) (hfirst : Close w c d1 = some (c1, r1)) :
    c1.sessions = [] ∧ c1.serverNameToTools = c.serverNameToTools ∧
    ∃ c2, Close w c1 d2 = some (c2, none) ∧ c2.sessions = [] ∧
      c2.serverNameToTools = c.serverNameToTools ∧
      closeEvents c2.calls = closeEvents c1.calls := by
  obtain ⟨-, hs, ht, hmu, heg, -, -, -, -, -⟩ := Close_returned w c c1 d1 r1 hfirst
  refine ⟨hs, ht, { closeLocked c1 with mu := false }, ?_, rfl, ht, ?_⟩
  · rw [Close_never_started w c1 d2 hmu heg]
    simp [closeErrors, hs]
  · show closeEvents (closeLocked c1).calls = closeEvents c1.calls
    rw [closeEvents_closeLocked, hs]
    simp

/-- A witness of C15 as amended: `Close` twice after the `Start` of the worked
example. -/
theorem Close_twice_witness :
    Close exampleWorld exampleStarted [] = some (exampleClosed, some
      "failed to initialize/load tools for server server2: MCP initialization failed for server2: init failed") ∧
    ∃ c2, Close exampleWorld exampleClosed [] = some (c2, none) ∧ c2.sessions = [] ∧
      c2.serverNameToTools = exampleStarted.serverNameToTools ∧
      closeEvents c2.calls = closeEvents exampleClosed.calls :=
  ⟨rfl, (Close_twice exampleWorld exampleStarted exampleClosed [] []
    (some "failed to initialize/load tools for server server2: MCP initialization failed for server2: init failed")
    rfl).2.2⟩

/-- The counterexample to C15 as stated: `exampleStarted` is the client when
`Start` has returned; `Close` returns on it and a second `Close` returns no
error, yet after each of the two calls the tools map still holds the tools of
`server1`, and `GetTools` still returns them. -/
theorem Close_keeps_tools_map :
    Start exampleWorld exampleClient [0, 1] [1, 0, 1, 0, 1, 0, 1, 0, 1, 0]
      = StartResult.returned exampleStarted (some
          "failed to initialize/load tools for server server2: MCP initialization failed for server2: init failed") ∧
    (Close exampleWorld exampleStarted []).map (fun r => GoMap.keys r.1.serverNameToTools)
      = some ["server1"] ∧
    (Close exampleWorld exampleStarted []).map (fun r => GoMap.keys r.1.sessions)
      = some [] ∧
    (Close exampleWorld exampleClosed []).map
        (fun r => (GoMap.keys r.1.serverNameToTools, r.2)) = some (["server1"], none) ∧
    (GetTools exampleClosed).map LangchainMCPTool.Name = ["tool-s1"] := by
  refine ⟨rfl, by decide, by decide, by decide, by decide⟩

theorem closeErrors_head (sessions : GoMap MCPClient) (first : String) (rest : List String)
    (h : closeErrors sessions = first :: rest) :
    ∃ n cl e, (n, cl) ∈ sessions ∧ cl.Close = some e ∧
      first = "failed to close session " ++ n ++ ": " ++ e := by
  have hmem : first ∈ closeErrors sessions := by
    rw [h]
    exact List.mem_cons_self _ _
  unfold closeErrors at hmem
  rw [List.mem_filterMap] at hmem
  obtain ⟨⟨n, cl⟩, hp, hf⟩ := hmem
  cases hc : cl.Close with
  | none => simp [hc] at hf
  | some e =>
    simp only [hc, Option.some.injEq] at hf
    exact ⟨n, cl, e, hp, hc, hf.symm⟩

theorem closeErrors_ne_nil (sessions : GoMap MCPClient) (p : String × MCPClient)
    (hp : p ∈ sessions) (hfail : p.2.Close.isSome = true) : closeErrors sessions ≠ [] := by
  obtain ⟨e, he⟩ := Option.isSome_iff_exists.1 hfail
  have hmem : "failed to close session " ++ p.1 ++ ": " ++ e ∈ closeErrors sessions := by
    unfold closeErrors
    rw [List.mem_filterMap]
    exact ⟨p, hp, by simp [he]⟩
  exact List.ne_nil_of_mem hmem

/-- C16. `Close` does not stop at the first close failure: whichever sessions
fail to close, when `Close` returns it has called `Close` once for each entry
of the sessions map and the map is empty; and if at least one connection failed
to close, the error returned is `failed to close session <name>: <cause>` for
one of the entries that failed, `<cause>` being the error of its `Close`.
`Close` returns so on every client without a group whose mutex is free. -/
theorem Close_continues_after_failure (w : World) (c c' : MultiServerMCPClient)
    (during : List Nat) (r : Option String) (hclose : Close w c during = some (c', r)) :
    c'.sessions = [] ∧
    (∃ evs, c'.calls = c.calls ++ (if c.cancel then [Remote.cancel] else []) ++
      c.sessions.map (fun p => Remote.Close p.1 p.2.id) ++ evs) ∧
    closeEvents c'.calls
      = closeEvents c.calls ++ c.sessions.map (fun p => Remote.Close p.1 p.2.id) ∧
    ((∃ p ∈ c.sessions, p.2.Close.isSome = true) →
      ∃ n cl e, (n, cl) ∈ c.sessions ∧ cl.Close = some e ∧
        r = some ("failed to close session " ++ n ++ ": " ++ e) ∧
        n.toList <:+: ("failed to close session " ++ n ++ ": " ++ e).toList ∧
        e.toList <:+: ("failed to close session " ++ n ++ ": " ++ e).toList) ∧
    (∀ c0 : MultiServerMCPClient, c0.mu = false → c0.eg = none →
      ∃ c1 r1, Close w c0 during = some (c1, r1)) := by
  obtain ⟨-, hs, -, -, -, -, hcalls, hev, hfirst, -⟩ := Close_returned w c c' during r hclose
  refine ⟨hs, hcalls, hev, ?_, ?_⟩
  · rintro ⟨p, hp, hfail⟩
    cases herrs : closeErrors c.sessions with
    | nil => exact absurd herrs (closeErrors_ne_nil c.sessions p hp hfail)
    | cons first rest =>
      obtain ⟨n, cl, e, hmem, hc, hmsg⟩ := closeErrors_head c.sessions first rest herrs
      refine ⟨n, cl, e, hmem, hc, ?_, infix_append_right _ _ _ (infix_middle _ _ _),
        infix_last _ _⟩
      rw [hfirst first rest herrs, hmsg]
  · intro c0 hmu heg
    exact ⟨_, _, Close_never_started w c0 during hmu heg⟩

/-- A witness of C16: three sessions, of which the second cannot be closed. -/
theorem Close_continues_after_failure_witness :
    ∃ c', Close exampleWorld exampleSessions [] = some (c', some
        "failed to close session server3: broken pipe") ∧
      c'.sessions = [] ∧
      closeEvents c'.calls = [Remote.Close "server1" 1, Remote.Close "server3" 3,
        Remote.Close "server2" 2] := by
  have hrun : Close exampleWorld exampleSessions [] = some
      ({ closeLocked exampleSessions with mu := false },
        some "failed to close session server3: broken pipe") := rfl
  obtain ⟨hs, -, hev, -, -⟩ := Close_continues_after_failure exampleWorld exampleSessions
    _ [] _ hrun
  exact ⟨_, hrun, hs, hev.trans (by decide)⟩

/-- C17, at the failing interleaving.  `Start` has launched its goroutines and
released the mutex; the goroutine of `server1` has connected and is about to
record its session.  `Close` called now takes the mutex and waits for the
goroutines: whatever steps the goroutines are given, `Close` does not return,
the goroutine of `server1` never returns, and the group never finishes, so the
`Wait` of `Start` does not return either.  Left alone, the same goroutines do
return and `Start` with them. -/
theorem Close_during_Start_deadlocks (during : List Nat) :
    exampleConnecting.mu = false ∧
    Close exampleWorld exampleConnecting during = none ∧
    (∃ g t, (runTasks exampleWorld (closeLocked exampleConnecting) during).eg = some g ∧
      g.tasks[0]? = some t ∧ t.name = "server1" ∧ t.pc.needsMutex = true ∧
      g.finished = false) ∧
    (∃ c' err, Start exampleWorld exampleClient [0] (fairSchedule 2)
      = StartResult.returned c' err) := by
  have hstate : ∃ g t, exampleConnecting.eg = some g ∧ g.tasks[0]? = some t ∧
      t.name = "server1" ∧ t.pc.needsMutex = true := ⟨_, _, rfl, rfl, rfl, rfl⟩
  obtain ⟨g, t, heg, hi, hname, hneeds⟩ := hstate
  refine ⟨rfl, Close_blocked exampleWorld exampleConnecting g 0 t heg hi hneeds during,
    ?_, ?_⟩
  · have hname' : ∀ (schedule : List Nat) (c : MultiServerMCPClient) (g0 : Errgroup)
        (t0 : Task), c.mu = true → c.eg = some g0 → g0.tasks[0]? = some t0 →
        t0.name = "server1" → t0.pc.needsMutex = true →
        ∃ g' t', (runTasks exampleWorld c schedule).eg = some g' ∧
          g'.tasks[0]? = some t' ∧ t'.name = "server1" ∧ t'.pc.needsMutex = true := by
      intro schedule
      induction schedule with
      | nil =>
        intro c g0 t0 _ h2 h3 h4 h5
        exact ⟨g0, t0, h2, h3, h4, h5⟩
      | cons j rest ih =>
        intro c g0 t0 h1 h2 h3 h4 h5
        have hstep : ∃ g1 t1, (stepTask exampleWorld c j).eg = some g1 ∧
            g1.tasks[0]? = some t1 ∧ t1.name = "server1" ∧ t1.pc.needsMutex = true := by
          unfold stepTask
          rw [h2]
          dsimp only
          cases htj : g0.tasks[j]? with
          | none => exact ⟨g0, t0, h2, h3, h4, h5⟩
          | some tj =>
            dsimp only
            cases hst : Task.step exampleWorld c tj with
            | none => exact ⟨g0, t0, h2, h3, h4, h5⟩
            | some r =>
              obtain ⟨pc, c1⟩ := r
              have hjlt : j < g0.tasks.length := (List.getElem?_eq_some.1 htj).1
              by_cases hj0 : j = 0
              · subst hj0
                rw [h3] at htj
                cases htj
                exact ⟨_, { t0 with pc := pc }, rfl,
                  by rw [List.getElem?_set, if_pos rfl, if_pos hjlt], h4,
                  (Task.step_locked exampleWorld c c1 t0 pc h1 hst).2.2.1 h5⟩
              · exact ⟨_, t0, rfl, by rw [List.getElem?_set, if_neg hj0]; exact h3, h4, h5⟩
        obtain ⟨g1, t1, e1, e2, e3, e4⟩ := hstep
        exact ih (stepTask exampleWorld c j) g1 t1
          ((stepTask_flags exampleWorld c j).1.trans h1) e1 e2 e3 e4
    obtain ⟨g', t', h1, h2, h3, h4⟩ :=
      hname' during (closeLocked exampleConnecting) _ t rfl
        (closeLocked_eg_some exampleConnecting g heg) hi hname hneeds
    exact ⟨g', t', h1, h2, h3, h4, not_finished_of_needsMutex g' 0 t' h2 h4⟩
  · exact Start_returns exampleWorld exampleClient [0] [] rfl rfl

/-! ## Theorems: what the goroutines of `Start` close -/

theorem Start_run (w : World) (c0 c' : MultiServerMCPClient) (before after : List Nat)
    (err : Option String) (hmu : c0.mu = false) (heg : c0.eg = none)
    (hstart : Start w c0 before after = StartResult.returned c' err) :
    c' = runTasks w (unlock (runTasks w (launch c0) before)) after := by
  unfold Start at hstart
  rw [hmu, heg] at hstart
  simp only [Bool.false_eq_true, if_false] at hstart
  cases hg : (runTasks w (unlock (runTasks w (launch c0) before)) after).eg with
  | none =>
    rw [hg] at hstart
    cases hstart
  | some g =>
    rw [hg] at hstart
    dsimp only at hstart
    split at hstart
    · simp only [StartResult.returned.injEq] at hstart
      exact hstart.1.symm
    · cases hstart

theorem setupServer_error_text (w : World) (c : MultiServerMCPClient) (name : String)
    (cfg : ConnectionConfig) (e : String) (h : setupServer w c name cfg = Except.error e) :
    ∃ cause, setupCause w c name cfg = some cause ∧
      name.toList <:+: e.toList ∧ cause.toList <:+: e.toList := by
  unfold setupServer at h
  unfold setupCause
  cases hconn : connectToServer w false name cfg with
  | error err =>
    rw [hconn] at h
    simp only [Except.error.injEq] at h
    subst h
    exact ⟨err, rfl, infix_append_right _ _ _ (infix_middle _ _ _), infix_last _ _⟩
  | ok cl =>
    rw [hconn] at h
    dsimp only at h ⊢
    cases hinit : cl.Initialize (initializationTimeout (GoMap.get c.connections name))
        (initRequest w c.clientInfo c.clientCapabilities) with
    | error err =>
      rw [hinit] at h
      simp only [Except.error.injEq] at h
      subst h
      exact ⟨err, rfl, infix_append_right _ _ _ (infix_middle _ _ _),
        infix_append_left _ _ _ (infix_last _ _)⟩
    | ok r =>
      rw [hinit] at h
      dsimp only at h ⊢
      unfold LoadMCPTools at h
      cases hlist : cl.ListTools with
      | error err =>
        rw [hlist] at h
        simp only [Except.error.injEq] at h
        subst h
        exact ⟨err, rfl, infix_append_right _ _ _ (infix_middle _ _ _),
          infix_append_left _ _ _ (infix_append_left _ _ _ (infix_last _ _))⟩
      | ok tools =>
        rw [hlist] at h
        cases h

/-- C11, as the code has it.  On a fresh client with distinct server names,
when `Start` returns and the setup of at least one server fails, the error
returned is the error of one server whose setup failed: its text contains the
name of that server and the cause of that failure (the error of its connect,
of its initialize request or of its tool listing). -/
theorem start_error_names_one_failed_server (w : World)
    (connections : GoMap ConnectionConfig) (clientInfo : Implementation)
    (clientCapabilities : ClientCapabilities) (before after : List Nat)
    (c' : MultiServerMCPClient) (err : Option String)
    (hkeys : (GoMap.keys connections).Nodup)
    (hstart : Start w (NewMultiServerMCPClient connections clientInfo clientCapabilities)
      before after = StartResult.returned c' err)
    (hfailed : failed w (NewMultiServerMCPClient connections clientInfo clientCapabilities)
      ≠ []) :
    ∃ name cfg e cause, (name, cfg) ∈ connections ∧
      (name, e) ∈ failed w (NewMultiServerMCPClient connections clientInfo clientCapabilities) ∧
      setupCause w (NewMultiServerMCPClient connections clientInfo clientCapabilities)
        name cfg = some cause ∧
      err = some e ∧ name.toList <:+: e.toList ∧ cause.toList <:+: e.toList := by
  obtain ⟨g, hinv, hfin, rfl, -, -⟩ :=
    Start_returned w _ c' before after err hkeys rfl rfl rfl rfl hstart
  have hsome : g.err.isSome = true :=
    (Start_error_iff w _ c' g hinv hfin).2 (List.length_pos.2 hfailed)
  obtain ⟨e, he⟩ := Option.isSome_iff_exists.1 hsome
  obtain ⟨i, t, hi, hpc, hsetup⟩ := hinv.errSome e he
  have hmem : (t.name, t.cfg) ∈ connections := by
    have h1 : (t.name, t.cfg) ∈ g.tasks.map (fun t => (t.name, t.cfg)) :=
      List.mem_map.2 ⟨t, List.mem_iff_getElem?.2 ⟨i, hi⟩, rfl⟩
    rw [hinv.tasks] at h1
    exact h1
  obtain ⟨name, cfg, pc⟩ := t
  simp only at hpc hmem hsetup
  subst hpc
  obtain ⟨cause, hcause, hname, htext⟩ := setupServer_error_text w _ name cfg e hsetup
  refine ⟨name, cfg, e, cause, hmem, ?_, hcause, he, hname, htext⟩
  unfold failed
  refine List.mem_filterMap.2 ⟨(name, cfg), hmem, ?_⟩
  simp only [hsetup]

/-- A witness of C11 as the code has it: `server2` fails its handshake and the
error of `Start` names it and gives `init failed`. -/
theorem start_error_names_one_failed_server_witness :
    ∃ name cfg e cause, (name, cfg) ∈ exampleConnections ∧
      (name, e) ∈ failed exampleWorld exampleClient ∧
      setupCause exampleWorld exampleClient name cfg = some cause ∧
      some "failed to initialize/load tools for server server2: MCP initialization failed for server2: init failed"
        = some e ∧
      name.toList <:+: e.toList ∧ cause.toList <:+: e.toList :=
  start_error_names_one_failed_server exampleWorld exampleConnections
    { Name := "", Version := "" } { Experimental := none, Roots := none, Sampling := false }
    [0, 1] [1, 0, 1, 0, 1, 0, 1, 0, 1, 0] exampleStarted _ (by decide) rfl
    (by
      intro h
      have hlen : (failed exampleWorld exampleClient).length = 1 := rfl
      have hzero : (failed exampleWorld exampleClient).length = 0 := congrArg List.length h
      rw [hlen] at hzero
      cases hzero)

/-- C11 fails as stated.  Two servers `a` and `b` both fail at connect; `Start`
returns the error of the goroutine of `a` only, and the name `b` occurs nowhere
in its text although `b` is among the servers whose setup failed. -/
theorem start_error_omits_a_failed_server :
    Start exampleWorld brokenClient [] [0, 1] = StartResult.returned brokenStarted
      (some "failed to connect to server a: unknown connection type for server a") ∧
    (failed exampleWorld brokenClient).map Prod.fst = ["a", "b"] ∧
    ¬ ("b".toList <:+:
      "failed to connect to server a: unknown connection type for server a".toList) := by
  refine ⟨rfl, rfl, ?_⟩
  intro h
  have hb : 'b' ∈ "failed to connect to server a: unknown connection type for server a".toList :=
    h.subset (by decide)
  revert hb
  decide

/-! ## Theorems: the listing and the transport -/

theorem LoadMCPToolsTraced_result (mcpClient : MCPClient) :
    LoadMCPTools mcpClient =
      match (LoadMCPToolsTraced mcpClient).tools, (LoadMCPToolsTraced mcpClient).err with
      | some adapters, _ => Except.ok adapters
      | none, some err => Except.error err
      | none, none => Except.ok [] := by
  unfold LoadMCPTools LoadMCPToolsTraced
  cases mcpClient.ListTools <;> rfl

/-- C21. `LoadMCPTools` returns the full listing wrapped one-to-one.  It sends
one listing request, to the connection given.  When the request succeeds with
the tools `t1..tn` the result is a non-nil list of `n` adapters with a nil
error, the i-th adapter wrapping `ti` (so it has the name and the description
of `ti`), bound to the connection that was listed and without handler.  When
the request fails with `cause` the result is a nil list and the error `failed
to list MCP tools: <cause>`. -/
theorem LoadMCPTools_wraps_listing (mcpClient : MCPClient) :
    (LoadMCPToolsTraced mcpClient).requests = [mcpClient.id] ∧
    (∀ tools, mcpClient.ListTools = Except.ok tools →
      ∃ adapters, LoadMCPTools mcpClient = Except.ok adapters ∧
        (LoadMCPToolsTraced mcpClient).tools = some adapters ∧
        (LoadMCPToolsTraced mcpClient).err = none ∧
        adapters.length = tools.length ∧
        adapters.map LangchainMCPTool.Name = tools.map Tool.Name ∧
        adapters.map LangchainMCPTool.Description = tools.map Tool.Description ∧
        ∀ (i : Nat) (tool : Tool), tools[i]? = some tool →
          ∃ adapter, adapters[i]? = some adapter ∧ adapter.mcpTool = tool ∧
            adapter.Name = tool.Name ∧ adapter.Description = tool.Description ∧
            adapter.mcpClient = mcpClient ∧ adapter.callbacks = false) ∧
    (∀ cause, mcpClient.ListTools = Except.error cause →
      LoadMCPTools mcpClient = Except.error ("failed to list MCP tools: " ++ cause) ∧
      (LoadMCPToolsTraced mcpClient).tools = none ∧
      (LoadMCPToolsTraced mcpClient).err = some ("failed to list MCP tools: " ++ cause) ∧
      "failed to list MCP tools".toList <:+: ("failed to list MCP tools: " ++ cause).toList ∧
      cause.toList <:+: ("failed to list MCP tools: " ++ cause).toList) := by
  refine ⟨?_, ?_, ?_⟩
  · unfold LoadMCPToolsTraced
    cases mcpClient.ListTools <;> rfl
  · intro tools h
    refine ⟨tools.map (fun mcpTool => NewLangchainMCPTool mcpTool mcpClient false),
      ?_, ?_, ?_, ?_, ?_, ?_, ?_⟩
    · unfold LoadMCPTools
      rw [h]
    · unfold LoadMCPToolsTraced
      rw [h]
    · unfold LoadMCPToolsTraced
      rw [h]
    · simp
    · simp [Function.comp_def, LangchainMCPTool.Name, NewLangchainMCPTool]
    · simp [Function.comp_def, LangchainMCPTool.Description, NewLangchainMCPTool]
    · intro i tool hi
      refine ⟨NewLangchainMCPTool tool mcpClient false, ?_, rfl, rfl, rfl, rfl, rfl⟩
      rw [List.getElem?_map, hi]
      rfl
  · intro cause h
    refine ⟨?_, ?_, ?_, infix_append_right _ _ _ ⟨[], ": ".toList, rfl⟩, infix_last _ _⟩
    · unfold LoadMCPTools
      rw [h]
    · unfold LoadMCPToolsTraced
      rw [h]
    · unfold LoadMCPToolsTraced
      rw [h]

/-- A witness of C21: the two tests of `LoadMCPTools`. -/
theorem LoadMCPTools_wraps_listing_witness :
    (∃ adapters, LoadMCPTools listingClient = Except.ok adapters ∧
      adapters.map LangchainMCPTool.Name = ["tool1", "tool2"] ∧
      adapters.map LangchainMCPTool.Description = ["Desc 1", "Desc 2"]) ∧
    LoadMCPTools failingClient
      = Except.error "failed to list MCP tools: failed to list tools from server" := by
  obtain ⟨adapters, h1, -, -, -, h2, h3, -⟩ :=
    (LoadMCPTools_wraps_listing listingClient).2.1 _ rfl
  exact ⟨⟨adapters, h1, h2, h3⟩,
    ((LoadMCPTools_wraps_listing failingClient).2.2 "failed to list tools from server" rfl).1⟩

/-- C22. Transport failure is reported as text.  When the arguments are parsed
and the request fails with `cause`, `Call` returns the text `Error calling tool
<name>: failed to call MCP tool <name>: <cause>` with a nil error; the text
contains the name of the tool and the cause; the handler, if attached, is told
the start and the error `failed to call MCP tool <name>: <cause>`, and no end of
tool is notified: no result is rendered. -/
theorem transport_failure_reported_as_text (lib : Stdlib) (t : LangchainMCPTool)
    (input : String) (arguments : Option (GoMap JVal)) (cause : String)
    (hparse : parseInput lib t.mcpTool input = Except.ok arguments)
    (hcall : t.mcpClient.CallTool { Name := t.mcpTool.Name, Arguments := arguments }
      = Except.error cause) :
    (Call lib t input).output = "Error calling tool " ++ t.mcpTool.Name ++
      ": failed to call MCP tool " ++ t.mcpTool.Name ++ ": " ++ cause ∧
    (Call lib t input).err = none ∧
    t.mcpTool.Name.toList <:+: (Call lib t input).output.toList ∧
    cause.toList <:+: (Call lib t input).output.toList ∧
    requests (Call lib t input).events =
      [{ Name := t.mcpTool.Name, Arguments := arguments }] ∧
    notifications (Call lib t input).events =
      notify t (Event.HandleToolStart input) ++
      notify t (Event.HandleToolError
        ("failed to call MCP tool " ++ t.mcpTool.Name ++ ": " ++ cause)) ∧
    (∀ output, Event.HandleToolEnd output ∉ (Call lib t input).events) := by
  have hcallEq : Call lib t input =
      { output := "Error calling tool " ++ t.mcpTool.Name ++ ": " ++
          ("failed to call MCP tool " ++ t.mcpTool.Name ++ ": " ++ cause),
        err := none,
        events := notify t (Event.HandleToolStart input) ++
          [Event.CallTool { Name := t.mcpTool.Name, Arguments := arguments }] ++
          notify t (Event.HandleToolError
            ("failed to call MCP tool " ++ t.mcpTool.Name ++ ": " ++ cause)) } := by
    unfold Call
    rw [hparse]
    dsimp only
    rw [hcall]
  have hout : (Call lib t input).output = "Error calling tool " ++ t.mcpTool.Name ++
      ": failed to call MCP tool " ++ t.mcpTool.Name ++ ": " ++ cause := by
    rw [hcallEq]
    apply String.ext
    simp [String.data_append]
  refine ⟨hout, by rw [hcallEq], ?_, ?_, requests_call_of_parse_ok lib t input arguments hparse,
    ?_, ?_⟩
  · rw [hout]
    exact infix_append_right _ _ _ (infix_append_right _ _ _ (infix_last _ _))
  · rw [hout]
    exact infix_last _ _
  · rw [hcallEq]
    dsimp only
    rw [notifications_append, notifications_append,
      notifications_notify t _ (by intro r hr; cases hr),
      notifications_notify t _ (by intro r hr; cases hr)]
    simp [notifications]
  · intro output hmem
    rw [hcallEq] at hmem
    unfold notify at hmem
    cases t.callbacks <;> simp at hmem

/-- A witness of C22: the test of the failing client. -/
theorem transport_failure_reported_as_text_witness :
    (Call exampleLib (NewLangchainMCPTool toolErrorClient failingClient true) "\x7b\x7d").output
      = "Error calling tool error-client-tool: failed to call MCP tool error-client-tool: network connection failed" :=
  (transport_failure_reported_as_text exampleLib
    (NewLangchainMCPTool toolErrorClient failingClient true) "\x7b\x7d" (some [])
    "network connection failed" rfl rfl).1.trans rfl

/-! ## Theorems: an aborted positional parse and the literal `null` -/

theorem parseParts_none_of_bad_piece (lib : Stdlib) (names : List String)
    (parts : List String) (i : Nat) (acc : GoMap JVal)
    (hbad : ∃ part ∈ parts, ∃ e, lib.ParseFloat (TrimSpace part) = Except.error e) :
    parseParts lib names parts i acc = none := by
  induction parts generalizing i acc with
  | nil =>
    obtain ⟨part, hmem, -⟩ := hbad
    cases hmem
  | cons part rest ih =>
    unfold parseParts
    dsimp only
    cases hpf : lib.ParseFloat (TrimSpace part) with
    | error e => rfl
    | ok num =>
      dsimp only
      cases names[i]? with
      | none => rfl
      | some targetArgName =>
        dsimp only
        apply ih
        obtain ⟨bad, hmem, e, he⟩ := hbad
        rcases List.mem_cons.1 hmem with h | h
        · subst h
          rw [hpf] at he
          cases he
        · exact ⟨bad, h, e, he⟩

theorem parseCommaSeparated_none_of_bad_piece (lib : Stdlib) (mcpTool : Tool)
    (input : String)
    (hbad : ∃ part ∈ Split input ',', ∃ e, lib.ParseFloat (TrimSpace part) = Except.error e) :
    parseCommaSeparated lib mcpTool input = none := by
  unfold parseCommaSeparated
  dsimp only
  split
  · exact parseParts_none_of_bad_piece lib _ _ 0 [] hbad
  · rfl

theorem parseSingleString_none_of_number (mcpTool : Tool) (input : String)
    (hnum : ∀ p ∈ mcpTool.InputSchema.Properties, hasType p.2 "number" = true) :
    parseSingleString mcpTool input = none := by
  apply parseSingleString_none
  rintro ⟨q, schema, hp, hk⟩
  have h1 : hasType schema "number" = true := hnum (q, schema) (by rw [hp]; simp)
  rw [hasType_string_not_number schema hk] at h1
  cases h1

/-- C27. An aborted positional parse leaks nothing.  The tool declares only
parameters of kind `number`, `json.Unmarshal` rejects the instruction, the
number of comma-separated pieces is the number of required parameters, and some
piece, in whatever position, is not a number after trimming.  Then the
positional fallback gives up, the single-string fallback does not apply, no
request is sent, and `Call` returns the parse-error text with a nil error,
telling the handler, if attached, the start and the parse error only. -/
theorem aborted_positional_parse_leaks_nothing (lib : Stdlib) (t : LangchainMCPTool)
    (input jsonErr : String)
    (hjson : lib.Unmarshal input = Except.error jsonErr)
    (hnum : ∀ p ∈ t.mcpTool.InputSchema.Properties, hasType p.2 "number" = true)
    (hcount : (Split input ',').length = t.mcpTool.InputSchema.Required.length)
    (hbad : ∃ part ∈ Split input ',', ∃ e, lib.ParseFloat (TrimSpace part) = Except.error e) :
    (1 < (Split input ',').length →
      parseCommaSeparated lib t.mcpTool input
        = parseParts lib (sortStrings t.mcpTool.InputSchema.Required) (Split input ',') 0 []) ∧
    parseCommaSeparated lib t.mcpTool input = none ∧
    parseSingleString t.mcpTool input = none ∧
    requests (Call lib t input).events = [] ∧
    (Call lib t input).output = "Error: " ++ ("failed to parse tool input '" ++ input ++
      "': not valid JSON and other parsing attempts failed: " ++ jsonErr) ∧
    (Call lib t input).err = none ∧
    (Call lib t input).events = notify t (Event.HandleToolStart input) ++
      notify t (Event.HandleToolError ("failed to parse tool input '" ++ input ++
        "': not valid JSON and other parsing attempts failed: " ++ jsonErr)) := by
  have hcomma := parseCommaSeparated_none_of_bad_piece lib t.mcpTool input hbad
  have hsingle := parseSingleString_none_of_number t.mcpTool input hnum
  have hparse : parseInput lib t.mcpTool input = Except.error jsonErr :=
    parseInput_exhausted lib t.mcpTool input jsonErr hjson hcomma hsingle
  refine ⟨?_, hcomma, hsingle, requests_call_of_parse_error lib t input jsonErr hparse,
    output_of_parse_error lib t input jsonErr hparse, ?_, ?_⟩
  · intro hmany
    have hall : t.mcpTool.InputSchema.Properties.all (fun p => hasType p.2 "number") = true :=
      List.all_eq_true.2 hnum
    unfold parseCommaSeparated
    simp only [hall, hcount, gt_iff_lt, Bool.and_true, decide_True, Bool.and_self]
    rw [if_pos (by simpa [hcount] using hmany)]
  · unfold Call
    rw [hparse]
  · unfold Call
    rw [hparse]

/-- A witness of C27: the tool with the numbers `a` and `b` and the instruction
`3,abc`, whose first piece is a number and whose second is not. -/
theorem aborted_positional_parse_leaks_nothing_witness :
    Split "3,abc" ',' = ["3", "abc"] ∧
    exampleLib.ParseFloat (TrimSpace "3") = Except.ok f64_3 ∧
    requests (Call exampleLib (NewLangchainMCPTool toolAB okClient true) "3,abc").events = [] ∧
    (Call exampleLib (NewLangchainMCPTool toolAB okClient true) "3,abc").output =
      "Error: failed to parse tool input '3,abc': not valid JSON and other parsing attempts failed: invalid character ',' after top-level value" := by
  have h := aborted_positional_parse_leaks_nothing exampleLib
    (NewLangchainMCPTool toolAB okClient true) "3,abc"
    "invalid character ',' after top-level value" rfl
    (by intro p hp
        simp only [NewLangchainMCPTool, toolAB, List.mem_cons, List.mem_singleton,
          List.not_mem_nil, or_false] at hp
        rcases hp with rfl | rfl <;> rfl)
    (by decide)
    ⟨"abc", by decide, _, rfl⟩
  exact ⟨by decide, rfl, h.2.2.2.1, h.2.2.2.2.1.trans rfl⟩

/-- C30. The JSON literal `null` is accepted as structured input.  When
`json.Unmarshal` accepts `null` and leaves the nil map, as Go does, then for
every tool: the parse succeeds with nil arguments, exactly one request is sent,
named after the tool and with nil arguments, the text returned is that of the
transport failure or of the result, and nothing depends on the schema of the
tool or on `strconv.ParseFloat`: no fallback is consulted. -/
theorem null_accepted_as_structured_input (lib : Stdlib) (t : LangchainMCPTool)
    (hnull : lib.Unmarshal "null" = Except.ok none) :
    parseInput lib t.mcpTool "null" = Except.ok none ∧
    requests (Call lib t "null").events = [{ Name := t.mcpTool.Name, Arguments := none }] ∧
    (Call lib t "null").output =
      (match t.mcpClient.CallTool { Name := t.mcpTool.Name, Arguments := none } with
       | Except.error cause => "Error calling tool " ++ t.mcpTool.Name ++ ": " ++
           ("failed to call MCP tool " ++ t.mcpTool.Name ++ ": " ++ cause)
       | Except.ok result => (processCallToolResult result).1) ∧
    (∀ jsonErr, Event.HandleToolError ("failed to parse tool input '" ++ "null" ++
        "': not valid JSON and other parsing attempts failed: " ++ jsonErr)
      ∉ (Call lib t "null").events) ∧
    (∀ (lib' : Stdlib) (schema : ToolInputSchema), lib'.Unmarshal "null" = Except.ok none →
      Call lib' { t with mcpTool := { t.mcpTool with InputSchema := schema } } "null"
        = Call lib t "null") := by
  have hparse : ∀ (lib' : Stdlib) (mcpTool : Tool), lib'.Unmarshal "null" = Except.ok none →
      parseInput lib' mcpTool "null" = Except.ok none :=
    fun lib' mcpTool h => parseInput_of_unmarshal_ok lib' mcpTool "null" none h
  refine ⟨hparse lib t.mcpTool hnull,
    requests_call_of_parse_ok lib t "null" none (hparse lib t.mcpTool hnull), ?_, ?_, ?_⟩
  · unfold Call
    rw [hparse lib t.mcpTool hnull]
    dsimp only
    cases t.mcpClient.CallTool { Name := t.mcpTool.Name, Arguments := none } with
    | error cause => rfl
    | ok result =>
      dsimp only
      rcases hres : processCallToolResult result with ⟨output, _ | toolErr⟩ <;> rfl
  · intro jsonErr hmem
    unfold Call at hmem
    rw [hparse lib t.mcpTool hnull] at hmem
    dsimp only at hmem
    have hstart : ∀ e : String, Event.HandleToolError e
        ∉ notify t (Event.HandleToolStart "null") := by
      intro e he
      unfold notify at he
      split at he <;> simp at he
    cases hc : t.mcpClient.CallTool { Name := t.mcpTool.Name, Arguments := none } with
    | error cause =>
      rw [hc] at hmem
      dsimp only at hmem
      rcases List.mem_append.1 hmem with h1 | h1
      · rcases List.mem_append.1 h1 with h2 | h2
        · exact hstart _ h2
        · simp at h2
      · unfold notify at h1
        split at h1
        · simp only [List.mem_singleton, Event.HandleToolError.injEq] at h1
          have h2 := congrArg String.data h1
          simp [String.data_append] at h2
        · simp at h1
    | ok result =>
      rw [hc] at hmem
      dsimp only at hmem
      rcases hres : processCallToolResult result with ⟨output, _ | toolErr⟩
      · rw [hres] at hmem
        dsimp only at hmem
        rcases List.mem_append.1 hmem with h1 | h1
        · rcases List.mem_append.1 h1 with h2 | h2
          · exact hstart _ h2
          · simp at h2
        · unfold notify at h1
          split at h1 <;> simp at h1
      · rw [hres] at hmem
        dsimp only at hmem
        rcases List.mem_append.1 hmem with h1 | h1
        · rcases List.mem_append.1 h1 with h2 | h2
          · exact hstart _ h2
          · simp at h2
        · unfold notify at h1
          split at h1
          · simp only [List.mem_singleton, Event.HandleToolError.injEq] at h1
            have h2 := congrArg String.data h1
            simp [String.data_append, LangchainMCPTool.Name] at h2
          · simp at h1
  · intro lib' schema h'
    unfold Call
    rw [hparse lib t.mcpTool hnull, hparse lib' _ h']
    rfl

/-- A witness of C30: the tool with two required string parameters. -/
theorem null_accepted_as_structured_input_witness :
    exampleLib.Unmarshal "null" = Except.ok none ∧
    toolStrict.InputSchema.Required = ["paramA", "paramB"] ∧
    requests (Call exampleLib (NewLangchainMCPTool toolStrict okClient true) "null").events =
      [{ Name := "json-tool-strict", Arguments := none }] :=
  ⟨rfl, rfl, (null_accepted_as_structured_input exampleLib
    (NewLangchainMCPTool toolStrict okClient true) rfl).2.1⟩

/-! ## Theorems: package prompt -/

theorem convert_eq_spec (message : PromptMessage) :
    (match convertMCPPromptMessageToLangchainMessage message with
      | Except.ok lcMessage => some lcMessage
      | Except.error _ => none) = specPromptConversion message := by
  unfold convertMCPPromptMessageToLangchainMessage specPromptConversion RoleUser RoleAssistant
  cases message.Content with
  | TextContent text =>
    dsimp only
    by_cases h1 : message.Role = "user"
    · simp [h1]
    · by_cases h2 : message.Role = "assistant"
      · simp [h1, h2]
      · simp [h1, h2]
  | ImageContent d m => rfl
  | EmbeddedResource u => rfl
  | Other n => rfl

/-- C23. Prompt conversion is an order-preserving filter-map.  Whatever list of
messages the server returns, `LoadMCPPrompt` returns a nil error and the
non-nil list obtained by converting each message as the specification says and
dropping those it does not convert, in the original order; a text message of
the user gives a human message and a text message of the assistant an AI
message, with the same text; a message of another role or with content that is
not text is dropped; an empty answer gives an empty list. -/
theorem LoadMCPPrompt_filter_map (mcpClient : MCPClient) (name : String)
    (arguments : Option (GoMap String)) (response : List PromptMessage)
    (hget : mcpClient.GetPrompt { Name := name, Arguments := arguments } = Except.ok response) :
    (LoadMCPPrompt mcpClient name arguments).err = none ∧
    (LoadMCPPrompt mcpClient name arguments).messages
      = some (response.filterMap specPromptConversion) ∧
    (∀ text, specPromptConversion { Role := "user", Content := Content.TextContent text }
      = some (ChatMessage.HumanChatMessage text)) ∧
    (∀ text, specPromptConversion { Role := "assistant", Content := Content.TextContent text }
      = some (ChatMessage.AIChatMessage text)) ∧
    (∀ message, specPromptConversion message = none ↔
      ((message.Role ≠ "user" ∧ message.Role ≠ "assistant") ∨
        ∀ text, message.Content ≠ Content.TextContent text)) ∧
    (∀ (before after : List PromptMessage) (message : PromptMessage),
      response = before ++ message :: after →
      response.filterMap specPromptConversion
        = before.filterMap specPromptConversion ++
          (specPromptConversion message).toList ++
          after.filterMap specPromptConversion) ∧
    (response = [] → (LoadMCPPrompt mcpClient name arguments).messages = some []) := by
  have hmsgs : (LoadMCPPrompt mcpClient name arguments).messages
      = some (response.filterMap specPromptConversion) := by
    unfold LoadMCPPrompt
    dsimp only
    rw [hget]
    dsimp only
    congr 1
    apply List.filterMap_congr
    intro m _
    exact convert_eq_spec m
  refine ⟨?_, hmsgs, fun _ => rfl, fun _ => rfl, ?_, ?_, ?_⟩
  · unfold LoadMCPPrompt
    dsimp only
    rw [hget]
  · intro message
    unfold specPromptConversion
    cases hc : message.Content with
    | TextContent text =>
      dsimp only
      by_cases h1 : message.Role = "user"
      · simp [h1]
      · by_cases h2 : message.Role = "assistant"
        · simp [h1, h2]
        · simp [h1, h2]
    | ImageContent d m => simp
    | EmbeddedResource u => simp
    | Other n => simp
  · intro before after message h
    subst h
    simp [List.filterMap_append, List.filterMap_cons]
    cases specPromptConversion message <;> simp
  · intro h
    rw [hmsgs, h]
    rfl

/-- A witness of C23: the test in which the message of role `system` is
skipped. -/
theorem LoadMCPPrompt_filter_map_witness :
    (LoadMCPPrompt promptClient "conversion-error-prompt" (some [])).err = none ∧
    (LoadMCPPrompt promptClient "conversion-error-prompt" (some [])).messages
      = some [ChatMessage.HumanChatMessage "Valid user message",
              ChatMessage.AIChatMessage "Valid assistant message"] := by
  have h := LoadMCPPrompt_filter_map promptClient "conversion-error-prompt" (some []) _ rfl
  exact ⟨h.1, h.2.1.trans (by decide)⟩

/-- C24. `LoadMCPPrompt` fails exactly when fetching the prompt fails.  It sends
one request, to the connection given, carrying the name and the arguments as
they were given (nil arguments stay nil).  When the request fails with `e` the
messages are nil and the error is `failed to get MCP prompt '<name>': <e>`; when
the request succeeds the error is nil, whatever the messages are. -/
theorem LoadMCPPrompt_fails_iff_fetch_fails (mcpClient : MCPClient) (name : String)
    (arguments : Option (GoMap String)) :
    (LoadMCPPrompt mcpClient name arguments).requests
      = [(mcpClient.id, { Name := name, Arguments := arguments })] ∧
    (∀ e, mcpClient.GetPrompt { Name := name, Arguments := arguments } = Except.error e →
      (LoadMCPPrompt mcpClient name arguments).messages = none ∧
      (LoadMCPPrompt mcpClient name arguments).err
        = some ("failed to get MCP prompt '" ++ name ++ "': " ++ e) ∧
      ("failed to get MCP prompt '" ++ name ++ "'").toList <:+:
        ("failed to get MCP prompt '" ++ name ++ "': " ++ e).toList ∧
      e.toList <:+: ("failed to get MCP prompt '" ++ name ++ "': " ++ e).toList) ∧
    (∀ response, mcpClient.GetPrompt { Name := name, Arguments := arguments }
        = Except.ok response →
      (LoadMCPPrompt mcpClient name arguments).err = none ∧
      (LoadMCPPrompt mcpClient name arguments).messages ≠ none) ∧
    ((LoadMCPPrompt mcpClient name arguments).err ≠ none ↔
      ∃ e, mcpClient.GetPrompt { Name := name, Arguments := arguments } = Except.error e) := by
  unfold LoadMCPPrompt
  dsimp only
  cases hget : mcpClient.GetPrompt { Name := name, Arguments := arguments } with
  | error e0 =>
    refine ⟨rfl, ?_, ?_, ?_⟩
    · intro e he
      cases he
      refine ⟨rfl, rfl, ?_, infix_last _ _⟩
      refine infix_append_right _ _ _ ?_
      exact ⟨[], ": ".toList, by simp [String.toList, String.data_append]⟩
    · intro response h
      cases h
    · simp
  | ok response =>
    refine ⟨rfl, ?_, ?_, ?_⟩
    · intro e he
      cases he
    · intro r _
      exact ⟨rfl, by simp⟩
    · simp

/-- A witness of C24: the test of the failing request, and nil arguments. -/
theorem LoadMCPPrompt_fails_iff_fetch_fails_witness :
    (LoadMCPPrompt promptClient "error-prompt" none).messages = none ∧
    (LoadMCPPrompt promptClient "error-prompt" none).err
      = some "failed to get MCP prompt 'error-prompt': MCP client error" ∧
    (LoadMCPPrompt promptClient "error-prompt" none).requests
      = [(6, { Name := "error-prompt", Arguments := none })] := by
  have h := LoadMCPPrompt_fails_iff_fetch_fails promptClient "error-prompt" none
  obtain ⟨h1, h2, -, -⟩ := h.2.1 "MCP client error" rfl
  exact ⟨h1, h2.trans rfl, h.1⟩

/-! ## Theorems: the constructor -/

/-- C25, as the code has it.  `NewMultiServerMCPClient` stores the name
`langchaingo-mcp-client` when the name supplied is empty and the name supplied
otherwise, and the version `0.0.1` when the version supplied is empty and the
version supplied otherwise, each field on its own: the stored name differs from
the one supplied exactly when that one is empty, and it is
`langchaingo-mcp-client` exactly when the one supplied is empty or is that very
text (likewise for the version).  The capabilities and the connections are
stored unchanged, the sessions and tools maps are empty, no group and no cancel
function is set and the mutex is free. -/
theorem client_identity_defaults (connections : GoMap ConnectionConfig)
    (clientInfo : Implementation) (clientCapabilities : ClientCapabilities) :
    (NewMultiServerMCPClient connections clientInfo clientCapabilities).clientInfo.Name
      = (if clientInfo.Name = "" then "langchaingo-mcp-client" else clientInfo.Name) ∧
    (NewMultiServerMCPClient connections clientInfo clientCapabilities).clientInfo.Version
      = (if clientInfo.Version = "" then "0.0.1" else clientInfo.Version) ∧
    ((NewMultiServerMCPClient connections clientInfo clientCapabilities).clientInfo.Name
      ≠ clientInfo.Name ↔ clientInfo.Name = "") ∧
    ((NewMultiServerMCPClient connections clientInfo clientCapabilities).clientInfo.Version
      ≠ clientInfo.Version ↔ clientInfo.Version = "") ∧
    ((NewMultiServerMCPClient connections clientInfo clientCapabilities).clientInfo.Name
      = "langchaingo-mcp-client" ↔
        clientInfo.Name = "" ∨ clientInfo.Name = "langchaingo-mcp-client") ∧
    ((NewMultiServerMCPClient connections clientInfo clientCapabilities).clientInfo.Version
      = "0.0.1" ↔ clientInfo.Version = "" ∨ clientInfo.Version = "0.0.1") ∧
    (NewMultiServerMCPClient connections clientInfo clientCapabilities).clientCapabilities
      = clientCapabilities ∧
    (NewMultiServerMCPClient connections clientInfo clientCapabilities).connections
      = connections ∧
    (NewMultiServerMCPClient connections clientInfo clientCapabilities).sessions = [] ∧
    (NewMultiServerMCPClient connections clientInfo clientCapabilities).serverNameToTools = [] ∧
    (NewMultiServerMCPClient connections clientInfo clientCapabilities).eg = none ∧
    (NewMultiServerMCPClient connections clientInfo clientCapabilities).cancel = false ∧
    (NewMultiServerMCPClient connections clientInfo clientCapabilities).mu = false := by
  obtain ⟨name, version⟩ := clientInfo
  have hname : (NewMultiServerMCPClient connections ⟨name, version⟩
      clientCapabilities).clientInfo.Name
      = (if name = "" then "langchaingo-mcp-client" else name) := by
    unfold NewMultiServerMCPClient
    by_cases h1 : name = "" <;> by_cases h2 : version = "" <;> simp [h1, h2]
  have hversion : (NewMultiServerMCPClient connections ⟨name, version⟩
      clientCapabilities).clientInfo.Version
      = (if version = "" then "0.0.1" else version) := by
    unfold NewMultiServerMCPClient
    by_cases h1 : name = "" <;> by_cases h2 : version = "" <;> simp [h1, h2]
  refine ⟨hname, hversion, ?_, ?_, ?_, ?_, rfl, rfl, rfl, rfl, rfl, rfl, rfl⟩
  · rw [hname]
    by_cases h1 : name = ""
    · subst h1
      simp
    · simp [h1]
  · rw [hversion]
    by_cases h2 : version = ""
    · subst h2
      simp
    · simp [h2]
  · rw [hname]
    by_cases h1 : name = ""
    · simp [h1]
    · simp [h1]
  · rw [hversion]
    by_cases h2 : version = ""
    · simp [h2]
    · simp [h2]

/-- A witness of C25 as the code has it: no identity supplied, and a name
supplied without a version. -/
theorem client_identity_defaults_witness :
    (NewMultiServerMCPClient [] { Name := "", Version := "" }
      { Experimental := none, Roots := none, Sampling := false }).clientInfo.Name
      = "langchaingo-mcp-client" ∧
    (NewMultiServerMCPClient [] { Name := "", Version := "" }
      { Experimental := none, Roots := none, Sampling := false }).clientInfo.Version
      = "0.0.1" ∧
    (NewMultiServerMCPClient [] { Name := "test-client", Version := "" }
      { Experimental := none, Roots := none, Sampling := false }).clientInfo.Name
      = "test-client" ∧
    (NewMultiServerMCPClient [] { Name := "test-client", Version := "" }
      { Experimental := none, Roots := none, Sampling := false }).clientInfo.Version
      = "0.0.1" :=
  ⟨(client_identity_defaults [] { Name := "", Version := "" }
      { Experimental := none, Roots := none, Sampling := false }).1.trans rfl,
   (client_identity_defaults [] { Name := "", Version := "" }
      { Experimental := none, Roots := none, Sampling := false }).2.1.trans rfl,
   (client_identity_defaults [] { Name := "test-client", Version := "" }
      { Experimental := none, Roots := none, Sampling := false }).1.trans rfl,
   (client_identity_defaults [] { Name := "test-client", Version := "" }
      { Experimental := none, Roots := none, Sampling := false }).2.1.trans rfl⟩

/-- C25 fails as stated.  The name `langchaingo-mcp-client` and the version
`0.0.1` are supplied, neither is empty, and they are what is stored: the stored
name is the default name although the name supplied is not empty. -/
theorem default_identity_stored_for_supplied_identity :
    (NewMultiServerMCPClient [] { Name := "langchaingo-mcp-client", Version := "0.0.1" }
      { Experimental := none, Roots := none, Sampling := false }).clientInfo
      = { Name := "langchaingo-mcp-client", Version := "0.0.1" } ∧
    ¬ ((NewMultiServerMCPClient [] { Name := "langchaingo-mcp-client", Version := "0.0.1" }
        { Experimental := none, Roots := none, Sampling := false }).clientInfo.Name
        = "langchaingo-mcp-client" ↔ "langchaingo-mcp-client" = "") ∧
    ¬ ((NewMultiServerMCPClient [] { Name := "langchaingo-mcp-client", Version := "0.0.1" }
        { Experimental := none, Roots := none, Sampling := false }).clientInfo.Version
        = "0.0.1" ↔ "0.0.1" = "") := by
  decide

/-! ## Theorems: `Close` after `Start` -/

theorem stepTask_finished (w : World) (c : MultiServerMCPClient) (g : Errgroup) (i : Nat)
    (heg : c.eg = some g) (hfin : g.finished = true) : stepTask w c i = c := by
  unfold stepTask
  rw [heg]
  dsimp only
  cases hi : g.tasks[i]? with
  | none => rfl
  | some t =>
    dsimp only
    obtain ⟨ret, hret⟩ := finished_task_done g hfin i t hi
    have hstep : Task.step w c t = none := by
      unfold Task.step
      rw [hret]
    rw [hstep]

theorem runTasks_finished (w : World) (schedule : List Nat) (c : MultiServerMCPClient)
    (g : Errgroup) (heg : c.eg = some g) (hfin : g.finished = true) :
    runTasks w c schedule = c := by
  induction schedule with
  | nil => rfl
  | cons i rest ih =>
    unfold runTasks
    rw [stepTask_finished w c g i heg hfin]
    exact ih

theorem Start_returned_group (w : World) (c0 c' : MultiServerMCPClient)
    (before after : List Nat) (err : Option String) (hmu : c0.mu = false)
    (heg : c0.eg = none) (hstart : Start w c0 before after = StartResult.returned c' err) :
    ∃ g, c'.eg = some g ∧ g.finished = true ∧ err = g.err ∧ c'.mu = false := by
  have hrun := Start_run w c0 c' before after err hmu heg hstart
  have hflag : c'.mu = false := by
    rw [hrun]
    exact (runTasks_flags w after _).1
  unfold Start at hstart
  rw [hmu, heg] at hstart
  simp only [Bool.false_eq_true, if_false] at hstart
  rw [← hrun] at hstart
  cases hg : c'.eg with
  | none =>
    rw [hg] at hstart
    cases hstart
  | some g =>
    rw [hg] at hstart
    dsimp only at hstart
    by_cases hfin : g.finished = true
    · rw [if_pos hfin] at hstart
      simp only [StartResult.returned.injEq] at hstart
      exact ⟨g, rfl, hfin, hstart.2.symm, hflag⟩
    · rw [if_neg hfin] at hstart
      cases hstart

theorem closeErrors_eq_nil (sessions : GoMap MCPClient)
    (h : ∀ p ∈ sessions, p.2.Close = none) : closeErrors sessions = [] := by
  unfold closeErrors
  rw [List.filterMap_eq_nil_iff]
  intro p hp
  rw [h p hp]

theorem closeErrors_eq_nil_iff (sessions : GoMap MCPClient) :
    closeErrors sessions = [] ↔ ∀ p ∈ sessions, p.2.Close = none := by
  constructor
  · intro h p hp
    cases hc : p.2.Close with
    | none => rfl
    | some e =>
      exact absurd h (closeErrors_ne_nil sessions p hp (by rw [hc]; rfl))
  · exact closeErrors_eq_nil sessions

/-- C28. `Close` reports the startup failure when nothing failed to close.
When every connection closes without error and a group is set, a `Close` that
returns returns the error of the group it has waited for.  Called on the client
that a `Start` left when it returned `err`, `Close` returns, with that same
`err`, whatever the schedule.  And `Close` returns nil exactly when it returns,
no connection failed to close, and the group is absent or has finished without
error. -/
theorem Close_reports_startup_failure (w : World) (c : MultiServerMCPClient)
    (during : List Nat) :
    (∀ c' r g, Close w c during = some (c', r) → (∀ p ∈ c.sessions, p.2.Close = none) →
      c.eg = some g →
      ∃ g', (runTasks w (closeLocked c) during).eg = some g' ∧ g'.finished = true ∧
        r = g'.err) ∧
    (∀ c0 before after err, c0.mu = false → c0.eg = none →
      Start w c0 before after = StartResult.returned c err →
      (∀ p ∈ c.sessions, p.2.Close = none) →
      ∃ c', Close w c during = some (c', err)) ∧
    ((∃ c', Close w c during = some (c', none)) ↔
      c.mu = false ∧ (∀ p ∈ c.sessions, p.2.Close = none) ∧
      (c.eg = none ∨ ∃ g', (runTasks w (closeLocked c) during).eg = some g' ∧
        g'.finished = true ∧ g'.err = none)) := by
  refine ⟨?_, ?_, ?_⟩
  · intro c' r g hclose hok heg
    rw [Close_eq] at hclose
    have herrs := closeErrors_eq_nil c.sessions hok
    by_cases hmu : c.mu = true
    · rw [if_pos hmu] at hclose
      cases hclose
    · rw [if_neg hmu] at hclose
      obtain ⟨g1, hg1, -⟩ :=
        runTasks_group w during (closeLocked c) _ (closeLocked_eg_some c g heg)
      rw [hg1] at hclose
      dsimp only at hclose
      by_cases hfin : g1.finished = true
      · rw [if_pos hfin, herrs] at hclose
        simp only [Option.some.injEq, Prod.mk.injEq] at hclose
        exact ⟨g1, hg1, hfin, hclose.2.symm⟩
      · rw [if_neg hfin] at hclose
        cases hclose
  · intro c0 before after err hmu heg hstart hok
    obtain ⟨g, hg, hfin, herr, hmu'⟩ :=
      Start_returned_group w c0 c before after err hmu heg hstart
    have hfin' : Errgroup.finished { g with cancelled := g.cancelled || c.cancel } = true :=
      hfin
    have hrun : runTasks w (closeLocked c) during = closeLocked c :=
      runTasks_finished w during (closeLocked c) _ (closeLocked_eg_some c g hg) hfin'
    rw [Close_eq, hmu', hrun, closeLocked_eg_some c g hg]
    simp only [Bool.false_eq_true, if_false, hfin', if_true,
      closeErrors_eq_nil c.sessions hok]
    exact ⟨_, by rw [herr]⟩
  · constructor
    · rintro ⟨c', hclose⟩
      have hmu : c.mu = false := (Close_returned w c c' during none hclose).1
      rw [Close_eq, hmu] at hclose
      simp only [Bool.false_eq_true, if_false] at hclose
      cases hg : (runTasks w (closeLocked c) during).eg with
      | none =>
        rw [hg] at hclose
        dsimp only at hclose
        have hceg : c.eg = none := by
          cases hc : c.eg with
          | none => rfl
          | some g0 =>
            obtain ⟨g1, hg1, -⟩ := runTasks_group w during (closeLocked c) _ (closeLocked_eg_some c g0 hc)
            rw [hg1] at hg
            cases hg
        cases herrs : closeErrors c.sessions with
        | nil => exact ⟨hmu, (closeErrors_eq_nil_iff _).1 herrs, Or.inl hceg⟩
        | cons first rest =>
          rw [herrs] at hclose
          simp at hclose
      | some g1 =>
        rw [hg] at hclose
        dsimp only at hclose
        by_cases hfin : g1.finished = true
        · rw [if_pos hfin] at hclose
          cases herrs : closeErrors c.sessions with
          | nil =>
            rw [herrs] at hclose
            simp only [Option.some.injEq, Prod.mk.injEq] at hclose
            exact ⟨hmu, (closeErrors_eq_nil_iff _).1 herrs, Or.inr ⟨g1, rfl, hfin, hclose.2⟩⟩
          | cons first rest =>
            rw [herrs] at hclose
            simp at hclose
        · rw [if_neg hfin] at hclose
          cases hclose
    · rintro ⟨hmu, hok, hgroup⟩
      have herrs := closeErrors_eq_nil c.sessions hok
      rcases hgroup with hnone | ⟨g1, hg1, hfin, herr⟩
      · rw [Close_never_started w c during hmu hnone, herrs]
        exact ⟨_, rfl⟩
      · rw [Close_eq, hmu, hg1]
        simp only [Bool.false_eq_true, if_false, hfin, if_true, herrs, herr]
        exact ⟨_, rfl⟩

/-- A witness of C28: in the worked example `Start` returns the error of
`server2`, and the `Close` that follows returns the same error. -/
theorem Close_reports_startup_failure_witness :
    Start exampleWorld exampleClient [0, 1] [1, 0, 1, 0, 1, 0, 1, 0, 1, 0]
      = StartResult.returned exampleStarted (some
          "failed to initialize/load tools for server server2: MCP initialization failed for server2: init failed") ∧
    ∃ c', Close exampleWorld exampleStarted [0, 1] = some (c', some
      "failed to initialize/load tools for server server2: MCP initialization failed for server2: init failed") :=
  ⟨rfl, (Close_reports_startup_failure exampleWorld exampleStarted [0, 1]).2.1
    exampleClient [0, 1] [1, 0, 1, 0, 1, 0, 1, 0, 1, 0] _ rfl rfl rfl
    (by
      intro p hp
      have hs : exampleStarted.sessions = [("server1", client1)] := rfl
      rw [hs] at hp
      simp only [List.mem_singleton] at hp
      subst hp
      rfl)⟩

/-! ## Theorems: `Start` after `Close` -/

theorem critical_append (held : Bool) (ops rest : List Op)
    (h : ∀ op ∈ ops, op.isLockOp = false) :
    critical held (ops ++ rest)
      = (if held then ops else []) ++ critical held rest := by
  induction ops with
  | nil => cases held <;> rfl
  | cons op ops ih =>
    have hop := h op (List.mem_cons_self _ _)
    have ih' := ih (fun o ho => h o (List.mem_cons_of_mem _ ho))
    cases op <;> simp [Op.isLockOp] at hop <;> cases held <;>
      simp [critical, ih']

theorem CloseBody_no_lock (c : MultiServerMCPClient) :
    ∀ op ∈ CloseBody c, op.isLockOp = false := by
  intro op hop
  unfold CloseBody at hop
  simp only [List.mem_append, List.mem_map, List.mem_cons, List.mem_singleton,
    List.not_mem_nil, or_false] at hop
  rcases hop with ((((h | h) | h) | h) | h) | h
  · subst h; rfl
  · split at h
    · simp only [List.mem_singleton] at h; subst h; rfl
    · cases h
  · subst h; rfl
  · obtain ⟨p, -, rfl⟩ := h; rfl
  · rcases h with h | h <;> subst h <;> rfl
  · split at h
    · simp only [List.mem_cons, List.mem_singleton, List.not_mem_nil, or_false] at h
      rcases h with h | h <;> subst h <;> rfl
    · cases h

theorem critical_CloseOps (c : MultiServerMCPClient) :
    critical false (CloseOps c) = CloseBody c := by
  unfold CloseOps
  rw [List.append_assoc]
  show critical true (CloseBody c ++ [Op.Unlock]) = CloseBody c
  rw [critical_append true _ _ (CloseBody_no_lock c)]
  simp [critical]

theorem remotes_CloseOps (c : MultiServerMCPClient) :
    (closeLocked c).calls = c.calls ++ (CloseOps c).filterMap Op.remote := by
  unfold closeLocked CloseOps CloseBody
  have hclose : (c.sessions.map (fun p => Op.blocking (Blocking.Close p.1 p.2.id))).filterMap
      Op.remote = c.sessions.map (fun p => Remote.Close p.1 p.2.id) := by
    induction c.sessions with
    | nil => rfl
    | cons p rest ih => simp [Op.remote, ih]
  cases c.cancel <;> cases c.eg <;>
    simp [List.filterMap_append, Op.remote, hclose]

theorem Task.step_ops_calls (w : World) (c c1 : MultiServerMCPClient) (t : Task)
    (pc : TaskPc) (hstep : Task.step w c t = some (pc, c1)) :
    c1.calls = c.calls ++ (TaskPc.ops t.name t.pc).filterMap Op.remote := by
  obtain ⟨name, cfg, pc0⟩ := t
  cases pc0 with
  | connect =>
    simp only [Task.step] at hstep
    cases hconn : connectToServer w (ctxDone c) name cfg <;> rw [hconn] at hstep <;>
      simp only [Option.some.injEq, Prod.mk.injEq] at hstep <;>
      obtain ⟨-, rfl⟩ := hstep <;> rfl
  | storeSession cl =>
    simp only [Task.step] at hstep
    split at hstep
    · cases hstep
    · simp only [Option.some.injEq, Prod.mk.injEq] at hstep
      obtain ⟨-, rfl⟩ := hstep
      simp [TaskPc.ops, Op.remote]
  | readConfig cl =>
    simp only [Task.step] at hstep
    split at hstep
    · cases hstep
    · simp only [Option.some.injEq, Prod.mk.injEq] at hstep
      obtain ⟨-, rfl⟩ := hstep
      simp [TaskPc.ops, Op.remote]
  | handshake cl timeout =>
    simp only [Task.step] at hstep
    cases hinit : cl.InitializeCtx (ctxDone c) timeout
        (initRequest w c.clientInfo c.clientCapabilities) <;>
      rw [hinit] at hstep <;>
      simp only [Option.some.injEq, Prod.mk.injEq] at hstep <;>
      obtain ⟨-, rfl⟩ := hstep <;> rfl
  | loadTools cl =>
    simp only [Task.step] at hstep
    cases hload : LoadMCPToolsCtx (ctxDone c) cl <;> rw [hload] at hstep <;>
      simp only [Option.some.injEq, Prod.mk.injEq] at hstep <;>
      obtain ⟨-, rfl⟩ := hstep <;> rfl
  | storeTools cl loaded =>
    simp only [Task.step] at hstep
    split at hstep
    · cases hstep
    · simp only [Option.some.injEq, Prod.mk.injEq] at hstep
      obtain ⟨-, rfl⟩ := hstep
      simp [TaskPc.ops, Op.remote]
  | closeFailed cl err =>
    simp only [Task.step, Option.some.injEq, Prod.mk.injEq] at hstep
    obtain ⟨-, rfl⟩ := hstep
    rfl
  | deleteSession err =>
    simp only [Task.step] at hstep
    split at hstep
    · cases hstep
    · simp only [Option.some.injEq, Prod.mk.injEq] at hstep
      obtain ⟨-, rfl⟩ := hstep
      simp [TaskPc.ops, Op.remote]
  | done ret => simp [Task.step] at hstep

theorem Task.step_none_iff (w : World) (c : MultiServerMCPClient) (t : Task) :
    Task.step w c t = none ↔
      t.pc.isDone = true ∨
        (c.mu = true ∧ (TaskPc.ops t.name t.pc).any Op.takesMutex = true) := by
  obtain ⟨name, cfg, pc0⟩ := t
  cases pc0 with
  | connect =>
    simp only [Task.step]
    cases connectToServer w (ctxDone c) name cfg <;>
      simp [TaskPc.isDone, TaskPc.ops, Op.takesMutex]
  | storeSession cl =>
    cases hmu : c.mu <;> simp [Task.step, hmu, TaskPc.isDone, TaskPc.ops, Op.takesMutex]
  | readConfig cl =>
    cases hmu : c.mu <;> simp [Task.step, hmu, TaskPc.isDone, TaskPc.ops, Op.takesMutex]
  | handshake cl timeout =>
    simp only [Task.step]
    cases cl.InitializeCtx (ctxDone c) timeout
        (initRequest w c.clientInfo c.clientCapabilities) <;>
      simp [TaskPc.isDone, TaskPc.ops, Op.takesMutex]
  | loadTools cl =>
    simp only [Task.step]
    cases LoadMCPToolsCtx (ctxDone c) cl <;> simp [TaskPc.isDone, TaskPc.ops, Op.takesMutex]
  | storeTools cl loaded =>
    cases hmu : c.mu <;> simp [Task.step, hmu, TaskPc.isDone, TaskPc.ops, Op.takesMutex]
  | closeFailed cl err => simp [Task.step, TaskPc.isDone, TaskPc.ops, Op.takesMutex]
  | deleteSession err =>
    cases hmu : c.mu <;> simp [Task.step, hmu, TaskPc.isDone, TaskPc.ops, Op.takesMutex]
  | done ret => simp [Task.step, TaskPc.isDone]

theorem initializeSessionAndLoadTools_ops_calls (w : World) (c c' : MultiServerMCPClient)
    (serverName : String) (mcpClient : MCPClient) (err : Option String)
    (h : initializeSessionAndLoadTools w c serverName mcpClient = some (c', err)) :
    c'.calls = c.calls ++
      (initializeSessionAndLoadToolsOps w c serverName mcpClient).filterMap Op.remote := by
  unfold initializeSessionAndLoadTools at h
  unfold initializeSessionAndLoadToolsOps
  split at h
  · cases h
  · dsimp only at h
    cases hinit : mcpClient.Initialize
        (initializationTimeout (GoMap.get c.connections serverName))
        (initRequest w c.clientInfo c.clientCapabilities) with
    | error e =>
      rw [hinit] at h
      simp only [Option.some.injEq, Prod.mk.injEq] at h
      rw [← h.1]
      rfl
    | ok r =>
      rw [hinit] at h
      dsimp only at h
      cases hload : LoadMCPTools mcpClient with
      | error e =>
        rw [hload] at h
        simp only [Option.some.injEq, Prod.mk.injEq] at h
        rw [← h.1]
        simp [Op.remote]
      | ok loaded =>
        rw [hload] at h
        simp only [Option.some.injEq, Prod.mk.injEq] at h
        rw [← h.1]
        simp [Op.remote]

/-- C26, where the code departs from it.  No step of a goroutine of `Start`,
and neither `initializeSessionAndLoadTools`, `GetTools` nor `GetPrompt`, makes a
call that can block while it holds the mutex: their critical sections only read
or write a map.  `Start` launches its goroutines with the mutex held and waits
for them after it has released it.  `Close` does not: everything it does lies
between `c.mu.Lock()` and the deferred `c.mu.Unlock()`, so that it holds the
mutex across the `Close` of every session and, when a group is set, across
`c.eg.Wait()`; it keeps to the rule only when there is no session and no
group. -/
theorem Close_holds_mutex_across_blocking_calls (w : World) (c : MultiServerMCPClient) :
    (∀ name pc, noBlockingUnderLock (TaskPc.ops name pc) = true ∧
      criticalSectionsAccessOnly (TaskPc.ops name pc) = true) ∧
    (∀ serverName mcpClient,
      noBlockingUnderLock (initializeSessionAndLoadToolsOps w c serverName mcpClient) = true ∧
      criticalSectionsAccessOnly
        (initializeSessionAndLoadToolsOps w c serverName mcpClient) = true) ∧
    (noBlockingUnderLock GetToolsOps = true ∧ criticalSectionsAccessOnly GetToolsOps = true) ∧
    (∀ serverName, noBlockingUnderLock (GetPromptOps c serverName) = true ∧
      criticalSectionsAccessOnly (GetPromptOps c serverName) = true) ∧
    noBlockingUnderLock (StartOps c) = true ∧
    critical false (CloseOps c) = CloseBody c ∧
    (∀ p ∈ c.sessions,
      Op.blocking (Blocking.Close p.1 p.2.id) ∈ critical false (CloseOps c)) ∧
    (c.eg.isSome = true → Op.blocking Blocking.Wait ∈ critical false (CloseOps c)) ∧
    (noBlockingUnderLock (CloseOps c) = true ↔ c.sessions = [] ∧ c.eg = none) := by
  refine ⟨?_, ?_, ⟨rfl, rfl⟩, ?_, ?_, critical_CloseOps c, ?_, ?_, ?_⟩
  · intro name pc
    cases pc <;> exact ⟨rfl, rfl⟩
  · intro serverName mcpClient
    unfold initializeSessionAndLoadToolsOps
    cases mcpClient.Initialize (initializationTimeout (GoMap.get c.connections serverName))
        (initRequest w c.clientInfo c.clientCapabilities) with
    | error e => exact ⟨rfl, rfl⟩
    | ok r =>
      dsimp only
      cases LoadMCPTools mcpClient with
      | error e => exact ⟨rfl, rfl⟩
      | ok loaded => exact ⟨rfl, rfl⟩
  · intro serverName
    unfold GetPromptOps
    cases GoMap.get c.sessions serverName with
    | none => exact ⟨rfl, rfl⟩
    | some session => exact ⟨rfl, rfl⟩
  · unfold noBlockingUnderLock StartOps
    cases c.eg with
    | some g => rfl
    | none =>
      have hgo : ∀ op ∈ c.connections.map (fun p => Op.Go p.1), op.isLockOp = false := by
        intro op hop
        obtain ⟨p, -, rfl⟩ := List.mem_map.1 hop
        rfl
      show (critical true ([Op.access "eg"] ++ ([Op.access "cancel", Op.access "eg",
        Op.access "connections"] ++ c.connections.map (fun p => Op.Go p.1) ++
        [Op.Unlock, Op.blocking Blocking.Wait]))).all (fun op => !op.isBlocking) = true
      rw [List.append_assoc, ← List.append_assoc,
        critical_append true _ _ (by
          intro op hop
          simp only [List.mem_append, List.mem_cons, List.mem_singleton, List.not_mem_nil,
            or_false] at hop
          rcases hop with h | h | h | h
          · subst h; rfl
          · subst h; rfl
          · subst h; rfl
          · subst h; rfl),
        critical_append true _ _ hgo]
      simp only [critical, if_true, List.append_nil, List.all_append, List.all_cons,
        List.all_nil, Op.isBlocking, Bool.not_false, Bool.and_true, Bool.true_and]
      rw [Bool.and_eq_true]
      constructor
      · rw [List.all_eq_true]
        intro op hop
        obtain ⟨p, -, rfl⟩ := List.mem_map.1 hop
        rfl
      · rfl
  · intro p hp
    rw [critical_CloseOps]
    unfold CloseBody
    simp only [List.mem_append, List.mem_map]
    exact Or.inl (Or.inl (Or.inr ⟨p, hp, rfl⟩))
  · intro hg
    rw [critical_CloseOps]
    unfold CloseBody
    rw [if_pos hg]
    simp
  · unfold noBlockingUnderLock
    rw [critical_CloseOps]
    unfold CloseBody
    constructor
    · intro h
      rw [List.all_eq_true] at h
      constructor
      · cases hs : c.sessions with
        | nil => rfl
        | cons p rest =>
          have := h (Op.blocking (Blocking.Close p.1 p.2.id)) (by simp [hs])
          simp [Op.isBlocking] at this
      · cases hg : c.eg with
        | none => rfl
        | some g =>
          have := h (Op.blocking Blocking.Wait) (by simp [hg])
          simp [Op.isBlocking] at this
    · rintro ⟨hs, hg⟩
      rw [hs, hg]
      cases c.cancel <;> rfl

end MCPAdapters
